import Mathlib

/-!
# Response parser of `pcst-ai` (`backend/services/parser.go`)

A shallow embedding of the four response parsers
`ParseTroubleshootingResponse`, `ParseVCRAResponse`, `ParseSafetyResponse`
and `ParseCorrosionResponse`, together with the Go standard-library
functions they call, followed by theorems about them.

Modelling conventions.

* A Go `string` is modelled as the list of its Unicode code points
  (`GoString`); the texts handled by the service are valid UTF-8.
* A Go `float64` is modelled by `Float64`: the rational a finite value
  denotes, the negative zero, an infinity, or NaN.  `strconv.ParseFloat` and
  the division round to the nearest binary64 number, ties to even
  (`Float64.round`).
* A run-time failure (index out of range) is modelled by `none`.
-/

namespace PcstAi

/-! ## Go standard library: `unicode` and `strings` -/

/-- A Go string, as the list of its code points. -/
abbrev GoString := List Char

/-- Go `unicode.IsSpace`: the code points with the Unicode White_Space property. -/
def unicodeIsSpace (c : Char) : Bool :=
  c.toNat == 0x20 || (0x09 ≤ c.toNat && c.toNat ≤ 0x0D) || c.toNat == 0x85 ||
  c.toNat == 0xA0 || c.toNat == 0x1680 || (0x2000 ≤ c.toNat && c.toNat ≤ 0x200A) ||
  c.toNat == 0x2028 || c.toNat == 0x2029 || c.toNat == 0x202F ||
  c.toNat == 0x205F || c.toNat == 0x3000

/-- Go `unicode.ToUpper`, up to what an ASCII pattern can observe: ASCII
letters are upper-cased, and the two non-ASCII code points whose upper case is
an ASCII letter (U+0131 dotless i, U+017F long s) are mapped to it.  Every
other code point has a non-ASCII upper case in Go and is left unchanged here;
the parser only ever searches upper-cased text for ASCII phrases. -/
def unicodeToUpper (c : Char) : Char :=
  if 0x61 ≤ c.toNat ∧ c.toNat ≤ 0x7A then Char.ofNat (c.toNat - 0x20)
  else if c.toNat = 0x131 then 'I'
  else if c.toNat = 0x17F then 'S'
  else c

/-- Go `unicode.ToLower`, up to what an ASCII pattern can observe: ASCII
letters are lower-cased, and the two non-ASCII code points whose lower case is
an ASCII letter (U+0130 capital I with dot, U+212A Kelvin sign) are mapped to
it.  Every other code point is left unchanged. -/
def unicodeToLower (c : Char) : Char :=
  if 0x41 ≤ c.toNat ∧ c.toNat ≤ 0x5A then Char.ofNat (c.toNat + 0x20)
  else if c.toNat = 0x130 then 'i'
  else if c.toNat = 0x212A then 'k'
  else c

/-- Go `strings.ToUpper`. -/
def stringsToUpper (s : GoString) : GoString := s.map unicodeToUpper

/-- Go `strings.ToLower`. -/
def stringsToLower (s : GoString) : GoString := s.map unicodeToLower

/-- Go `strings.TrimSpace`: drop leading and trailing white space. -/
def stringsTrimSpace (s : GoString) : GoString :=
  ((s.dropWhile unicodeIsSpace).reverse.dropWhile unicodeIsSpace).reverse

/-- Go `strings.Trim(s, cutset)` for a one-character cutset: drop every leading
and every trailing occurrence of the character. -/
def stringsTrim (s : GoString) (cut : Char) : GoString :=
  ((s.dropWhile (· == cut)).reverse.dropWhile (· == cut)).reverse

/-- Go `strings.HasPrefix`. -/
def stringsStartsWith (s pre : GoString) : Bool := pre.isPrefixOf s

/-- Go `strings.Contains`. -/
def stringsContains : GoString → GoString → Bool
  | [], substr => substr.isPrefixOf []
  | c :: cs, substr => substr.isPrefixOf (c :: cs) || stringsContains cs substr

/-- Go `strings.Split(s, sep)` for a one-character separator. -/
def stringsSplit : GoString → Char → List GoString
  | [], _ => [[]]
  | c :: cs, sep =>
    if c = sep then [] :: stringsSplit cs sep
    else
      match stringsSplit cs sep with
      | [] => [[c]]
      | l :: ls => (c :: l) :: ls

/-- Go `strings.SplitN(s, sep, 2)` for a one-character separator: the text
before the first separator and the text after it, or the whole string alone
when there is no separator. -/
def stringsSplitN2 (s : GoString) (sep : Char) : List GoString :=
  if sep ∈ s then [s.takeWhile (· != sep), (s.dropWhile (· != sep)).drop 1]
  else [s]

/-- Go `strings.Replace(s, old, new, 1)`: replace the first occurrence. -/
def stringsReplaceFirst : GoString → GoString → GoString → GoString
  | [], old, new => if old.isEmpty then new else []
  | c :: cs, old, new =>
    if old.isPrefixOf (c :: cs) then new ++ (c :: cs).drop old.length
    else c :: stringsReplaceFirst cs old new

/-! ## Go standard library: `regexp` (the two patterns of the parser) -/

/-- A character of the class `\d` (ASCII digits only in Go's RE2 syntax). -/
def isDigit (c : Char) : Bool := 0x30 ≤ c.toNat && c.toNat ≤ 0x39

/-- The pattern `^\d+\.` applied with `MatchString`: one or more digits
at the start of the line, followed by a period. -/
def matchNumberedItem (line : GoString) : Bool :=
  match line with
  | [] => false
  | c :: _ =>
    isDigit c &&
      (match line.dropWhile isDigit with
       | d :: _ => d == '.'
       | [] => false)

/-- The pattern `[\d.]+` applied with `FindString`: the leftmost longest
run of digits and periods, or the empty string when there is none. -/
def findNumericRun (s : GoString) : GoString :=
  (s.dropWhile (fun c => !(isDigit c || c == '.'))).takeWhile (fun c => isDigit c || c == '.')

/-! ## Go `float64` and `strconv.ParseFloat` -/

/-- A `float64` value: a finite value other than the negative zero, given by
the rational it denotes (the positive zero is `finite 0`), the negative zero,
an infinity, or NaN.  The finite values built by the functions below are
binary64 numbers: they come out of `Float64.round`. -/
inductive Float64 where
  | finite (q : ℚ)
  | negZero
  | inf (negative : Bool)
  | nan
  deriving DecidableEq

/-- The integer nearest to a rational, a tie going to the even one. -/
def roundHalfEven (x : ℚ) : ℤ :=
  if x - ⌊x⌋ < 1 / 2 then ⌊x⌋
  else if 1 / 2 < x - ⌊x⌋ then ⌊x⌋ + 1
  else if ⌊x⌋ % 2 = 0 then ⌊x⌋ else ⌊x⌋ + 1

/-- The number of binary digits of `n`, by halving; `fuel` bounds the number
of halvings. -/
def bitLengthAux : Nat → Nat → Nat
  | 0, _ => 0
  | fuel + 1, n => if n = 0 then 0 else bitLengthAux fuel (n / 2) + 1

/-- The number of binary digits of `n` (0 for 0). -/
def bitLength (n : Nat) : Nat := bitLengthAux n n

/-- The integer part of the binary logarithm of a positive rational: the
difference `k` of the bit lengths of numerator and denominator, or `k - 1`. -/
def floorLog2 (q : ℚ) : ℤ :=
  let k : ℤ := (bitLength q.num.natAbs : ℤ) - (bitLength q.den : ℤ)
  if (2 : ℚ) ^ k ≤ q then k else k - 1

/-- The exponent of the unit in the last place of the binary64 numbers around
a positive rational: 53 significant bits, and -1074 for the subnormals. -/
def ulpExponent (q : ℚ) : ℤ := max (floorLog2 q - 52) (-1074)

/-- The multiple of the unit in the last place nearest to a non-negative
rational, a tie going to the even multiple (IEEE 754 round to nearest even,
before the overflow test). -/
def roundMagnitude (q : ℚ) : ℚ :=
  (roundHalfEven (q / (2 : ℚ) ^ ulpExponent q) : ℚ) * (2 : ℚ) ^ ulpExponent q

/-- The `float64` nearest to the number of the given sign and magnitude
(round to nearest even): an infinity when the rounded magnitude reaches
2^1024, a zero of the given sign on underflow. -/
def Float64.round (negative : Bool) (magnitude : ℚ) : Float64 :=
  if (2 : ℚ) ^ (1024 : ℕ) ≤ roundMagnitude magnitude then .inf negative
  else if negative then
    if roundMagnitude magnitude = 0 then .negZero else .finite (-roundMagnitude magnitude)
  else .finite (roundMagnitude magnitude)

/-- The comparison `val > 1`. -/
def Float64.gtOne : Float64 → Bool
  | .finite q => decide (1 < q)
  | .negZero => false
  | .inf negative => !negative
  | .nan => false

/-- The quotient `val / 100` of `float64` division: the exact quotient rounded
to nearest even. -/
def Float64.divHundred : Float64 → Float64
  | .finite q => Float64.round (decide (q < 0)) (|q| / 100)
  | .negZero => .negZero
  | .inf negative => .inf negative
  | .nan => .nan

/-- Go `strconv.special`: an optionally signed "inf" or "infinity", or an
unsigned "nan", in any letter case, at the start of the string; returns the
value and the number of characters read. -/
def special (s : GoString) : Option (Float64 × Nat) :=
  let signed := match s with
    | c :: _ => c == '+' || c == '-'
    | [] => false
  let negative := match s with
    | c :: _ => c == '-'
    | [] => false
  let body := (if signed then s.drop 1 else s).map Char.toLower
  let nsign := if signed then 1 else 0
  if "infinity".data.isPrefixOf body then some (.inf negative, nsign + 8)
  else if "inf".data.isPrefixOf body then some (.inf negative, nsign + 3)
  else if !signed && "nan".data.isPrefixOf body then some (.nan, 3)
  else none

/-- The digits read by `strconv.readFloat`: their value as a number in the
base, how many of them follow the point, and the two flags of the scanner.
The mantissa is kept exactly (Go keeps 19 digits and a truncation flag, and
converts the full decimal when digits were dropped). -/
structure Mantissa where
  value : Nat := 0
  fracDigits : Nat := 0
  sawdot : Bool := false
  sawdigits : Bool := false

/-- A hexadecimal letter digit (a-f, A-F). -/
def isHexLetter (c : Char) : Bool :=
  (0x61 ≤ c.toNat && c.toNat ≤ 0x66) || (0x41 ≤ c.toNat && c.toNat ≤ 0x46)

/-- The value of a hexadecimal letter digit. -/
def hexLetterValue (c : Char) : Nat :=
  if 0x61 ≤ c.toNat then c.toNat - 0x61 + 10 else c.toNat - 0x41 + 10

/-- The digit loop of `strconv.readFloat`: digits, underscores and at most one
point; returns the mantissa and the unread rest. -/
def readDigits (base : Nat) : GoString → Mantissa → Mantissa × GoString
  | [], m => (m, [])
  | c :: cs, m =>
    if c = '_' then readDigits base cs m
    else if c = '.' then
      if m.sawdot then (m, c :: cs)
      else readDigits base cs { m with sawdot := true }
    else if isDigit c then
      readDigits base cs
        { m with sawdigits := true
                 value := m.value * base + (c.toNat - 0x30)
                 fracDigits := if m.sawdot then m.fracDigits + 1 else m.fracDigits }
    else if base = 16 ∧ isHexLetter c then
      readDigits base cs
        { m with sawdigits := true
                 value := m.value * 16 + hexLetterValue c
                 fracDigits := if m.sawdot then m.fracDigits + 1 else m.fracDigits }
    else (m, c :: cs)

/-- The exponent loop of `strconv.readFloat`: digits and underscores, the
accumulated exponent no longer growing once it has reached 10000. -/
def readExponent : GoString → Nat → Nat × GoString
  | [], e => (e, [])
  | c :: cs, e =>
    if c = '_' then readExponent cs e
    else if isDigit c then
      readExponent cs (if e < 10000 then e * 10 + (c.toNat - 0x30) else e)
    else (e, c :: cs)

/-- The loop of `strconv.underscoreOK`; `saw` is the last character class seen
('0' digit or base prefix, '_' underscore, '!' other, '^' start). -/
def underscoreLoop (hex : Bool) : GoString → Char → Bool
  | [], saw => saw != '_'
  | c :: cs, saw =>
    if isDigit c || (hex && isHexLetter c) then underscoreLoop hex cs '0'
    else if c = '_' then
      if saw != '0' then false else underscoreLoop hex cs '_'
    else if saw = '_' then false
    else underscoreLoop hex cs '!'

/-- Go `strconv.underscoreOK`: underscores only between digits, or between
a base prefix and a digit. -/
def underscoreOK (s : GoString) : Bool :=
  let s1 := match s with
    | c :: cs => if c = '-' ∨ c = '+' then cs else s
    | [] => s
  match s1 with
  | '0' :: x :: rest =>
    if x.toLower = 'b' ∨ x.toLower = 'o' ∨ x.toLower = 'x' then
      underscoreLoop (x.toLower = 'x') rest '0'
    else underscoreLoop false s1 '^'
  | _ => underscoreLoop false s1 '^'

/-- The `float64` nearest to the value
`± mantissa * base ^ (-fracDigits) * (10 or 2) ^ exp` denoted by a scanned
number (round to nearest even, a zero on underflow), or `none` when the value
is out of the range of `float64` (`ErrRange`: at least half an ulp beyond the
largest finite value). -/
def floatValue (negative hex : Bool) (m : Mantissa) (exp : ℤ) : Option Float64 :=
  let magnitude : ℚ :=
    if hex then (m.value : ℚ) * (2 : ℚ) ^ (exp - 4 * (m.fracDigits : ℤ))
    else (m.value : ℚ) * (10 : ℚ) ^ (exp - (m.fracDigits : ℤ))
  if (2 : ℚ) ^ 1024 - (2 : ℚ) ^ 970 ≤ magnitude then none
  else some (Float64.round negative magnitude)

/-- Go `strconv.ParseFloat(s, 64)`; `none` stands for a non-nil error
(`ErrSyntax` or `ErrRange`).  The whole string must be read. -/
def strconvParseFloat (s : GoString) : Option Float64 :=
  match special s with
  | some (f, n) => if n = s.length then some f else none
  | none =>
    let negative := match s with
      | c :: _ => c == '-'
      | [] => false
    let s1 := match s with
      | c :: cs => if c = '+' ∨ c = '-' then cs else s
      | [] => s
    let hex := match s1 with
      | '0' :: x :: _ :: _ => x == 'x' || x == 'X'
      | _ => false
    let scanned := readDigits (if hex then 16 else 10) (if hex then s1.drop 2 else s1) {}
    let m := scanned.1
    if !m.sawdigits then none
    else if s.contains '_' && !underscoreOK s then none
    else
      match scanned.2 with
      | [] => if hex then none else floatValue negative hex m 0
      | c :: s2 =>
        if (if hex then c == 'p' || c == 'P' else c == 'e' || c == 'E') then
          let eneg := match s2 with
            | d :: _ => d == '-'
            | [] => false
          let s3 := match s2 with
            | d :: ds => if d = '+' ∨ d = '-' then ds else s2
            | [] => s2
          match s3 with
          | [] => none
          | d :: _ =>
            if !isDigit d then none
            else
              match readExponent s3 0 with
              | (e, []) => floatValue negative hex m (if eneg then -(e : ℤ) else (e : ℤ))
              | (_, _ :: _) => none
        else none

/-! ## `backend/services/parser.go` -/

/-- The test repeated at lines 46-50 of `ParseTroubleshootingResponse`:
the line begins with one of "1." ... "9.". -/
def startsWithNumeral (line : GoString) : Bool :=
  stringsStartsWith line "1.".data || stringsStartsWith line "2.".data ||
  stringsStartsWith line "3.".data || stringsStartsWith line "4.".data ||
  stringsStartsWith line "5.".data || stringsStartsWith line "6.".data ||
  stringsStartsWith line "7.".data || stringsStartsWith line "8.".data ||
  stringsStartsWith line "9.".data

/-- The test repeated at lines 132, 134, 184, 196, 198, 266 and 268: the line
begins with "-", with "•", or matches `^\d+\.`. -/
def isListItem (line : GoString) : Bool :=
  stringsStartsWith line "-".data || stringsStartsWith line "•".data ||
  matchNumberedItem line

/-- The level extraction repeated at lines 95-105, 161-171 and 226-236: split
the line at its first colon and classify what follows; `old` is the level so
far, kept when the line has no colon. -/
def levelFromHeader (line : GoString) (old : GoString) : GoString :=
  match stringsSplitN2 line ':' with
  | _ :: p :: _ =>
    let level := stringsToUpper (stringsTrimSpace p)
    if stringsContains level "HIGH".data then "HIGH".data
    else if stringsContains level "LOW".data then "LOW".data
    else "MEDIUM".data
  | _ => old

/-- The values returned by `ParseTroubleshootingResponse`. -/
structure TroubleshootingResult where
  analysis : GoString
  causes : List GoString
  steps : List GoString
  safetyWarnings : List GoString
  equipmentNotes : GoString
  deriving DecidableEq

/-- One iteration of the loop of `ParseTroubleshootingResponse` (lines 20-66);
the state is `currentSection` and the five accumulators. -/
def troubleshootingStep (st : String × TroubleshootingResult) (rawLine : GoString) :
    String × TroubleshootingResult :=
  let line := stringsTrimSpace rawLine
  if line = [] then st
  else
    let upperLine := stringsToUpper line
    if stringsContains upperLine "ANALYSIS:".data then
      ("analysis",
        { st.2 with analysis := stringsTrimSpace (stringsReplaceFirst line "ANALYSIS:".data []) })
    else if stringsContains upperLine "POSSIBLE CAUSES:".data then ("causes", st.2)
    else if stringsContains upperLine "TROUBLESHOOTING STEPS:".data then ("steps", st.2)
    else if stringsContains upperLine "SAFETY WARNINGS:".data then ("safety_warnings", st.2)
    else if stringsContains upperLine "EQUIPMENT NOTES:".data then ("equipment_notes", st.2)
    else if startsWithNumeral line then
      if st.1 = "causes" then (st.1, { st.2 with causes := st.2.causes ++ [line] })
      else if st.1 = "steps" then (st.1, { st.2 with steps := st.2.steps ++ [line] })
      else st
    else if stringsStartsWith line "-".data ∧ st.1 = "safety_warnings" then
      (st.1, { st.2 with safetyWarnings := st.2.safetyWarnings ++ [line] })
    else if st.1 = "equipment_notes" ∧ line ≠ [] then
      (st.1, { st.2 with
        equipmentNotes :=
          (if st.2.equipmentNotes ≠ [] then st.2.equipmentNotes ++ " ".data
           else st.2.equipmentNotes) ++ line })
    else if st.1 = "analysis" ∧ st.2.analysis = [] then
      (st.1, { st.2 with analysis := line })
    else st

/-- The function `ParseTroubleshootingResponse` (lines 10-69). -/
def ParseTroubleshootingResponse (text : GoString) : TroubleshootingResult :=
  ((stringsSplit text '\n').foldl troubleshootingStep
    ("", { analysis := [], causes := [], steps := [], safetyWarnings := [],
           equipmentNotes := [] })).2

/-- The values returned by `ParseVCRAResponse`. -/
structure VCRAResult where
  rootCause : GoString
  riskLevel : GoString
  confidence : Float64
  actions : List GoString
  timeline : List GoString
  deriving DecidableEq

/-- The confidence extraction of lines 109-120; `old` is the confidence so
far, kept when the line has no colon or the number does not parse. -/
def confidenceFromHeader (line : GoString) (old : Float64) : Float64 :=
  match stringsSplitN2 line ':' with
  | _ :: p :: _ =>
    match strconvParseFloat (stringsTrim (stringsTrimSpace p) '%') with
    | some val => if val.gtOne then val.divHundred else val
    | none => old
  | _ => old

/-- One iteration of the loop of `ParseVCRAResponse` (lines 81-137); `none`
is the index-out-of-range failure of the unguarded `[1]` at line 91. -/
def vcraStep (st : String × VCRAResult) (rawLine : GoString) :
    Option (String × VCRAResult) :=
  let line := stringsTrimSpace rawLine
  if line = [] then some st
  else
    let upperLine := stringsToUpper line
    if stringsContains upperLine "ROOT CAUSE:".data then
      match (stringsSplitN2 line ':')[1]? with
      | some p => some ("root", { st.2 with rootCause := stringsTrimSpace p })
      | none => none
    else if stringsContains upperLine "RISK LEVEL:".data then
      some ("", { st.2 with riskLevel := levelFromHeader line st.2.riskLevel })
    else if stringsContains upperLine "CONFIDENCE:".data then
      some ("", { st.2 with confidence := confidenceFromHeader line st.2.confidence })
    else if stringsContains upperLine "IMMEDIATE ACTIONS:".data ||
        stringsContains upperLine "RECOMMENDED ACTIONS:".data then
      some ("actions", st.2)
    else if stringsContains upperLine "TIMELINE:".data ||
        stringsContains upperLine "RECOVERY TIMELINE:".data then
      some ("timeline", st.2)
    else if st.1 = "root" ∧ st.2.rootCause = [] then
      some (st.1, { st.2 with rootCause := line })
    else if st.1 = "actions" ∧ isListItem line then
      some (st.1, { st.2 with actions := st.2.actions ++ [line] })
    else if st.1 = "timeline" ∧ isListItem line then
      some (st.1, { st.2 with timeline := st.2.timeline ++ [line] })
    else some st

/-- The function `ParseVCRAResponse` (lines 71-140); `none` is a run-time
failure. -/
def ParseVCRAResponse (text : GoString) : Option VCRAResult :=
  ((stringsSplit text '\n').foldlM vcraStep
    ("", { rootCause := [], riskLevel := "MEDIUM".data, confidence := .finite 0.75,
           actions := [], timeline := [] })).map Prod.snd

/-- A hazard entry: the `map[string]string` with the keys "name", "severity"
and "probability" built at lines 185-194. -/
structure Hazard where
  name : GoString
  severity : GoString
  probability : GoString
  deriving DecidableEq

/-- The hazard built from a line at lines 185-194. -/
def hazardOfLine (line : GoString) : Hazard :=
  { name := line
    severity :=
      if stringsContains (stringsToLower line) "high".data ||
          stringsContains (stringsToLower line) "critical".data then "High".data
      else if stringsContains (stringsToLower line) "low".data ||
          stringsContains (stringsToLower line) "minor".data then "Low".data
      else "Medium".data
    probability := "Medium".data }

/-- The values returned by `ParseSafetyResponse`. -/
structure SafetyResult where
  hazardLevel : GoString
  hazards : List Hazard
  mitigations : List GoString
  standards : List GoString
  deriving DecidableEq

/-- One iteration of the loop of `ParseSafetyResponse` (lines 151-201). -/
def safetyStep (st : String × SafetyResult) (rawLine : GoString) : String × SafetyResult :=
  let line := stringsTrimSpace rawLine
  if line = [] then st
  else
    let upperLine := stringsToUpper line
    if stringsContains upperLine "HAZARD LEVEL:".data ||
        stringsContains upperLine "OVERALL RISK:".data then
      ("", { st.2 with hazardLevel := levelFromHeader line st.2.hazardLevel })
    else if stringsContains upperLine "IDENTIFIED HAZARDS:".data ||
        stringsContains upperLine "HAZARDS:".data then
      ("hazards", st.2)
    else if stringsContains upperLine "MITIGATIONS:".data ||
        stringsContains upperLine "RECOMMENDED MITIGATIONS:".data then
      ("mitigations", st.2)
    else if stringsContains upperLine "STANDARDS:".data ||
        stringsContains upperLine "RELEVANT STANDARDS:".data then
      ("standards", st.2)
    else if st.1 = "hazards" ∧ isListItem line then
      (st.1, { st.2 with hazards := st.2.hazards ++ [hazardOfLine line] })
    else if st.1 = "mitigations" ∧ isListItem line then
      (st.1, { st.2 with mitigations := st.2.mitigations ++ [line] })
    else if st.1 = "standards" ∧ isListItem line then
      (st.1, { st.2 with standards := st.2.standards ++ [line] })
    else st

/-- The function `ParseSafetyResponse` (lines 142-204). -/
def ParseSafetyResponse (text : GoString) : SafetyResult :=
  ((stringsSplit text '\n').foldl safetyStep
    ("", { hazardLevel := "MEDIUM".data, hazards := [], mitigations := [],
           standards := [] })).2

/-- The values returned by `ParseCorrosionResponse`. -/
structure CorrosionResult where
  riskLevel : GoString
  corrosionRate : Float64
  mechanisms : List GoString
  recommendations : List GoString
  estimatedLife : GoString
  deriving DecidableEq

/-- The rate extraction of lines 240-249; `old` is the rate so far, kept when
the line has no colon, no run of digits and periods, or the run does not
parse. -/
def rateFromHeader (line : GoString) (old : Float64) : Float64 :=
  match stringsSplitN2 line ':' with
  | _ :: p :: _ =>
    let found := findNumericRun (stringsTrimSpace p)
    if found ≠ [] then
      match strconvParseFloat found with
      | some val => val
      | none => old
    else old
  | _ => old

/-- The estimated-life extraction of lines 253-256. -/
def lifeFromHeader (line : GoString) (old : GoString) : GoString :=
  match stringsSplitN2 line ':' with
  | _ :: p :: _ => stringsTrimSpace p
  | _ => old

/-- One iteration of the loop of `ParseCorrosionResponse` (lines 216-271). -/
def corrosionStep (st : String × CorrosionResult) (rawLine : GoString) :
    String × CorrosionResult :=
  let line := stringsTrimSpace rawLine
  if line = [] then st
  else
    let upperLine := stringsToUpper line
    if stringsContains upperLine "RISK LEVEL:".data ||
        stringsContains upperLine "CORROSION RISK:".data then
      ("", { st.2 with riskLevel := levelFromHeader line st.2.riskLevel })
    else if stringsContains upperLine "CORROSION RATE:".data then
      ("", { st.2 with corrosionRate := rateFromHeader line st.2.corrosionRate })
    else if stringsContains upperLine "ESTIMATED LIFE:".data ||
        stringsContains upperLine "EQUIPMENT LIFE:".data then
      ("", { st.2 with estimatedLife := lifeFromHeader line st.2.estimatedLife })
    else if stringsContains upperLine "MECHANISMS:".data ||
        stringsContains upperLine "CORROSION MECHANISMS:".data then
      ("mechanisms", st.2)
    else if stringsContains upperLine "RECOMMENDATIONS:".data then
      ("recommendations", st.2)
    else if st.1 = "mechanisms" ∧ isListItem line then
      (st.1, { st.2 with mechanisms := st.2.mechanisms ++ [line] })
    else if st.1 = "recommendations" ∧ isListItem line then
      (st.1, { st.2 with recommendations := st.2.recommendations ++ [line] })
    else st

/-- The function `ParseCorrosionResponse` (lines 206-274). -/
def ParseCorrosionResponse (text : GoString) : CorrosionResult :=
  ((stringsSplit text '\n').foldl corrosionStep
    ("", { riskLevel := "MEDIUM".data, corrosionRate := .finite 0.5, mechanisms := [],
           recommendations := [], estimatedLife := "10-15 years".data })).2

/-! ## Vocabulary of the statements -/

/-- The header phrases tested by `ParseTroubleshootingResponse` (lines 28-41). -/
def troubleshootingHeaders : List GoString :=
  ["ANALYSIS:".data, "POSSIBLE CAUSES:".data, "TROUBLESHOOTING STEPS:".data,
   "SAFETY WARNINGS:".data, "EQUIPMENT NOTES:".data]

/-- The header phrases tested by `ParseVCRAResponse` (lines 89-125). -/
def vcraHeaders : List GoString :=
  ["ROOT CAUSE:".data, "RISK LEVEL:".data, "CONFIDENCE:".data, "IMMEDIATE ACTIONS:".data,
   "RECOMMENDED ACTIONS:".data, "TIMELINE:".data, "RECOVERY TIMELINE:".data]

/-- The header phrases tested by `ParseSafetyResponse` (lines 159-179). -/
def safetyHeaders : List GoString :=
  ["HAZARD LEVEL:".data, "OVERALL RISK:".data, "IDENTIFIED HAZARDS:".data, "HAZARDS:".data,
   "MITIGATIONS:".data, "RECOMMENDED MITIGATIONS:".data, "STANDARDS:".data,
   "RELEVANT STANDARDS:".data]

/-- The header phrases tested by `ParseCorrosionResponse` (lines 224-261). -/
def corrosionHeaders : List GoString :=
  ["RISK LEVEL:".data, "CORROSION RISK:".data, "CORROSION RATE:".data,
   "ESTIMATED LIFE:".data, "EQUIPMENT LIFE:".data, "MECHANISMS:".data,
   "CORROSION MECHANISMS:".data, "RECOMMENDATIONS:".data]

/-- The line contains the phrase case-insensitively, in the parser's sense:
its upper-cased text contains the phrase. -/
def containsPhrase (line phrase : GoString) : Bool :=
  stringsContains (stringsToUpper line) phrase

/-- The line contains, case-insensitively, one of the given header phrases. -/
def hasHeader (headers : List GoString) (line : GoString) : Bool :=
  headers.any (containsPhrase line)

/-- The result of `ParseTroubleshootingResponse` when nothing is recognised. -/
def troubleshootingDefault : TroubleshootingResult :=
  { analysis := [], causes := [], steps := [], safetyWarnings := [], equipmentNotes := [] }

/-- The result of `ParseVCRAResponse` when nothing is recognised. -/
def vcraDefault : VCRAResult :=
  { rootCause := [], riskLevel := "MEDIUM".data, confidence := .finite 0.75,
    actions := [], timeline := [] }

/-- The result of `ParseSafetyResponse` when nothing is recognised. -/
def safetyDefault : SafetyResult :=
  { hazardLevel := "MEDIUM".data, hazards := [], mitigations := [], standards := [] }

/-- The result of `ParseCorrosionResponse` when nothing is recognised. -/
def corrosionDefault : CorrosionResult :=
  { riskLevel := "MEDIUM".data, corrosionRate := .finite 0.5, mechanisms := [],
    recommendations := [], estimatedLife := "10-15 years".data }

/-- The part of a line after its first colon (empty when it has no colon). -/
def afterFirstColon (line : GoString) : GoString :=
  (line.dropWhile (· != ':')).drop 1

/-- The part of a line after the first occurrence, in any letter case, of a
phrase; `none` when the phrase does not occur. -/
def afterPhrase : GoString → GoString → Option GoString
  | [], _ => none
  | c :: cs, phrase =>
    if phrase.isPrefixOf (stringsToUpper (c :: cs)) then some ((c :: cs).drop phrase.length)
    else afterPhrase cs phrase

/-- The level named by a piece of text, as the specification words it: HIGH
if it contains "HIGH" in any letter case, else LOW if it contains "LOW" in
any letter case, else MEDIUM. -/
def classifyLevel (rest : GoString) : GoString :=
  if containsPhrase rest "HIGH".data then "HIGH".data
  else if containsPhrase rest "LOW".data then "LOW".data
  else "MEDIUM".data

/-- The level header phrase of `ParseVCRAResponse` (line 93). -/
def vcraLevelHeaders : List GoString := ["RISK LEVEL:".data]

/-- The level header phrases of `ParseSafetyResponse` (line 159). -/
def safetyLevelHeaders : List GoString := ["HAZARD LEVEL:".data, "OVERALL RISK:".data]

/-- The level header phrases of `ParseCorrosionResponse` (line 224). -/
def corrosionLevelHeaders : List GoString := ["RISK LEVEL:".data, "CORROSION RISK:".data]

/-- The run of the specification's wording of the corrosion rate: the first
run of digits containing at most one decimal point (digits, optionally a
point and further digits, or a point followed by digits); empty when the
text has no digit. -/
def firstDecimalRun : GoString → GoString
  | [] => []
  | c :: cs =>
    if isDigit c then
      match (c :: cs).dropWhile isDigit with
      | '.' :: r => (c :: cs).takeWhile isDigit ++ '.' :: r.takeWhile isDigit
      | _ => (c :: cs).takeWhile isDigit
    else if c = '.' ∧ (cs.head?.map isDigit).getD false then '.' :: cs.takeWhile isDigit
    else firstDecimalRun cs

/-- The rate the specification's wording assigns to the remainder `s` of a
"CORROSION RATE:" line: the value of `firstDecimalRun s`, or the default 0.5
when there is no such run or it does not parse. -/
def ratePerWording (s : GoString) : Float64 :=
  if firstDecimalRun s = [] then .finite 0.5
  else (strconvParseFloat (firstDecimalRun s)).getD (.finite 0.5)

/-- The rate `ParseCorrosionResponse` assigns to the remainder `s` of a
"CORROSION RATE:" line: the value of the first maximal run of digits and
periods of `s`, or the default 0.5 when `s` has no digit or period or the run
is not accepted by `strconv.ParseFloat`. -/
def rateOfRemainder (s : GoString) : Float64 :=
  if findNumericRun s = [] then .finite 0.5
  else (strconvParseFloat (findNumericRun s)).getD (.finite 0.5)

/-- The line begins with a digit 1-9 immediately followed by a period. -/
def beginsWithNumeral (line : GoString) : Bool :=
  match line with
  | d :: p :: _ => 0x31 ≤ d.toNat && d.toNat ≤ 0x39 && p == '.'
  | _ => false

/-- The lines joined in order with exactly one space between consecutive
lines. -/
def joinWithSpace : List GoString → GoString
  | [] => []
  | [x] => x
  | x :: y :: rest => x ++ ' ' :: joinWithSpace (y :: rest)

/-- The section a header line of `ParseSafetyResponse` opens (lines 159-181):
"" for a level header, otherwise the name of the list section; `none` for a
line that is not a header line. -/
def safetySectionOfHeader (line : GoString) : Option String :=
  if containsPhrase line "HAZARD LEVEL:".data || containsPhrase line "OVERALL RISK:".data then
    some ""
  else if containsPhrase line "IDENTIFIED HAZARDS:".data ||
      containsPhrase line "HAZARDS:".data then some "hazards"
  else if containsPhrase line "MITIGATIONS:".data ||
      containsPhrase line "RECOMMENDED MITIGATIONS:".data then some "mitigations"
  else if containsPhrase line "STANDARDS:".data ||
      containsPhrase line "RELEVANT STANDARDS:".data then some "standards"
  else none

/-- The lines under the section `sec`: the non-blank lines, whitespace-trimmed
and in source order, that are not header lines and whose most recent header
line opened `sec`.  `sectionOf` tells which section a header line opens and
`cur` is the section in force before the first line. -/
def linesUnder (sectionOf : GoString → Option String) (sec : String) :
    String → List GoString → List GoString
  | _, [] => []
  | cur, l :: ls =>
    if stringsTrimSpace l = [] then linesUnder sectionOf sec cur ls
    else
      match sectionOf l with
      | some s => linesUnder sectionOf sec s ls
      | none =>
        if cur = sec then stringsTrimSpace l :: linesUnder sectionOf sec cur ls
        else linesUnder sectionOf sec cur ls

/-- The three level names a parser can return. -/
def levelNames : List GoString := ["HIGH".data, "MEDIUM".data, "LOW".data]

/-- The first non-blank line of a list of lines, whitespace-trimmed; empty
when every line is blank. -/
def firstNonBlank : List GoString → GoString
  | [] => []
  | l :: ls => if stringsTrimSpace l = [] then firstNonBlank ls else stringsTrimSpace l

/-- The section a header line of `ParseTroubleshootingResponse` opens (lines
28-43); `none` for a line that is not a header line. -/
def troubleshootingSectionOfHeader (line : GoString) : Option String :=
  if containsPhrase line "ANALYSIS:".data then some "analysis"
  else if containsPhrase line "POSSIBLE CAUSES:".data then some "causes"
  else if containsPhrase line "TROUBLESHOOTING STEPS:".data then some "steps"
  else if containsPhrase line "SAFETY WARNINGS:".data then some "safety_warnings"
  else if containsPhrase line "EQUIPMENT NOTES:".data then some "equipment_notes"
  else none

/-- The section a header line of `ParseVCRAResponse` opens (lines 89-127):
"" for the level and confidence headers; `none` for a line that is not a
header line. -/
def vcraSectionOfHeader (line : GoString) : Option String :=
  if containsPhrase line "ROOT CAUSE:".data then some "root"
  else if containsPhrase line "RISK LEVEL:".data then some ""
  else if containsPhrase line "CONFIDENCE:".data then some ""
  else if containsPhrase line "IMMEDIATE ACTIONS:".data ||
      containsPhrase line "RECOMMENDED ACTIONS:".data then some "actions"
  else if containsPhrase line "TIMELINE:".data ||
      containsPhrase line "RECOVERY TIMELINE:".data then some "timeline"
  else none

/-- The section a header line of `ParseCorrosionResponse` opens (lines
224-263): "" for the level, rate and life headers; `none` for a line that is
not a header line. -/
def corrosionSectionOfHeader (line : GoString) : Option String :=
  if containsPhrase line "RISK LEVEL:".data || containsPhrase line "CORROSION RISK:".data then
    some ""
  else if containsPhrase line "CORROSION RATE:".data then some ""
  else if containsPhrase line "ESTIMATED LIFE:".data ||
      containsPhrase line "EQUIPMENT LIFE:".data then some ""
  else if containsPhrase line "MECHANISMS:".data ||
      containsPhrase line "CORROSION MECHANISMS:".data then some "mechanisms"
  else if containsPhrase line "RECOMMENDATIONS:".data then some "recommendations"
  else none

/-- The section in force after a line: unchanged by a blank line and by a
line that is not a header line, otherwise the section the header opens. -/
def sectionAfter (sectionOf : GoString → Option String) (cur : String) (l : GoString) :
    String :=
  if stringsTrimSpace l = [] then cur else (sectionOf l).getD cur

/-- The non-blank lines of a text, whitespace-trimmed, in source order. -/
def nonBlankLines (text : GoString) : List GoString :=
  ((stringsSplit text '\n').map stringsTrimSpace).filter (fun l => l != [])

/-- The phrases of the list begin and end with a character that is not white
space, so trimming a line cannot remove part of one. -/
def phrasesTrimmed (hs : List GoString) : Bool :=
  hs.all (fun p => p.head?.any (fun c => !unicodeIsSpace c) &&
    p.getLast?.any (fun c => !unicodeIsSpace c))

/-- The non-blank lines of a list of lines, whitespace-trimmed, in order. -/
def trimmedNonBlank (ls : List GoString) : List GoString :=
  (ls.map stringsTrimSpace).filter (fun l => l != [])

/-! ## Theorems -/

/-! ### Rounding to binary64 -/

theorem bitLengthAux_zero (fuel : Nat) : bitLengthAux fuel 0 = 0 := by
  cases fuel <;> simp [bitLengthAux]

theorem bitLengthAux_spec (fuel : Nat) :
    ∀ n, n ≤ fuel → n ≠ 0 →
      2 ^ (bitLengthAux fuel n - 1) ≤ n ∧ n < 2 ^ bitLengthAux fuel n := by
  induction fuel with
  | zero => intro n h h0; omega
  | succ fuel ih =>
    intro n h h0
    rw [bitLengthAux, if_neg h0]
    by_cases h2 : n / 2 = 0
    · rw [h2, bitLengthAux_zero]
      have : n = 1 := by omega
      subst this
      simp
    · obtain ⟨l, u⟩ := ih (n / 2) (by omega) h2
      have hpos : bitLengthAux fuel (n / 2) ≠ 0 := by
        intro hz
        rw [hz] at u
        simp at u
        exact h2 u
      obtain ⟨b, hb⟩ := Nat.exists_eq_succ_of_ne_zero hpos
      rw [hb] at l u ⊢
      simp only [Nat.succ_eq_add_one, Nat.add_sub_cancel] at l u ⊢
      rw [pow_succ] at u ⊢
      rw [pow_succ]
      constructor <;> omega

theorem bitLength_spec {n : Nat} (h : n ≠ 0) :
    2 ^ (bitLength n - 1) ≤ n ∧ n < 2 ^ bitLength n :=
  bitLengthAux_spec n n le_rfl h

theorem bitLength_pos {n : Nat} (h : n ≠ 0) : 0 < bitLength n := by
  by_contra h0
  have := (bitLength_spec h).2
  rw [show bitLength n = 0 by omega] at this
  simp at this
  exact h this

theorem le_roundHalfEven {x : ℚ} {N : ℤ} (h : (N : ℚ) ≤ x) : N ≤ roundHalfEven x := by
  have hf : N ≤ ⌊x⌋ := Int.le_floor.mpr h
  unfold roundHalfEven
  split_ifs <;> omega

theorem le_roundMagnitude {q : ℚ} {a : ℤ} (he : ulpExponent q ≤ a) (h : (2 : ℚ) ^ a ≤ q) :
    (2 : ℚ) ^ a ≤ roundMagnitude q := by
  have hpos : (0 : ℚ) < (2 : ℚ) ^ ulpExponent q := by positivity
  obtain ⟨n, hn⟩ := Int.eq_ofNat_of_zero_le (sub_nonneg.mpr he)
  have e : (2 : ℚ) ^ a = ((2 ^ n : ℕ) : ℤ) * (2 : ℚ) ^ ulpExponent q := by
    have : a = (n : ℤ) + ulpExponent q := by omega
    rw [this, zpow_add₀ (by norm_num), zpow_natCast]
    push_cast
    rfl
  unfold roundMagnitude
  rw [e]
  refine mul_le_mul_of_nonneg_right ?_ hpos.le
  have hx : (((2 ^ n : ℕ) : ℤ) : ℚ) ≤ q / (2 : ℚ) ^ ulpExponent q := by
    rw [le_div_iff₀ hpos, ← e]
    exact h
  exact_mod_cast le_roundHalfEven hx

/-- For a positive rational, the binary logarithm is below `floorLog2` plus
one: with `two_zpow_floorLog2_le`, `floorLog2` is its integer part. -/
theorem lt_two_zpow_floorLog2 {q : ℚ} (hq : 0 < q) : q < (2 : ℚ) ^ (floorLog2 q + 1) := by
  unfold floorLog2
  simp only []
  split_ifs with h
  · have hn : q.num.natAbs ≠ 0 := by
      simpa using (Rat.num_pos.mpr hq).ne'
    have hd : q.den ≠ 0 := q.den_nz
    have bn := (bitLength_spec hn).2
    have bd := (bitLength_spec hd).1
    have pd := bitLength_pos hd
    have e : ((bitLength q.num.natAbs : ℤ) - (bitLength q.den : ℤ) + 1) =
        ((bitLength q.num.natAbs : ℕ) : ℤ) - ((bitLength q.den - 1 : ℕ) : ℤ) := by
      omega
    rw [e, zpow_sub₀ (by norm_num), zpow_natCast, zpow_natCast]
    have h2 : ((q.num.natAbs : ℕ) : ℚ) = (q.num : ℚ) := by
      rw [Nat.cast_natAbs, abs_of_nonneg (Rat.num_pos.mpr hq).le]
    have hq' : q = (q.num.natAbs : ℚ) / (q.den : ℚ) := by
      rw [h2]
      exact (Rat.num_div_den q).symm
    have bn' : (q.num.natAbs : ℚ) < (2 : ℚ) ^ bitLength q.num.natAbs := by
      exact_mod_cast bn
    have bd' : (2 : ℚ) ^ (bitLength q.den - 1) ≤ (q.den : ℚ) := by
      exact_mod_cast bd
    have dpos : (0 : ℚ) < (2 : ℚ) ^ (bitLength q.den - 1) := by positivity
    refine lt_of_eq_of_lt hq' ?_
    exact div_lt_div₀ bn' bd' (by positivity) dpos
  · rw [sub_add_cancel]
    exact not_le.mp h

/-- The quotient of a `float64` above 1 by 100 is the `float64` nearest to the
exact quotient; a value not above 1 is kept. -/
theorem confidence_of_value (v : ℚ) :
    (if (Float64.finite v).gtOne then (Float64.finite v).divHundred else Float64.finite v) =
      if 1 < v then Float64.round false (v / 100) else .finite v := by
  by_cases h : 1 < v
  · have h0 : ¬ v < 0 := by linarith
    have ha : |v| = v := abs_of_nonneg (by linarith)
    simp [Float64.gtOne, Float64.divHundred, h, h0, ha]
  · simp [Float64.gtOne, h]

/-- Anchor values of the `float64` model: a numeral within half an ulp of 1
reads as 1; 2^53 + 1 reads as 2^53 (tie to even) and 2^53 + 3 as 2^53 + 4; a
numeral below half the least subnormal reads as zero and "4.9e-324" as the
least subnormal 2^-1074; "-0" reads as the negative zero; "1e309" is out of
range; the quotient of the `float64` 1.000001 by 100 is
0.010000009999999998, not the `float64` nearest to 0.01000001. -/
theorem float64_anchor_values :
    strconvParseFloat "1.0000000000000001".data = some (.finite 1) ∧
    strconvParseFloat "9007199254740993".data = some (.finite 9007199254740992) ∧
    strconvParseFloat "9007199254740995".data = some (.finite 9007199254740996) ∧
    strconvParseFloat "1e-400".data = some (.finite 0) ∧
    strconvParseFloat "4.9e-324".data = some (.finite (1 / 2 ^ 1074)) ∧
    strconvParseFloat "-0".data = some .negZero ∧
    strconvParseFloat "1e309".data = none ∧
    strconvParseFloat "0x1.8p1".data = some (.finite 3) ∧
    strconvParseFloat "1.000001".data = some (.finite (4503604130970123 / 2 ^ 52)) ∧
    (Float64.finite (4503604130970123 / 2 ^ 52)).divHundred =
      .finite (5764613287641757 / 2 ^ 59) ∧
    Float64.round false 0.01000001 = .finite (2882306643820879 / 2 ^ 58) := by
  decide!

/-! ### The string functions -/

theorem stringsContains_iff (s p : GoString) : stringsContains s p = true ↔ p <:+: s := by
  induction s with
  | nil => simp [stringsContains]
  | cons c cs ih => simp [stringsContains, ih, List.infix_cons_iff]

theorem stringsTrimSpace_within (s : GoString) : stringsTrimSpace s <:+: s := by
  have h1 : stringsTrimSpace s <+: s.dropWhile unicodeIsSpace :=
    List.rdropWhile_prefix (p := unicodeIsSpace) (l := s.dropWhile unicodeIsSpace)
  exact h1.isInfix.trans (List.dropWhile_suffix unicodeIsSpace).isInfix

theorem containsPhrase_of_trim {l p : GoString}
    (h : stringsContains (stringsToUpper (stringsTrimSpace l)) p = true) :
    containsPhrase l p = true := by
  rw [containsPhrase, stringsContains_iff] at *
  exact h.trans (List.IsInfix.map unicodeToUpper (stringsTrimSpace_within l))

theorem not_contains_of_hasHeader {hs : List GoString} {l p : GoString}
    (h : hasHeader hs l = false) (hp : p ∈ hs) :
    stringsContains (stringsToUpper (stringsTrimSpace l)) p = false := by
  cases hc : stringsContains (stringsToUpper (stringsTrimSpace l)) p with
  | false => rfl
  | true =>
    have h2 := containsPhrase_of_trim hc
    have h3 : hasHeader hs l = true := List.any_eq_true.mpr ⟨p, hp, h2⟩
    rw [h] at h3
    exact absurd h3 (by decide)

theorem unicodeToUpper_eq_colon {c : Char} (h : unicodeToUpper c = ':') : c = ':' := by
  unfold unicodeToUpper at h
  split_ifs at h with h1 h2 h3
  · obtain ⟨n, hn⟩ : ∃ n, c.toNat = n := ⟨_, rfl⟩
    rw [hn] at h h1
    obtain ⟨h1a, h1b⟩ := h1
    interval_cases n <;> exact absurd h (by decide)
  · exact absurd h (by decide)
  · exact absurd h (by decide)
  · exact h

theorem colon_mem_of_contains {line p : GoString} (hp : ':' ∈ p)
    (h : stringsContains (stringsToUpper line) p = true) : ':' ∈ line := by
  rw [stringsContains_iff] at h
  have h1 : ':' ∈ stringsToUpper line := h.subset hp
  obtain ⟨c, hc, hcu⟩ := List.mem_map.mp h1
  rw [unicodeToUpper_eq_colon hcu] at hc
  exact hc

theorem stringsSplitN2_of_mem {s : GoString} {sep : Char} (h : sep ∈ s) :
    stringsSplitN2 s sep = [s.takeWhile (· != sep), (s.dropWhile (· != sep)).drop 1] := by
  simp [stringsSplitN2, h]

theorem unicodeIsSpace_toUpper (c : Char) : unicodeIsSpace (unicodeToUpper c) = unicodeIsSpace c := by
  unfold unicodeToUpper
  split_ifs with h1 h2 h3
  · obtain ⟨n, hn⟩ : ∃ n, c.toNat = n := ⟨_, rfl⟩
    have hc : unicodeIsSpace c = false := by
      simp only [unicodeIsSpace, hn]
      obtain ⟨h1a, h1b⟩ := h1
      rw [hn] at h1a h1b
      interval_cases n <;> decide
    rw [hc, hn]
    rw [hn] at h1
    obtain ⟨h1a, h1b⟩ := h1
    interval_cases n <;> decide
  · simp [unicodeIsSpace, h2]
  · simp [unicodeIsSpace, h3]
  · rfl

theorem infix_dropWhile_of_head {α : Type} (p : α → Bool) (P g : List α) (hne : P ≠ [])
    (ha : p (P.head hne) = false) (h : P <:+: g) : P <:+: g.dropWhile p := by
  induction g with
  | nil => simp at h; exact absurd h hne
  | cons c g ih =>
    by_cases hc : p c = true
    · rw [List.dropWhile_cons_of_pos hc]
      rcases List.infix_cons_iff.mp h with h1 | h1
      · have : P.head hne = c := by
          obtain ⟨t, ht⟩ := h1
          cases P with
          | nil => exact absurd rfl hne
          | cons a P =>
            simp at ht
            simpa using ht.1
        rw [this, hc] at ha
        exact absurd ha (by decide)
      · exact ih h1
    · rw [List.dropWhile_cons_of_neg hc]
      exact h

theorem infix_trim_of_infix {α : Type} (p : α → Bool) (P g : List α) (hne : P ≠ [])
    (hh : p (P.head hne) = false) (hl : p (P.getLast hne) = false) (h : P <:+: g) :
    P <:+: ((g.dropWhile p).reverse.dropWhile p).reverse := by
  have h1 := infix_dropWhile_of_head p P g hne hh h
  have hne2 : P.reverse ≠ [] := by simpa using hne
  have h2 : P.reverse <:+: (g.dropWhile p).reverse := List.reverse_infix.mpr h1
  have h3 := infix_dropWhile_of_head p P.reverse _ hne2 (by simpa using hl) h2
  have h4 := List.reverse_infix.mpr h3
  simpa using h4

theorem stringsTrimSpace_map_toUpper (l : GoString) :
    stringsToUpper (stringsTrimSpace l) = stringsTrimSpace (stringsToUpper l) := by
  have hf : (unicodeIsSpace ∘ unicodeToUpper) = unicodeIsSpace :=
    funext unicodeIsSpace_toUpper
  simp only [stringsToUpper, stringsTrimSpace, List.dropWhile_map, ← List.map_reverse, hf]

/-- A phrase whose first and last characters are not white space occurs in
the trimmed line exactly when it occurs in the line. -/
theorem containsPhrase_trim (l p : GoString) (hne : p ≠ [])
    (hh : unicodeIsSpace (p.head hne) = false) (hl : unicodeIsSpace (p.getLast hne) = false) :
    containsPhrase (stringsTrimSpace l) p = containsPhrase l p := by
  cases h : containsPhrase l p with
  | true =>
    rw [containsPhrase, stringsContains_iff] at *
    rw [stringsTrimSpace_map_toUpper]
    exact infix_trim_of_infix unicodeIsSpace p _ hne hh hl h
  | false =>
    cases h2 : containsPhrase (stringsTrimSpace l) p with
    | false => rfl
    | true =>
      rw [containsPhrase_of_trim h2] at h
      exact h

theorem contains_trim_of_hasHeader {hs : List GoString} {l : GoString}
    (hp : ∀ p ∈ hs, ∃ hne : p ≠ [], unicodeIsSpace (p.head hne) = false ∧
      unicodeIsSpace (p.getLast hne) = false)
    (h : hasHeader hs l = true) :
    ∃ p ∈ hs, stringsContains (stringsToUpper (stringsTrimSpace l)) p = true := by
  obtain ⟨p, hpm, hc⟩ := List.any_eq_true.mp h
  obtain ⟨hne, hh, hl⟩ := hp p hpm
  refine ⟨p, hpm, ?_⟩
  have := containsPhrase_trim l p hne hh hl
  rw [hc] at this
  exact this

/-! ### Trimming a header line -/

theorem stringsTrimSpace_eq (s : GoString) :
    stringsTrimSpace s = (s.dropWhile unicodeIsSpace).rdropWhile unicodeIsSpace := rfl

theorem dropWhile_rdropWhile_comm {α : Type} (p : α → Bool) (s : List α) :
    (s.rdropWhile p).dropWhile p = (s.dropWhile p).rdropWhile p := by
  induction s using List.reverseRecOn with
  | nil => simp
  | append_singleton l x ih =>
    by_cases hx : p x = true
    · rw [List.rdropWhile_concat_pos p l x hx, ih, List.dropWhile_append]
      split_ifs with he
      · have : List.dropWhile p l = [] := by simpa using he
        simp [this, hx]
      · rw [List.rdropWhile_concat_pos p _ x hx]
    · rw [List.rdropWhile_concat_neg p l x hx, List.dropWhile_append]
      split_ifs with he
      · simp [hx, List.rdropWhile_singleton]
      · rw [List.rdropWhile_concat_neg p _ x hx]

theorem rdropWhile_append_cons {α : Type} (p : α → Bool) (x : List α) (c : α) (s : List α)
    (hc : p c = false) : (x ++ c :: s).rdropWhile p = x ++ c :: s.rdropWhile p := by
  induction s using List.reverseRecOn with
  | nil =>
    have : ¬ p c = true := by simp [hc]
    simpa using List.rdropWhile_concat_neg p x c this
  | append_singleton l y ih =>
    have e : x ++ c :: (l ++ [y]) = (x ++ c :: l) ++ [y] := by simp
    by_cases hy : p y = true
    · rw [e, List.rdropWhile_concat_pos p _ y hy, ih, List.rdropWhile_concat_pos p l y hy]
    · rw [e, List.rdropWhile_concat_neg p _ y hy, List.rdropWhile_concat_neg p l y hy]
      simp

theorem afterFirstColon_append (H t : GoString) (hH : ':' ∉ H) :
    afterFirstColon (H ++ ':' :: t) = t := by
  unfold afterFirstColon
  rw [List.dropWhile_append_of_pos]
  · simp
  · intro a ha
    have : a ≠ ':' := fun h => hH (h ▸ ha)
    simpa using this

theorem stringsTrimSpace_rdropWhile (s : GoString) :
    stringsTrimSpace (s.rdropWhile unicodeIsSpace) = stringsTrimSpace s := by
  rw [stringsTrimSpace_eq, stringsTrimSpace_eq, dropWhile_rdropWhile_comm,
    List.rdropWhile_idempotent]

theorem stringsTrimSpace_header (a : Char) (H s : GoString) (ha : unicodeIsSpace a = false) :
    stringsTrimSpace ((a :: H) ++ ':' :: s) = (a :: H) ++ ':' :: s.rdropWhile unicodeIsSpace := by
  have h1 : ((a :: H) ++ ':' :: s).dropWhile unicodeIsSpace = (a :: H) ++ ':' :: s := by
    rw [List.cons_append, List.dropWhile_cons_of_neg (by simp [ha])]
  rw [stringsTrimSpace_eq, h1, rdropWhile_append_cons _ _ _ _ (by decide)]

/-- The text extracted from a header line `H: s`: trimming the line, taking
what follows its first colon and trimming again gives `s` trimmed. -/
theorem remainder_of_header (a : Char) (H s : GoString) (ha : unicodeIsSpace a = false)
    (hH : ':' ∉ a :: H) :
    stringsTrimSpace (afterFirstColon (stringsTrimSpace ((a :: H) ++ ':' :: s))) =
      stringsTrimSpace s := by
  rw [stringsTrimSpace_header a H s ha, afterFirstColon_append _ _ hH,
    stringsTrimSpace_rdropWhile]

theorem stringsTrimSpace_cons_space (s : GoString) :
    stringsTrimSpace (' ' :: s) = stringsTrimSpace s := by
  rw [stringsTrimSpace_eq, stringsTrimSpace_eq, List.dropWhile_cons_of_pos (by decide)]

theorem stringsSplitN2_eq {line : GoString} (h : ':' ∈ line) :
    stringsSplitN2 line ':' = [line.takeWhile (· != ':'), afterFirstColon line] :=
  stringsSplitN2_of_mem h

theorem infix_of_infix_append_no_colon {Q A t : GoString} (ht : ':' ∉ t)
    (h : (Q ++ [':']) <:+: A ++ t) : (Q ++ [':']) <:+: A := by
  obtain ⟨x, y, hxy⟩ := h
  rw [List.append_assoc] at hxy
  rw [List.append_eq_append_iff] at hxy
  rcases hxy with ⟨a', h1, h2⟩ | ⟨c', h1, h2⟩
  · rw [List.append_eq_append_iff] at h2
    rcases h2 with ⟨b', h3, h4⟩ | ⟨d', h3, h4⟩
    · exact ⟨x, b', by rw [h1, h3, List.append_assoc]⟩
    · rcases List.eq_nil_or_concat d' with hd | ⟨d0, z, hd⟩
      · subst hd
        rw [List.append_nil] at h3
        exact ⟨x, [], by rw [h1, h3]; simp⟩
      · subst hd
        rw [List.concat_eq_append, ← List.append_assoc] at h3
        have hz := List.append_inj_right' h3 rfl
        have : z = ':' := by simpa using hz.symm
        subst this
        exact absurd (by rw [h4]; simp) ht
  · exact absurd (by rw [h2]; simp) ht

theorem colon_not_mem_toUpper {s : GoString} (h : ':' ∉ s) : ':' ∉ stringsToUpper s := by
  intro hm
  obtain ⟨c, hc, hcu⟩ := List.mem_map.mp hm
  rw [unicodeToUpper_eq_colon hcu] at hc
  exact h hc

/-- A phrase ending in a colon occurs in `A ++ s`, where `s` has no colon,
only if it occurs in `A`. -/
theorem containsPhrase_append_no_colon (A s Q : GoString) (hs : ':' ∉ s)
    (hA : containsPhrase A (Q ++ [':']) = false) :
    containsPhrase (A ++ s) (Q ++ [':']) = false := by
  cases h : containsPhrase (A ++ s) (Q ++ [':']) with
  | false => rfl
  | true =>
    rw [containsPhrase, stringsContains_iff, stringsToUpper, List.map_append] at h
    have h2 := infix_of_infix_append_no_colon (colon_not_mem_toUpper hs) h
    rw [← stringsContains_iff] at h2
    rw [containsPhrase] at hA
    rw [stringsToUpper, h2] at hA
    exact absurd hA (by decide)

theorem containsPhrase_append_left (A s P : GoString)
    (hA : containsPhrase A P = true) : containsPhrase (A ++ s) P = true := by
  rw [containsPhrase, stringsContains_iff] at *
  rw [stringsToUpper, List.map_append]
  exact hA.trans (List.prefix_append _ _).isInfix

theorem numeralChar_facts {c : Char} (h : isDigit c = true ∨ c = '.') :
    unicodeIsSpace c = false ∧ c ≠ '%' ∧ c ≠ ':' := by
  rcases h with h | h
  · refine ⟨?_, ?_, ?_⟩
    · simp only [isDigit, Bool.and_eq_true, decide_eq_true_eq] at h
      simp only [unicodeIsSpace]
      obtain ⟨n, hn⟩ : ∃ n, c.toNat = n := ⟨_, rfl⟩
      rw [hn] at h ⊢
      obtain ⟨ha, hb⟩ := h
      interval_cases n <;> decide
    · rintro rfl
      exact absurd h (by decide)
    · rintro rfl
      exact absurd h (by decide)
  · subst h
    decide

theorem trim_eq_self {α : Type} (p : α → Bool) (l : List α) (hne : l ≠ [])
    (hh : p (l.head hne) = false) (hl : p (l.getLast hne) = false) :
    (l.dropWhile p).rdropWhile p = l := by
  have h1 : l.dropWhile p = l := by
    cases l with
    | nil => rfl
    | cons a l => exact List.dropWhile_cons_of_neg (by simpa using hh)
  rw [h1, List.rdropWhile_eq_self_iff]
  intro _
  simp [hl]

theorem trim_append_singleton {α : Type} (p : α → Bool) (l : List α) (x : α) (hne : l ≠ [])
    (hh : p (l.head hne) = false) (hl : p (l.getLast hne) = false) (hx : p x = true) :
    ((l ++ [x]).dropWhile p).rdropWhile p = l := by
  have h1 : (l ++ [x]).dropWhile p = l ++ [x] := by
    cases l with
    | nil => exact absurd rfl hne
    | cons a l => exact List.dropWhile_cons_of_neg (by simpa using hh)
  rw [h1, List.rdropWhile_concat_pos p l x hx, List.rdropWhile_eq_self_iff]
  intro _
  simp [hl]

theorem not_numeric_of_space {c : Char} (h : unicodeIsSpace c = true) :
    (isDigit c || c == '.') = false := by
  cases hc : (isDigit c || c == '.') with
  | false => rfl
  | true =>
    have := (numeralChar_facts (c := c) (by simpa using hc)).1
    rw [h] at this
    exact absurd this (by decide)

theorem dropWhile_dropWhile_of_imp {α : Type} (p q : α → Bool) (h : ∀ a, p a = true → q a = true)
    (l : List α) : (l.dropWhile p).dropWhile q = l.dropWhile q := by
  induction l with
  | nil => rfl
  | cons a l ih =>
    by_cases hp : p a = true
    · rw [List.dropWhile_cons_of_pos hp, ih, List.dropWhile_cons_of_pos (h a hp)]
    · rw [List.dropWhile_cons_of_neg hp]

theorem takeWhile_dropWhile_rdropWhile {α : Type} (p q : α → Bool)
    (h : ∀ a, p a = true → q a = false) (l : List α) :
    ((l.rdropWhile p).dropWhile (fun a => !q a)).takeWhile q =
      (l.dropWhile (fun a => !q a)).takeWhile q := by
  induction l using List.reverseRecOn with
  | nil => simp
  | append_singleton l x ih =>
    by_cases hx : p x = true
    · rw [List.rdropWhile_concat_pos p l x hx, ih, List.dropWhile_append]
      have hq : q x = false := h x hx
      split_ifs with he
      · have : List.dropWhile (fun a => !q a) l = [] := by simpa using he
        simp [this, hq]
      · rw [List.takeWhile_append]
        split_ifs with hlen
        · simp only [List.takeWhile_cons, hq, Bool.false_eq_true, if_false, List.append_nil]
          exact List.IsPrefix.eq_of_length (List.takeWhile_prefix q) hlen
        · rfl
    · rw [List.rdropWhile_concat_neg p l x hx]

theorem findNumericRun_trim (s : GoString) :
    findNumericRun (stringsTrimSpace s) = findNumericRun s := by
  have h1 : ∀ a, unicodeIsSpace a = true → (isDigit a || a == '.') = false :=
    fun a ha => not_numeric_of_space ha
  unfold findNumericRun
  rw [stringsTrimSpace_eq,
    takeWhile_dropWhile_rdropWhile unicodeIsSpace (fun c => isDigit c || c == '.') h1,
    dropWhile_dropWhile_of_imp unicodeIsSpace (fun c => !(isDigit c || c == '.'))
      (fun a ha => by simp only [h1 a ha]; rfl)]

/-! ### Folding the loop body over the lines -/

theorem foldl_fixed {σ α : Type} (f : σ → α → σ) (s : σ) (ls : List α)
    (h : ∀ l ∈ ls, f s l = s) : ls.foldl f s = s := by
  induction ls with
  | nil => rfl
  | cons a as ih =>
    rw [List.foldl_cons, h a (List.mem_cons_self a as)]
    exact ih (fun l hl => h l (List.mem_cons_of_mem a hl))

theorem foldlM_fixed {σ α : Type} (f : σ → α → Option σ) (s : σ) (ls : List α)
    (h : ∀ l ∈ ls, f s l = some s) : ls.foldlM f s = some s := by
  induction ls with
  | nil => rfl
  | cons a as ih =>
    rw [List.foldlM_cons, h a (List.mem_cons_self a as)]
    exact ih (fun l hl => h l (List.mem_cons_of_mem a hl))

theorem foldl_preserves {σ α β : Type} (f : σ → α → σ) (g : σ → β) (ls : List α)
    (h : ∀ st, ∀ l ∈ ls, g (f st l) = g st) (st : σ) : g (ls.foldl f st) = g st := by
  induction ls generalizing st with
  | nil => rfl
  | cons a as ih =>
    rw [List.foldl_cons, ih (fun st l hl => h st l (List.mem_cons_of_mem a hl)),
      h st a (List.mem_cons_self a as)]

theorem foldlM_preserves {σ α β : Type} (f : σ → α → Option σ) (g : σ → β) (ls : List α)
    (h : ∀ st, ∀ l ∈ ls, ∀ st', f st l = some st' → g st' = g st) (st st' : σ)
    (hf : ls.foldlM f st = some st') : g st' = g st := by
  induction ls generalizing st with
  | nil =>
    simp only [List.foldlM_nil] at hf
    cases hf
    rfl
  | cons a as ih =>
    rw [List.foldlM_cons] at hf
    cases h1 : f st a with
    | none => rw [h1] at hf; cases hf
    | some st1 =>
      rw [h1] at hf
      rw [ih (fun st l hl => h st l (List.mem_cons_of_mem a hl)) st1 hf]
      exact h st a (List.mem_cons_self a as) st1 h1

theorem foldlM_split {σ α : Type} (f : σ → α → Option σ) (pre post : List α) (L : α)
    (s0 s1 s2 s3 : σ) (h1 : pre.foldlM f s0 = some s1) (h2 : f s1 L = some s2)
    (h3 : post.foldlM f s2 = some s3) : (pre ++ L :: post).foldlM f s0 = some s3 := by
  rw [List.foldlM_append, h1]
  show (L :: post).foldlM f s1 = some s3
  rw [List.foldlM_cons, h2]
  exact h3

/-! ### Case analysis of the loop bodies -/

theorem contains_trim_eq (l p : GoString) (hne : p ≠ [])
    (hh : unicodeIsSpace (p.head hne) = false) (hl : unicodeIsSpace (p.getLast hne) = false) :
    stringsContains (stringsToUpper (stringsTrimSpace l)) p = containsPhrase l p :=
  containsPhrase_trim l p hne hh hl

/-- The branches of the loop body of `ParseVCRAResponse`, in the order of the
source: a blank line, the five header tests, and the body rules. -/
theorem vcraStep_cases (st : String × VCRAResult) (l : GoString) :
    (stringsTrimSpace l = [] ∧ vcraStep st l = some st) ∨
    (containsPhrase l "ROOT CAUSE:".data = true ∧
      vcraStep st l = some ("root", { st.2 with
        rootCause := stringsTrimSpace (afterFirstColon (stringsTrimSpace l)) })) ∨
    ((containsPhrase l "ROOT CAUSE:".data = false ∧
        containsPhrase l "RISK LEVEL:".data = true) ∧
      vcraStep st l = some ("", { st.2 with
        riskLevel := levelFromHeader (stringsTrimSpace l) st.2.riskLevel })) ∨
    ((containsPhrase l "ROOT CAUSE:".data = false ∧
        containsPhrase l "RISK LEVEL:".data = false ∧
        containsPhrase l "CONFIDENCE:".data = true) ∧
      vcraStep st l = some ("", { st.2 with
        confidence := confidenceFromHeader (stringsTrimSpace l) st.2.confidence })) ∨
    ((containsPhrase l "ROOT CAUSE:".data = false ∧
        containsPhrase l "RISK LEVEL:".data = false ∧
        containsPhrase l "CONFIDENCE:".data = false ∧
        (containsPhrase l "IMMEDIATE ACTIONS:".data ||
          containsPhrase l "RECOMMENDED ACTIONS:".data) = true) ∧
      vcraStep st l = some ("actions", st.2)) ∨
    ((containsPhrase l "ROOT CAUSE:".data = false ∧
        containsPhrase l "RISK LEVEL:".data = false ∧
        containsPhrase l "CONFIDENCE:".data = false ∧
        (containsPhrase l "IMMEDIATE ACTIONS:".data ||
          containsPhrase l "RECOMMENDED ACTIONS:".data) = false ∧
        (containsPhrase l "TIMELINE:".data ||
          containsPhrase l "RECOVERY TIMELINE:".data) = true) ∧
      vcraStep st l = some ("timeline", st.2)) ∨
    ((stringsTrimSpace l ≠ [] ∧ hasHeader vcraHeaders l = false) ∧
      vcraStep st l =
        some (if st.1 = "root" ∧ st.2.rootCause = [] then
            (st.1, { st.2 with rootCause := stringsTrimSpace l })
          else if st.1 = "actions" ∧ isListItem (stringsTrimSpace l) then
            (st.1, { st.2 with actions := st.2.actions ++ [stringsTrimSpace l] })
          else if st.1 = "timeline" ∧ isListItem (stringsTrimSpace l) then
            (st.1, { st.2 with timeline := st.2.timeline ++ [stringsTrimSpace l] })
          else st)) := by
  have e1 := contains_trim_eq l "ROOT CAUSE:".data (by decide) (by decide) (by decide)
  have e2 := contains_trim_eq l "RISK LEVEL:".data (by decide) (by decide) (by decide)
  have e3 := contains_trim_eq l "CONFIDENCE:".data (by decide) (by decide) (by decide)
  have e4 := contains_trim_eq l "IMMEDIATE ACTIONS:".data (by decide) (by decide) (by decide)
  have e5 := contains_trim_eq l "RECOMMENDED ACTIONS:".data (by decide) (by decide) (by decide)
  have e6 := contains_trim_eq l "TIMELINE:".data (by decide) (by decide) (by decide)
  have e7 := contains_trim_eq l "RECOVERY TIMELINE:".data (by decide) (by decide) (by decide)
  unfold vcraStep
  simp only [e1, e2, e3, e4, e5, e6, e7]
  by_cases h0 : stringsTrimSpace l = []
  · exact Or.inl ⟨h0, if_pos h0⟩
  rw [if_neg h0]
  refine Or.inr ?_
  by_cases h1 : containsPhrase l "ROOT CAUSE:".data = true
  · refine Or.inl ⟨h1, ?_⟩
    have hc : ':' ∈ stringsTrimSpace l := colon_mem_of_contains (by decide) (e1.trans h1)
    rw [if_pos h1, stringsSplitN2_eq hc]
    rfl
  rw [if_neg h1]
  rw [Bool.not_eq_true] at h1
  refine Or.inr ?_
  by_cases h2 : containsPhrase l "RISK LEVEL:".data = true
  · exact Or.inl ⟨⟨h1, h2⟩, if_pos h2⟩
  rw [if_neg h2]
  rw [Bool.not_eq_true] at h2
  refine Or.inr ?_
  by_cases h3 : containsPhrase l "CONFIDENCE:".data = true
  · exact Or.inl ⟨⟨h1, h2, h3⟩, if_pos h3⟩
  rw [if_neg h3]
  rw [Bool.not_eq_true] at h3
  refine Or.inr ?_
  by_cases h4 : (containsPhrase l "IMMEDIATE ACTIONS:".data ||
          containsPhrase l "RECOMMENDED ACTIONS:".data) = true
  · exact Or.inl ⟨⟨h1, h2, h3, h4⟩, if_pos h4⟩
  rw [if_neg h4]
  rw [Bool.not_eq_true] at h4
  refine Or.inr ?_
  by_cases h5 : (containsPhrase l "TIMELINE:".data ||
          containsPhrase l "RECOVERY TIMELINE:".data) = true
  · exact Or.inl ⟨⟨h1, h2, h3, h4, h5⟩, if_pos h5⟩
  rw [if_neg h5]
  rw [Bool.not_eq_true] at h5
  refine Or.inr ⟨⟨h0, ?_⟩, ?_⟩
  · rw [Bool.or_eq_false_iff] at h4 h5
    simp only [hasHeader, vcraHeaders, List.any_cons, List.any_nil, h1, h2, h3, h4.1, h4.2,
      h5.1, h5.2, Bool.or_self]
  · by_cases h6 : st.1 = "root" ∧ st.2.rootCause = []
    · rw [if_pos h6, if_pos h6]
    rw [if_neg h6, if_neg h6]
    by_cases h7 : st.1 = "actions" ∧ isListItem (stringsTrimSpace l) = true
    · rw [if_pos h7, if_pos h7]
    rw [if_neg h7, if_neg h7]
    by_cases h8 : st.1 = "timeline" ∧ isListItem (stringsTrimSpace l) = true
    · rw [if_pos h8, if_pos h8]
    rw [if_neg h8, if_neg h8]

/-- The branches of the loop body of `ParseTroubleshootingResponse`, in the
order of the source: a blank line, the five header tests, and the body rules. -/
theorem troubleshootingStep_cases (st : String × TroubleshootingResult) (l : GoString) :
    (stringsTrimSpace l = [] ∧ troubleshootingStep st l = st) ∨
    (containsPhrase l "ANALYSIS:".data = true ∧
      troubleshootingStep st l = ("analysis", { st.2 with
        analysis :=
          stringsTrimSpace (stringsReplaceFirst (stringsTrimSpace l) "ANALYSIS:".data []) })) ∨
    ((containsPhrase l "ANALYSIS:".data = false ∧
        containsPhrase l "POSSIBLE CAUSES:".data = true) ∧
      troubleshootingStep st l = ("causes", st.2)) ∨
    ((containsPhrase l "ANALYSIS:".data = false ∧
        containsPhrase l "POSSIBLE CAUSES:".data = false ∧
        containsPhrase l "TROUBLESHOOTING STEPS:".data = true) ∧
      troubleshootingStep st l = ("steps", st.2)) ∨
    ((containsPhrase l "ANALYSIS:".data = false ∧
        containsPhrase l "POSSIBLE CAUSES:".data = false ∧
        containsPhrase l "TROUBLESHOOTING STEPS:".data = false ∧
        containsPhrase l "SAFETY WARNINGS:".data = true) ∧
      troubleshootingStep st l = ("safety_warnings", st.2)) ∨
    ((containsPhrase l "ANALYSIS:".data = false ∧
        containsPhrase l "POSSIBLE CAUSES:".data = false ∧
        containsPhrase l "TROUBLESHOOTING STEPS:".data = false ∧
        containsPhrase l "SAFETY WARNINGS:".data = false ∧
        containsPhrase l "EQUIPMENT NOTES:".data = true) ∧
      troubleshootingStep st l = ("equipment_notes", st.2)) ∨
    ((stringsTrimSpace l ≠ [] ∧ hasHeader troubleshootingHeaders l = false) ∧
      troubleshootingStep st l =
        if startsWithNumeral (stringsTrimSpace l) then
          if st.1 = "causes" then
            (st.1, { st.2 with causes := st.2.causes ++ [stringsTrimSpace l] })
          else if st.1 = "steps" then
            (st.1, { st.2 with steps := st.2.steps ++ [stringsTrimSpace l] })
          else st
        else if stringsStartsWith (stringsTrimSpace l) "-".data ∧ st.1 = "safety_warnings" then
          (st.1, { st.2 with safetyWarnings := st.2.safetyWarnings ++ [stringsTrimSpace l] })
        else if st.1 = "equipment_notes" ∧ stringsTrimSpace l ≠ [] then
          (st.1, { st.2 with
            equipmentNotes :=
              (if st.2.equipmentNotes ≠ [] then st.2.equipmentNotes ++ " ".data
               else st.2.equipmentNotes) ++ stringsTrimSpace l })
        else if st.1 = "analysis" ∧ st.2.analysis = [] then
          (st.1, { st.2 with analysis := stringsTrimSpace l })
        else st) := by
  have e1 := contains_trim_eq l "ANALYSIS:".data (by decide) (by decide) (by decide)
  have e2 := contains_trim_eq l "POSSIBLE CAUSES:".data (by decide) (by decide) (by decide)
  have e3 := contains_trim_eq l "TROUBLESHOOTING STEPS:".data (by decide) (by decide) (by decide)
  have e4 := contains_trim_eq l "SAFETY WARNINGS:".data (by decide) (by decide) (by decide)
  have e5 := contains_trim_eq l "EQUIPMENT NOTES:".data (by decide) (by decide) (by decide)
  unfold troubleshootingStep
  simp only [e1, e2, e3, e4, e5]
  by_cases h0 : stringsTrimSpace l = []
  · exact Or.inl ⟨h0, if_pos h0⟩
  rw [if_neg h0]
  refine Or.inr ?_
  by_cases h1 : containsPhrase l "ANALYSIS:".data = true
  · exact Or.inl ⟨h1, if_pos h1⟩
  rw [if_neg h1]
  rw [Bool.not_eq_true] at h1
  refine Or.inr ?_
  by_cases h2 : containsPhrase l "POSSIBLE CAUSES:".data = true
  · exact Or.inl ⟨⟨h1, h2⟩, if_pos h2⟩
  rw [if_neg h2]
  rw [Bool.not_eq_true] at h2
  refine Or.inr ?_
  by_cases h3 : containsPhrase l "TROUBLESHOOTING STEPS:".data = true
  · exact Or.inl ⟨⟨h1, h2, h3⟩, if_pos h3⟩
  rw [if_neg h3]
  rw [Bool.not_eq_true] at h3
  refine Or.inr ?_
  by_cases h4 : containsPhrase l "SAFETY WARNINGS:".data = true
  · exact Or.inl ⟨⟨h1, h2, h3, h4⟩, if_pos h4⟩
  rw [if_neg h4]
  rw [Bool.not_eq_true] at h4
  refine Or.inr ?_
  by_cases h5 : containsPhrase l "EQUIPMENT NOTES:".data = true
  · exact Or.inl ⟨⟨h1, h2, h3, h4, h5⟩, if_pos h5⟩
  rw [if_neg h5]
  rw [Bool.not_eq_true] at h5
  refine Or.inr ⟨⟨h0, ?_⟩, rfl⟩
  simp only [hasHeader, troubleshootingHeaders, List.any_cons, List.any_nil, h1, h2, h3, h4, h5,
    Bool.or_self]

/-- The branches of the loop body of `ParseSafetyResponse`, in the order of
the source: a blank line, the four header tests, and the body rules. -/
theorem safetyStep_cases (st : String × SafetyResult) (l : GoString) :
    (stringsTrimSpace l = [] ∧ safetyStep st l = st) ∨
    ((containsPhrase l "HAZARD LEVEL:".data || containsPhrase l "OVERALL RISK:".data) = true ∧
      safetyStep st l = ("", { st.2 with
        hazardLevel := levelFromHeader (stringsTrimSpace l) st.2.hazardLevel })) ∨
    (((containsPhrase l "HAZARD LEVEL:".data || containsPhrase l "OVERALL RISK:".data) = false ∧
        (containsPhrase l "IDENTIFIED HAZARDS:".data ||
          containsPhrase l "HAZARDS:".data) = true) ∧
      safetyStep st l = ("hazards", st.2)) ∨
    (((containsPhrase l "HAZARD LEVEL:".data || containsPhrase l "OVERALL RISK:".data) = false ∧
        (containsPhrase l "IDENTIFIED HAZARDS:".data ||
          containsPhrase l "HAZARDS:".data) = false ∧
        (containsPhrase l "MITIGATIONS:".data ||
          containsPhrase l "RECOMMENDED MITIGATIONS:".data) = true) ∧
      safetyStep st l = ("mitigations", st.2)) ∨
    (((containsPhrase l "HAZARD LEVEL:".data || containsPhrase l "OVERALL RISK:".data) = false ∧
        (containsPhrase l "IDENTIFIED HAZARDS:".data ||
          containsPhrase l "HAZARDS:".data) = false ∧
        (containsPhrase l "MITIGATIONS:".data ||
          containsPhrase l "RECOMMENDED MITIGATIONS:".data) = false ∧
        (containsPhrase l "STANDARDS:".data ||
          containsPhrase l "RELEVANT STANDARDS:".data) = true) ∧
      safetyStep st l = ("standards", st.2)) ∨
    ((stringsTrimSpace l ≠ [] ∧ hasHeader safetyHeaders l = false) ∧
      safetyStep st l =
        if st.1 = "hazards" ∧ isListItem (stringsTrimSpace l) then
          (st.1, { st.2 with hazards := st.2.hazards ++ [hazardOfLine (stringsTrimSpace l)] })
        else if st.1 = "mitigations" ∧ isListItem (stringsTrimSpace l) then
          (st.1, { st.2 with mitigations := st.2.mitigations ++ [stringsTrimSpace l] })
        else if st.1 = "standards" ∧ isListItem (stringsTrimSpace l) then
          (st.1, { st.2 with standards := st.2.standards ++ [stringsTrimSpace l] })
        else st) := by
  have e1 := contains_trim_eq l "HAZARD LEVEL:".data (by decide) (by decide) (by decide)
  have e2 := contains_trim_eq l "OVERALL RISK:".data (by decide) (by decide) (by decide)
  have e3 := contains_trim_eq l "IDENTIFIED HAZARDS:".data (by decide) (by decide) (by decide)
  have e4 := contains_trim_eq l "HAZARDS:".data (by decide) (by decide) (by decide)
  have e5 := contains_trim_eq l "MITIGATIONS:".data (by decide) (by decide) (by decide)
  have e6 := contains_trim_eq l "RECOMMENDED MITIGATIONS:".data (by decide) (by decide) (by decide)
  have e7 := contains_trim_eq l "STANDARDS:".data (by decide) (by decide) (by decide)
  have e8 := contains_trim_eq l "RELEVANT STANDARDS:".data (by decide) (by decide) (by decide)
  unfold safetyStep
  simp only [e1, e2, e3, e4, e5, e6, e7, e8]
  by_cases h0 : stringsTrimSpace l = []
  · exact Or.inl ⟨h0, if_pos h0⟩
  rw [if_neg h0]
  refine Or.inr ?_
  by_cases h1 : (containsPhrase l "HAZARD LEVEL:".data ||
      containsPhrase l "OVERALL RISK:".data) = true
  · exact Or.inl ⟨h1, if_pos h1⟩
  rw [if_neg h1]
  rw [Bool.not_eq_true] at h1
  refine Or.inr ?_
  by_cases h2 : (containsPhrase l "IDENTIFIED HAZARDS:".data ||
      containsPhrase l "HAZARDS:".data) = true
  · exact Or.inl ⟨⟨h1, h2⟩, if_pos h2⟩
  rw [if_neg h2]
  rw [Bool.not_eq_true] at h2
  refine Or.inr ?_
  by_cases h3 : (containsPhrase l "MITIGATIONS:".data ||
      containsPhrase l "RECOMMENDED MITIGATIONS:".data) = true
  · exact Or.inl ⟨⟨h1, h2, h3⟩, if_pos h3⟩
  rw [if_neg h3]
  rw [Bool.not_eq_true] at h3
  refine Or.inr ?_
  by_cases h4 : (containsPhrase l "STANDARDS:".data ||
      containsPhrase l "RELEVANT STANDARDS:".data) = true
  · exact Or.inl ⟨⟨h1, h2, h3, h4⟩, if_pos h4⟩
  rw [if_neg h4]
  rw [Bool.not_eq_true] at h4
  refine Or.inr ⟨⟨h0, ?_⟩, rfl⟩
  rw [Bool.or_eq_false_iff] at h1 h2 h3 h4
  simp only [hasHeader, safetyHeaders, List.any_cons, List.any_nil, h1.1, h1.2, h2.1, h2.2,
    h3.1, h3.2, h4.1, h4.2, Bool.or_self]

/-- The branches of the loop body of `ParseCorrosionResponse`, in the order of
the source: a blank line, the five header tests, and the body rules. -/
theorem corrosionStep_cases (st : String × CorrosionResult) (l : GoString) :
    (stringsTrimSpace l = [] ∧ corrosionStep st l = st) ∨
    ((containsPhrase l "RISK LEVEL:".data || containsPhrase l "CORROSION RISK:".data) = true ∧
      corrosionStep st l = ("", { st.2 with
        riskLevel := levelFromHeader (stringsTrimSpace l) st.2.riskLevel })) ∨
    (((containsPhrase l "RISK LEVEL:".data || containsPhrase l "CORROSION RISK:".data) = false ∧
        containsPhrase l "CORROSION RATE:".data = true) ∧
      corrosionStep st l = ("", { st.2 with
        corrosionRate := rateFromHeader (stringsTrimSpace l) st.2.corrosionRate })) ∨
    (((containsPhrase l "RISK LEVEL:".data || containsPhrase l "CORROSION RISK:".data) = false ∧
        containsPhrase l "CORROSION RATE:".data = false ∧
        (containsPhrase l "ESTIMATED LIFE:".data ||
          containsPhrase l "EQUIPMENT LIFE:".data) = true) ∧
      corrosionStep st l = ("", { st.2 with
        estimatedLife := lifeFromHeader (stringsTrimSpace l) st.2.estimatedLife })) ∨
    (((containsPhrase l "RISK LEVEL:".data || containsPhrase l "CORROSION RISK:".data) = false ∧
        containsPhrase l "CORROSION RATE:".data = false ∧
        (containsPhrase l "ESTIMATED LIFE:".data ||
          containsPhrase l "EQUIPMENT LIFE:".data) = false ∧
        (containsPhrase l "MECHANISMS:".data ||
          containsPhrase l "CORROSION MECHANISMS:".data) = true) ∧
      corrosionStep st l = ("mechanisms", st.2)) ∨
    (((containsPhrase l "RISK LEVEL:".data || containsPhrase l "CORROSION RISK:".data) = false ∧
        containsPhrase l "CORROSION RATE:".data = false ∧
        (containsPhrase l "ESTIMATED LIFE:".data ||
          containsPhrase l "EQUIPMENT LIFE:".data) = false ∧
        (containsPhrase l "MECHANISMS:".data ||
          containsPhrase l "CORROSION MECHANISMS:".data) = false ∧
        containsPhrase l "RECOMMENDATIONS:".data = true) ∧
      corrosionStep st l = ("recommendations", st.2)) ∨
    ((stringsTrimSpace l ≠ [] ∧ hasHeader corrosionHeaders l = false) ∧
      corrosionStep st l =
        if st.1 = "mechanisms" ∧ isListItem (stringsTrimSpace l) then
          (st.1, { st.2 with mechanisms := st.2.mechanisms ++ [stringsTrimSpace l] })
        else if st.1 = "recommendations" ∧ isListItem (stringsTrimSpace l) then
          (st.1, { st.2 with recommendations := st.2.recommendations ++ [stringsTrimSpace l] })
        else st) := by
  have e1 := contains_trim_eq l "RISK LEVEL:".data (by decide) (by decide) (by decide)
  have e2 := contains_trim_eq l "CORROSION RISK:".data (by decide) (by decide) (by decide)
  have e3 := contains_trim_eq l "CORROSION RATE:".data (by decide) (by decide) (by decide)
  have e4 := contains_trim_eq l "ESTIMATED LIFE:".data (by decide) (by decide) (by decide)
  have e5 := contains_trim_eq l "EQUIPMENT LIFE:".data (by decide) (by decide) (by decide)
  have e6 := contains_trim_eq l "MECHANISMS:".data (by decide) (by decide) (by decide)
  have e7 := contains_trim_eq l "CORROSION MECHANISMS:".data (by decide) (by decide) (by decide)
  have e8 := contains_trim_eq l "RECOMMENDATIONS:".data (by decide) (by decide) (by decide)
  unfold corrosionStep
  simp only [e1, e2, e3, e4, e5, e6, e7, e8]
  by_cases h0 : stringsTrimSpace l = []
  · exact Or.inl ⟨h0, if_pos h0⟩
  rw [if_neg h0]
  refine Or.inr ?_
  by_cases h1 : (containsPhrase l "RISK LEVEL:".data ||
      containsPhrase l "CORROSION RISK:".data) = true
  · exact Or.inl ⟨h1, if_pos h1⟩
  rw [if_neg h1]
  rw [Bool.not_eq_true] at h1
  refine Or.inr ?_
  by_cases h2 : containsPhrase l "CORROSION RATE:".data = true
  · exact Or.inl ⟨⟨h1, h2⟩, if_pos h2⟩
  rw [if_neg h2]
  rw [Bool.not_eq_true] at h2
  refine Or.inr ?_
  by_cases h3 : (containsPhrase l "ESTIMATED LIFE:".data ||
      containsPhrase l "EQUIPMENT LIFE:".data) = true
  · exact Or.inl ⟨⟨h1, h2, h3⟩, if_pos h3⟩
  rw [if_neg h3]
  rw [Bool.not_eq_true] at h3
  refine Or.inr ?_
  by_cases h4 : (containsPhrase l "MECHANISMS:".data ||
      containsPhrase l "CORROSION MECHANISMS:".data) = true
  · exact Or.inl ⟨⟨h1, h2, h3, h4⟩, if_pos h4⟩
  rw [if_neg h4]
  rw [Bool.not_eq_true] at h4
  refine Or.inr ?_
  by_cases h5 : containsPhrase l "RECOMMENDATIONS:".data = true
  · exact Or.inl ⟨⟨h1, h2, h3, h4, h5⟩, if_pos h5⟩
  rw [if_neg h5]
  rw [Bool.not_eq_true] at h5
  refine Or.inr ⟨⟨h0, ?_⟩, rfl⟩
  rw [Bool.or_eq_false_iff] at h1 h3 h4
  simp only [hasHeader, corrosionHeaders, List.any_cons, List.any_nil, h1.1, h1.2, h2,
    h3.1, h3.2, h4.1, h4.2, h5, Bool.or_self]

theorem containsPhrase_of_hasHeader_false {hs : List GoString} {l p : GoString}
    (h : hasHeader hs l = false) (hp : p ∈ hs) : containsPhrase l p = false := by
  cases hc : containsPhrase l p with
  | false => rfl
  | true =>
    have h3 : hasHeader hs l = true := List.any_eq_true.mpr ⟨p, hp, hc⟩
    rw [h] at h3
    exact absurd h3 (by decide)

/-! ### Lines without a header leave the initial section unchanged -/

theorem troubleshootingStep_noHeader (r : TroubleshootingResult) (l : GoString)
    (h : hasHeader troubleshootingHeaders l = false) :
    troubleshootingStep ("", r) l = ("", r) := by
  have c1 := containsPhrase_of_hasHeader_false h (p := "ANALYSIS:".data) (by decide)
  have c2 := containsPhrase_of_hasHeader_false h (p := "POSSIBLE CAUSES:".data) (by decide)
  have c3 := containsPhrase_of_hasHeader_false h (p := "TROUBLESHOOTING STEPS:".data) (by decide)
  have c4 := containsPhrase_of_hasHeader_false h (p := "SAFETY WARNINGS:".data) (by decide)
  have c5 := containsPhrase_of_hasHeader_false h (p := "EQUIPMENT NOTES:".data) (by decide)
  rcases troubleshootingStep_cases ("", r) l with
    ⟨_, e⟩ | ⟨hc, _⟩ | ⟨hc, _⟩ | ⟨hc, _⟩ | ⟨hc, _⟩ | ⟨hc, _⟩ | ⟨_, e⟩
  · exact e
  · rw [c1] at hc; cases hc
  · rw [c2] at hc; cases hc.2
  · rw [c3] at hc; cases hc.2.2
  · rw [c4] at hc; cases hc.2.2.2
  · rw [c5] at hc; cases hc.2.2.2.2
  · rw [e]
    simp

theorem vcraStep_noHeader (r : VCRAResult) (l : GoString)
    (h : hasHeader vcraHeaders l = false) :
    vcraStep ("", r) l = some ("", r) := by
  have c1 := containsPhrase_of_hasHeader_false h (p := "ROOT CAUSE:".data) (by decide)
  have c2 := containsPhrase_of_hasHeader_false h (p := "RISK LEVEL:".data) (by decide)
  have c3 := containsPhrase_of_hasHeader_false h (p := "CONFIDENCE:".data) (by decide)
  have c4 := containsPhrase_of_hasHeader_false h (p := "IMMEDIATE ACTIONS:".data) (by decide)
  have c5 := containsPhrase_of_hasHeader_false h (p := "RECOMMENDED ACTIONS:".data) (by decide)
  have c6 := containsPhrase_of_hasHeader_false h (p := "TIMELINE:".data) (by decide)
  have c7 := containsPhrase_of_hasHeader_false h (p := "RECOVERY TIMELINE:".data) (by decide)
  rcases vcraStep_cases ("", r) l with
    ⟨_, e⟩ | ⟨hc, _⟩ | ⟨hc, _⟩ | ⟨hc, _⟩ | ⟨hc, _⟩ | ⟨hc, _⟩ | ⟨_, e⟩
  · exact e
  · rw [c1] at hc; cases hc
  · rw [c2] at hc; cases hc.2
  · rw [c3] at hc; cases hc.2.2
  · rw [c4, c5] at hc; cases hc.2.2.2
  · rw [c6, c7] at hc; cases hc.2.2.2.2
  · rw [e]
    simp

theorem safetyStep_noHeader (r : SafetyResult) (l : GoString)
    (h : hasHeader safetyHeaders l = false) :
    safetyStep ("", r) l = ("", r) := by
  have c1 := containsPhrase_of_hasHeader_false h (p := "HAZARD LEVEL:".data) (by decide)
  have c2 := containsPhrase_of_hasHeader_false h (p := "OVERALL RISK:".data) (by decide)
  have c3 := containsPhrase_of_hasHeader_false h (p := "IDENTIFIED HAZARDS:".data) (by decide)
  have c4 := containsPhrase_of_hasHeader_false h (p := "HAZARDS:".data) (by decide)
  have c5 := containsPhrase_of_hasHeader_false h (p := "MITIGATIONS:".data) (by decide)
  have c6 := containsPhrase_of_hasHeader_false h (p := "RECOMMENDED MITIGATIONS:".data)
    (by decide)
  have c7 := containsPhrase_of_hasHeader_false h (p := "STANDARDS:".data) (by decide)
  have c8 := containsPhrase_of_hasHeader_false h (p := "RELEVANT STANDARDS:".data) (by decide)
  rcases safetyStep_cases ("", r) l with ⟨_, e⟩ | ⟨hc, _⟩ | ⟨hc, _⟩ | ⟨hc, _⟩ | ⟨hc, _⟩ | ⟨_, e⟩
  · exact e
  · rw [c1, c2] at hc; cases hc
  · rw [c3, c4] at hc; cases hc.2
  · rw [c5, c6] at hc; cases hc.2.2
  · rw [c7, c8] at hc; cases hc.2.2.2
  · rw [e]
    simp

theorem corrosionStep_noHeader (r : CorrosionResult) (l : GoString)
    (h : hasHeader corrosionHeaders l = false) :
    corrosionStep ("", r) l = ("", r) := by
  have c1 := containsPhrase_of_hasHeader_false h (p := "RISK LEVEL:".data) (by decide)
  have c2 := containsPhrase_of_hasHeader_false h (p := "CORROSION RISK:".data) (by decide)
  have c3 := containsPhrase_of_hasHeader_false h (p := "CORROSION RATE:".data) (by decide)
  have c4 := containsPhrase_of_hasHeader_false h (p := "ESTIMATED LIFE:".data) (by decide)
  have c5 := containsPhrase_of_hasHeader_false h (p := "EQUIPMENT LIFE:".data) (by decide)
  have c6 := containsPhrase_of_hasHeader_false h (p := "MECHANISMS:".data) (by decide)
  have c7 := containsPhrase_of_hasHeader_false h (p := "CORROSION MECHANISMS:".data) (by decide)
  have c8 := containsPhrase_of_hasHeader_false h (p := "RECOMMENDATIONS:".data) (by decide)
  rcases corrosionStep_cases ("", r) l with
    ⟨_, e⟩ | ⟨hc, _⟩ | ⟨hc, _⟩ | ⟨hc, _⟩ | ⟨hc, _⟩ | ⟨hc, _⟩ | ⟨_, e⟩
  · exact e
  · rw [c1, c2] at hc; cases hc
  · rw [c3] at hc; cases hc.2
  · rw [c4, c5] at hc; cases hc.2.2
  · rw [c6, c7] at hc; cases hc.2.2.2
  · rw [c8] at hc; cases hc.2.2.2.2
  · rw [e]
    simp

theorem vcraStep_isSome (st : String × VCRAResult) (l : GoString) :
    ∃ st', vcraStep st l = some st' := by
  rcases vcraStep_cases st l with
    ⟨_, e⟩ | ⟨_, e⟩ | ⟨_, e⟩ | ⟨_, e⟩ | ⟨_, e⟩ | ⟨_, e⟩ | ⟨_, e⟩
  all_goals exact ⟨_, e⟩

theorem foldlM_vcraStep_isSome (ls : List GoString) (st : String × VCRAResult) :
    ∃ st', ls.foldlM vcraStep st = some st' := by
  induction ls generalizing st with
  | nil => exact ⟨st, rfl⟩
  | cons a as ih =>
    obtain ⟨st1, h1⟩ := vcraStep_isSome st a
    rw [List.foldlM_cons, h1]
    exact ih st1

/-! ### C1 -/

/-- C1: for each of the four parsers, a text none of whose lines contains
(case-insensitively) a header phrase of that parser parses to the all-default
result of that parser; in particular the empty text does. -/
theorem parse_without_header_is_default :
    (∀ text : GoString, (∀ l ∈ stringsSplit text '\n', hasHeader troubleshootingHeaders l = false) →
        ParseTroubleshootingResponse text =
          { analysis := [], causes := [], steps := [], safetyWarnings := [],
            equipmentNotes := [] }) ∧
    (∀ text : GoString, (∀ l ∈ stringsSplit text '\n', hasHeader vcraHeaders l = false) →
        ParseVCRAResponse text =
          some { rootCause := [], riskLevel := "MEDIUM".data, confidence := .finite 0.75,
                 actions := [], timeline := [] }) ∧
    (∀ text : GoString, (∀ l ∈ stringsSplit text '\n', hasHeader safetyHeaders l = false) →
        ParseSafetyResponse text =
          { hazardLevel := "MEDIUM".data, hazards := [], mitigations := [], standards := [] }) ∧
    (∀ text : GoString, (∀ l ∈ stringsSplit text '\n', hasHeader corrosionHeaders l = false) →
        ParseCorrosionResponse text =
          { riskLevel := "MEDIUM".data, corrosionRate := .finite 0.5, mechanisms := [],
            recommendations := [], estimatedLife := "10-15 years".data }) ∧
    ParseTroubleshootingResponse [] = troubleshootingDefault ∧
    ParseVCRAResponse [] = some vcraDefault ∧
    ParseSafetyResponse [] = safetyDefault ∧
    ParseCorrosionResponse [] = corrosionDefault := by
  refine ⟨?_, ?_, ?_, ?_, by decide, by decide!, by decide, by decide!⟩
  · intro text h
    unfold ParseTroubleshootingResponse
    rw [foldl_fixed _ _ _ (fun l hl => troubleshootingStep_noHeader _ l (h l hl))]
  · intro text h
    unfold ParseVCRAResponse
    rw [foldlM_fixed _ _ _ (fun l hl => vcraStep_noHeader _ l (h l hl))]
    rfl
  · intro text h
    unfold ParseSafetyResponse
    rw [foldl_fixed _ _ _ (fun l hl => safetyStep_noHeader _ l (h l hl))]
  · intro text h
    unfold ParseCorrosionResponse
    rw [foldl_fixed _ _ _ (fun l hl => corrosionStep_noHeader _ l (h l hl))]

/-- Witness for C1: a two-line text of plain prose, which has no header line,
parses to the default result in each of the four parsers. -/
theorem parse_without_header_is_default_witness :
    ParseTroubleshootingResponse "The pump is noisy\nsee the manual".data =
        troubleshootingDefault ∧
    ParseVCRAResponse "The pump is noisy\nsee the manual".data = some vcraDefault ∧
    ParseSafetyResponse "The pump is noisy\nsee the manual".data = safetyDefault ∧
    ParseCorrosionResponse "The pump is noisy\nsee the manual".data = corrosionDefault :=
  ⟨parse_without_header_is_default.1 _ (by decide),
   parse_without_header_is_default.2.1 _ (by decide),
   parse_without_header_is_default.2.2.1 _ (by decide),
   parse_without_header_is_default.2.2.2.1 _ (by decide)⟩

/-! ### C2 -/

/-- C2: the end-to-end corrosion scenario of the specification: the eight-line
text parses to risk level HIGH, rate 0.35 (the `float64` nearest to 0.35),
the two mechanisms, the one recommendation and estimated life "5 years". -/
theorem corrosion_end_to_end :
    ParseCorrosionResponse
        ("RISK LEVEL: HIGH\nCORROSION RATE: 0.35 mm/yr\nMECHANISMS:\n- Pitting\n" ++
         "- Crevice\nRECOMMENDATIONS:\n- Use inhibitor\nESTIMATED LIFE: 5 years").data =
      { riskLevel := "HIGH".data
        corrosionRate := Float64.round false 0.35
        mechanisms := ["- Pitting".data, "- Crevice".data]
        recommendations := ["- Use inhibitor".data]
        estimatedLife := "5 years".data } := by
  decide!

/-! ### C3 -/

/-- C3: the four parsers are total.  `ParseVCRAResponse`, the only one with an
operation that can fail, returns a result on every text, because a trimmed
line whose upper-cased text contains "ROOT CAUSE:" contains a colon, so that
splitting it at its first colon yields two parts; the other three parsers
return a result on every text. -/
theorem parsers_total :
    (∀ text : GoString, ∃ r, ParseVCRAResponse text = some r) ∧
    (∀ line : GoString, stringsContains (stringsToUpper line) "ROOT CAUSE:".data = true →
        (stringsSplitN2 line ':').length = 2 ∧ ((stringsSplitN2 line ':')[1]?).isSome = true) ∧
    (∀ text : GoString, ∃ r, ParseTroubleshootingResponse text = r) ∧
    (∀ text : GoString, ∃ r, ParseSafetyResponse text = r) ∧
    (∀ text : GoString, ∃ r, ParseCorrosionResponse text = r) := by
  refine ⟨?_, ?_, fun _ => ⟨_, rfl⟩, fun _ => ⟨_, rfl⟩, fun _ => ⟨_, rfl⟩⟩
  · intro text
    obtain ⟨st, h⟩ := foldlM_vcraStep_isSome (stringsSplit text '\n') ("", vcraDefault)
    refine ⟨st.2, ?_⟩
    unfold ParseVCRAResponse
    exact (congrArg (Option.map Prod.snd) h)
  · intro line h
    rw [stringsSplitN2_of_mem (colon_mem_of_contains (by decide) h)]
    exact ⟨rfl, rfl⟩

/-- Witness for C3: the line "Root cause: valve stuck" is recognised as a root
cause header and splits into two parts. -/
theorem parsers_total_witness :
    stringsContains (stringsToUpper "Root cause: valve stuck".data) "ROOT CAUSE:".data = true ∧
    (stringsSplitN2 "Root cause: valve stuck".data ':').length = 2 ∧
    ((stringsSplitN2 "Root cause: valve stuck".data ':')[1]?).isSome = true :=
  ⟨by decide, parsers_total.2.1 "Root cause: valve stuck".data (by decide)⟩

/-! ### C4 -/

theorem levelFromHeader_eq {line : GoString} (h : ':' ∈ line) (old : GoString) :
    levelFromHeader line old = classifyLevel (afterFirstColon line) := by
  have h1 := containsPhrase_trim (afterFirstColon line) "HIGH".data (by decide) (by decide) (by decide)
  have h2 := containsPhrase_trim (afterFirstColon line) "LOW".data (by decide) (by decide) (by decide)
  unfold containsPhrase at h1 h2
  rw [levelFromHeader, stringsSplitN2_of_mem h]
  simp only [classifyLevel, containsPhrase]
  rw [← h1, ← h2]
  rfl

theorem corrosionStep_level_other (st : String × CorrosionResult) (l : GoString)
    (h : hasHeader corrosionLevelHeaders l = false) :
    (corrosionStep st l).2.riskLevel = st.2.riskLevel := by
  have c1 := containsPhrase_of_hasHeader_false h (p := "RISK LEVEL:".data) (by decide)
  have c2 := containsPhrase_of_hasHeader_false h (p := "CORROSION RISK:".data) (by decide)
  rcases corrosionStep_cases st l with
    ⟨_, e⟩ | ⟨hc, _⟩ | ⟨_, e⟩ | ⟨_, e⟩ | ⟨_, e⟩ | ⟨_, e⟩ | ⟨_, e⟩
  · rw [e]
  · rw [c1, c2] at hc; cases hc
  · rw [e]
  · rw [e]
  · rw [e]
  · rw [e]
  · rw [e]
    split_ifs <;> rfl

theorem safetyStep_level_other (st : String × SafetyResult) (l : GoString)
    (h : hasHeader safetyLevelHeaders l = false) :
    (safetyStep st l).2.hazardLevel = st.2.hazardLevel := by
  have c1 := containsPhrase_of_hasHeader_false h (p := "HAZARD LEVEL:".data) (by decide)
  have c2 := containsPhrase_of_hasHeader_false h (p := "OVERALL RISK:".data) (by decide)
  rcases safetyStep_cases st l with ⟨_, e⟩ | ⟨hc, _⟩ | ⟨_, e⟩ | ⟨_, e⟩ | ⟨_, e⟩ | ⟨_, e⟩
  · rw [e]
  · rw [c1, c2] at hc; cases hc
  · rw [e]
  · rw [e]
  · rw [e]
  · rw [e]
    split_ifs <;> rfl

theorem vcraStep_level_other (st : String × VCRAResult) (l : GoString)
    (h : hasHeader vcraLevelHeaders l = false) (st' : String × VCRAResult)
    (hs : vcraStep st l = some st') : st'.2.riskLevel = st.2.riskLevel := by
  have c1 := containsPhrase_of_hasHeader_false h (p := "RISK LEVEL:".data) (by decide)
  rcases vcraStep_cases st l with
    ⟨_, e⟩ | ⟨_, e⟩ | ⟨hc, _⟩ | ⟨_, e⟩ | ⟨_, e⟩ | ⟨_, e⟩ | ⟨_, e⟩
  · rw [e] at hs; cases hs; rfl
  · rw [e] at hs; cases hs; rfl
  · rw [c1] at hc; cases hc.2
  · rw [e] at hs; cases hs; rfl
  · rw [e] at hs; cases hs; rfl
  · rw [e] at hs; cases hs; rfl
  · rw [e] at hs; cases hs
    split_ifs <;> rfl

theorem corrosionStep_level_header (st : String × CorrosionResult) (l : GoString)
    (h : hasHeader corrosionLevelHeaders l = true) :
    (corrosionStep st l).2.riskLevel = classifyLevel (afterFirstColon (stringsTrimSpace l)) := by
  obtain ⟨p, hp, hc⟩ := contains_trim_of_hasHeader (by decide) h
  have hcolon : ':' ∈ stringsTrimSpace l :=
    colon_mem_of_contains (by simp [corrosionLevelHeaders] at hp; rcases hp with rfl | rfl <;> decide) hc
  have hor : (stringsContains (stringsToUpper (stringsTrimSpace l)) "RISK LEVEL:".data ||
      stringsContains (stringsToUpper (stringsTrimSpace l)) "CORROSION RISK:".data) = true := by
    simp [corrosionLevelHeaders] at hp
    rcases hp with rfl | rfl <;> simp [hc]
  simp only [corrosionStep, hor, if_true]
  rw [if_neg (List.ne_nil_of_mem hcolon)]
  exact levelFromHeader_eq hcolon _

theorem corrosion_level_of_only_header (text : GoString) (pre post : List GoString)
    (L : GoString) (hsplit : stringsSplit text '\n' = pre ++ L :: post)
    (hpost : ∀ l ∈ post, hasHeader corrosionLevelHeaders l = false)
    (hL : hasHeader corrosionLevelHeaders L = true) :
    (ParseCorrosionResponse text).riskLevel =
      classifyLevel (afterFirstColon (stringsTrimSpace L)) := by
  unfold ParseCorrosionResponse
  rw [hsplit, List.foldl_append, List.foldl_cons]
  rw [foldl_preserves corrosionStep (fun st => st.2.riskLevel) post
    (fun st l hl => corrosionStep_level_other st l (hpost l hl))]
  exact corrosionStep_level_header _ L hL

theorem safetyStep_level_header (st : String × SafetyResult) (l : GoString)
    (h : hasHeader safetyLevelHeaders l = true) :
    (safetyStep st l).2.hazardLevel = classifyLevel (afterFirstColon (stringsTrimSpace l)) := by
  obtain ⟨p, hp, hc⟩ := contains_trim_of_hasHeader (by decide) h
  have hcolon : ':' ∈ stringsTrimSpace l :=
    colon_mem_of_contains (by simp [safetyLevelHeaders] at hp; rcases hp with rfl | rfl <;> decide) hc
  have hor : (stringsContains (stringsToUpper (stringsTrimSpace l)) "HAZARD LEVEL:".data ||
      stringsContains (stringsToUpper (stringsTrimSpace l)) "OVERALL RISK:".data) = true := by
    simp [safetyLevelHeaders] at hp
    rcases hp with rfl | rfl <;> simp [hc]
  simp only [safetyStep, hor, if_true]
  rw [if_neg (List.ne_nil_of_mem hcolon)]
  exact levelFromHeader_eq hcolon _

theorem safety_level_of_only_header (text : GoString) (pre post : List GoString)
    (L : GoString) (hsplit : stringsSplit text '\n' = pre ++ L :: post)
    (hpost : ∀ l ∈ post, hasHeader safetyLevelHeaders l = false)
    (hL : hasHeader safetyLevelHeaders L = true) :
    (ParseSafetyResponse text).hazardLevel =
      classifyLevel (afterFirstColon (stringsTrimSpace L)) := by
  unfold ParseSafetyResponse
  rw [hsplit, List.foldl_append, List.foldl_cons]
  rw [foldl_preserves safetyStep (fun st => st.2.hazardLevel) post
    (fun st l hl => safetyStep_level_other st l (hpost l hl))]
  exact safetyStep_level_header _ L hL

theorem vcraStep_level_header (st : String × VCRAResult) (l : GoString)
    (h : hasHeader vcraLevelHeaders l = true)
    (hroot : containsPhrase l "ROOT CAUSE:".data = false) :
    ∃ st', vcraStep st l = some st' ∧
      st'.2.riskLevel = classifyLevel (afterFirstColon (stringsTrimSpace l)) := by
  obtain ⟨p, hp, hc⟩ := contains_trim_of_hasHeader (by decide) h
  simp [vcraLevelHeaders] at hp
  subst hp
  have hcolon : ':' ∈ stringsTrimSpace l := colon_mem_of_contains (by decide) hc
  have hr : stringsContains (stringsToUpper (stringsTrimSpace l)) "ROOT CAUSE:".data = false := by
    have := containsPhrase_trim l "ROOT CAUSE:".data (by decide) (by decide) (by decide)
    rw [hroot] at this
    exact this
  simp only [vcraStep, hc, hr, if_true, Bool.false_eq_true, if_false]
  rw [if_neg (List.ne_nil_of_mem hcolon)]
  exact ⟨_, rfl, levelFromHeader_eq hcolon _⟩

theorem vcra_level_of_only_header (text : GoString) (pre post : List GoString)
    (L : GoString) (hsplit : stringsSplit text '\n' = pre ++ L :: post)
    (hpost : ∀ l ∈ post, hasHeader vcraLevelHeaders l = false)
    (hL : hasHeader vcraLevelHeaders L = true)
    (hroot : containsPhrase L "ROOT CAUSE:".data = false) :
    ∃ r, ParseVCRAResponse text = some r ∧
      r.riskLevel = classifyLevel (afterFirstColon (stringsTrimSpace L)) := by
  obtain ⟨st1, h1⟩ := foldlM_vcraStep_isSome pre ("", vcraDefault)
  obtain ⟨st2, h2, h2l⟩ := vcraStep_level_header st1 L hL hroot
  obtain ⟨st3, h3⟩ := foldlM_vcraStep_isSome post st2
  have h4 := foldlM_split vcraStep pre post L _ _ _ _ h1 h2 h3
  refine ⟨st3.2, ?_, ?_⟩
  · unfold ParseVCRAResponse
    rw [hsplit]
    exact congrArg (Option.map Prod.snd) h4
  rw [foldlM_preserves vcraStep (fun st => st.2.riskLevel) post
    (fun st l hl st' hs => vcraStep_level_other st l (hpost l hl) st' hs) st2 st3 h3]
  exact h2l

/-- C4 (amended): for `ParseVCRAResponse`, `ParseSafetyResponse` and
`ParseCorrosionResponse`, when exactly one line L of the text contains a level
header phrase of the parser (and, for `ParseVCRAResponse`, L does not also
contain "ROOT CAUSE:"), the returned level is the classification of the part
of the trimmed line L after its first colon: HIGH if that part contains
"HIGH" in any letter case, else LOW if it contains "LOW", else MEDIUM. -/
theorem level_of_only_header_line :
    (∀ (text : GoString) (pre post : List GoString) (L : GoString),
        stringsSplit text '\n' = pre ++ L :: post →
        (∀ l ∈ pre, hasHeader vcraLevelHeaders l = false) →
        (∀ l ∈ post, hasHeader vcraLevelHeaders l = false) →
        hasHeader vcraLevelHeaders L = true →
        containsPhrase L "ROOT CAUSE:".data = false →
        ∃ r, ParseVCRAResponse text = some r ∧
          r.riskLevel = classifyLevel (afterFirstColon (stringsTrimSpace L))) ∧
    (∀ (text : GoString) (pre post : List GoString) (L : GoString),
        stringsSplit text '\n' = pre ++ L :: post →
        (∀ l ∈ pre, hasHeader safetyLevelHeaders l = false) →
        (∀ l ∈ post, hasHeader safetyLevelHeaders l = false) →
        hasHeader safetyLevelHeaders L = true →
        (ParseSafetyResponse text).hazardLevel =
          classifyLevel (afterFirstColon (stringsTrimSpace L))) ∧
    (∀ (text : GoString) (pre post : List GoString) (L : GoString),
        stringsSplit text '\n' = pre ++ L :: post →
        (∀ l ∈ pre, hasHeader corrosionLevelHeaders l = false) →
        (∀ l ∈ post, hasHeader corrosionLevelHeaders l = false) →
        hasHeader corrosionLevelHeaders L = true →
        (ParseCorrosionResponse text).riskLevel =
          classifyLevel (afterFirstColon (stringsTrimSpace L))) :=
  ⟨fun text pre post L hs _ hpost hL hroot =>
      vcra_level_of_only_header text pre post L hs hpost hL hroot,
   fun text pre post L hs _ hpost hL => safety_level_of_only_header text pre post L hs hpost hL,
   fun text pre post L hs _ hpost hL =>
      corrosion_level_of_only_header text pre post L hs hpost hL⟩

/-- Witness for C4 (amended): three-line texts whose middle line is the only
level header; the level after the first colon is read in every letter case. -/
theorem level_of_only_header_line_witness :
    (∃ r, ParseVCRAResponse "Summary\nRisk Level: very high\n- act".data = some r ∧
      r.riskLevel = classifyLevel (afterFirstColon (stringsTrimSpace "Risk Level: very high".data))) ∧
    (ParseSafetyResponse "Summary\nOverall risk: Low\n- act".data).hazardLevel =
      classifyLevel (afterFirstColon (stringsTrimSpace "Overall risk: Low".data)) ∧
    (ParseCorrosionResponse "Summary\nCORROSION RISK: moderate\n- act".data).riskLevel =
      classifyLevel (afterFirstColon (stringsTrimSpace "CORROSION RISK: moderate".data)) ∧
    classifyLevel (afterFirstColon (stringsTrimSpace "Risk Level: very high".data)) = "HIGH".data ∧
    classifyLevel (afterFirstColon (stringsTrimSpace "Overall risk: Low".data)) = "LOW".data ∧
    classifyLevel (afterFirstColon (stringsTrimSpace "CORROSION RISK: moderate".data)) =
      "MEDIUM".data :=
  ⟨level_of_only_header_line.1 _ ["Summary".data] ["- act".data] "Risk Level: very high".data
      (by decide) (by decide) (by decide) (by decide) (by decide),
   level_of_only_header_line.2.1 _ ["Summary".data] ["- act".data] "Overall risk: Low".data
      (by decide) (by decide) (by decide) (by decide),
   level_of_only_header_line.2.2 _ ["Summary".data] ["- act".data] "CORROSION RISK: moderate".data
      (by decide) (by decide) (by decide) (by decide),
   by decide, by decide, by decide⟩

/-- C4 as stated fails.  In "Note: high flow, RISK LEVEL: LOW" the part after
the header phrase's colon names LOW, but `ParseCorrosionResponse` classifies
what follows the first colon of the line and returns HIGH.  In
"ROOT CAUSE: valve stuck, RISK LEVEL: HIGH" the part after the header phrase's
colon names HIGH, but `ParseVCRAResponse` takes the line as a root-cause
header and leaves the level at MEDIUM. -/
theorem level_after_header_colon_counterexample :
    (ParseCorrosionResponse "Note: high flow, RISK LEVEL: LOW".data).riskLevel = "HIGH".data ∧
    (afterPhrase "Note: high flow, RISK LEVEL: LOW".data "RISK LEVEL:".data).map classifyLevel =
      some "LOW".data ∧
    (ParseVCRAResponse "ROOT CAUSE: valve stuck, RISK LEVEL: HIGH".data).map VCRAResult.riskLevel =
      some "MEDIUM".data ∧
    (afterPhrase "ROOT CAUSE: valve stuck, RISK LEVEL: HIGH".data "RISK LEVEL:".data).map
      classifyLevel = some "HIGH".data := by
  decide!

/-! ### C5 -/

theorem confidenceFromHeader_eq {line : GoString} (h : ':' ∈ line) (old : Float64) :
    confidenceFromHeader line old =
      match strconvParseFloat (stringsTrim (stringsTrimSpace (afterFirstColon line)) '%') with
      | some val => if val.gtOne then val.divHundred else val
      | none => old := by
  rw [confidenceFromHeader, stringsSplitN2_eq h]

theorem confidenceFromHeader_line (s : GoString) (old : Float64) :
    confidenceFromHeader (stringsTrimSpace ("CONFIDENCE: ".data ++ s)) old =
      match strconvParseFloat (stringsTrim (stringsTrimSpace s) '%') with
      | some val => if val.gtOne then val.divHundred else val
      | none => old := by
  have e : "CONFIDENCE: ".data ++ s = ('C' :: "ONFIDENCE".data) ++ ':' :: ' ' :: s := rfl
  have hmem : ':' ∈ stringsTrimSpace ("CONFIDENCE: ".data ++ s) := by
    rw [e, stringsTrimSpace_header _ _ _ (by decide)]
    simp
  rw [confidenceFromHeader_eq hmem, e, remainder_of_header _ _ _ (by decide) (by decide),
    stringsTrimSpace_cons_space]

theorem vcraStep_confidence_header (st : String × VCRAResult) (l : GoString)
    (h1 : containsPhrase l "ROOT CAUSE:".data = false)
    (h2 : containsPhrase l "RISK LEVEL:".data = false)
    (h3 : containsPhrase l "CONFIDENCE:".data = true) :
    vcraStep st l = some ("", { st.2 with
      confidence := confidenceFromHeader (stringsTrimSpace l) st.2.confidence }) := by
  rw [← containsPhrase_trim l _ (by decide) (by decide) (by decide), containsPhrase] at h1 h2 h3
  have hne : stringsTrimSpace l ≠ [] :=
    List.ne_nil_of_mem (colon_mem_of_contains (by decide) h3)
  simp only [vcraStep, h1, h2, h3, if_true, Bool.false_eq_true, if_false]
  rw [if_neg hne]

theorem vcraStep_confidence_cases (st st' : String × VCRAResult) (l : GoString)
    (h : vcraStep st l = some st') :
    st'.2.confidence = st.2.confidence ∨
      st'.2.confidence = confidenceFromHeader (stringsTrimSpace l) st.2.confidence := by
  rcases vcraStep_cases st l with
    ⟨_, e⟩ | ⟨_, e⟩ | ⟨_, e⟩ | ⟨_, e⟩ | ⟨_, e⟩ | ⟨_, e⟩ | ⟨_, e⟩
  · rw [e] at h; cases h; exact Or.inl rfl
  · rw [e] at h; cases h; exact Or.inl rfl
  · rw [e] at h; cases h; exact Or.inl rfl
  · rw [e] at h; cases h; exact Or.inr rfl
  · rw [e] at h; cases h; exact Or.inl rfl
  · rw [e] at h; cases h; exact Or.inl rfl
  · rw [e] at h; cases h
    refine Or.inl ?_
    split_ifs <;> rfl

theorem vcraStep_confidence_other (st st' : String × VCRAResult) (l : GoString)
    (hc : hasHeader vcraHeaders l = false) (h : vcraStep st l = some st') :
    st'.2.confidence = st.2.confidence := by
  have c3 := containsPhrase_of_hasHeader_false hc (p := "CONFIDENCE:".data) (by decide)
  rcases vcraStep_cases st l with
    ⟨_, e⟩ | ⟨_, e⟩ | ⟨_, e⟩ | ⟨hx, _⟩ | ⟨_, e⟩ | ⟨_, e⟩ | ⟨_, e⟩
  · rw [e] at h; cases h; rfl
  · rw [e] at h; cases h; rfl
  · rw [e] at h; cases h; rfl
  · rw [c3] at hx; cases hx.2.2
  · rw [e] at h; cases h; rfl
  · rw [e] at h; cases h; rfl
  · rw [e] at h; cases h
    split_ifs <;> rfl

theorem vcra_confidence_unparsed (text : GoString) (pre post : List GoString) (s : GoString)
    (hsplit : stringsSplit text '\n' = pre ++ ("CONFIDENCE: ".data ++ s) :: post)
    (hpre : ∀ l ∈ pre, hasHeader vcraHeaders l = false)
    (hpost : ∀ l ∈ post, hasHeader vcraHeaders l = false)
    (hs : strconvParseFloat (stringsTrim (stringsTrimSpace s) '%') = none) :
    ∃ r, ParseVCRAResponse text = some r ∧ r.confidence = .finite 0.75 := by
  obtain ⟨st1, h1⟩ := foldlM_vcraStep_isSome pre ("", vcraDefault)
  obtain ⟨st2, h2⟩ := vcraStep_isSome st1 ("CONFIDENCE: ".data ++ s)
  obtain ⟨st3, h3⟩ := foldlM_vcraStep_isSome post st2
  have h4 := foldlM_split vcraStep pre post _ _ _ _ _ h1 h2 h3
  refine ⟨st3.2, ?_, ?_⟩
  · unfold ParseVCRAResponse
    rw [hsplit]
    exact congrArg (Option.map Prod.snd) h4
  · rw [foldlM_preserves vcraStep (fun st => st.2.confidence) post
      (fun st l hl st' hs => vcraStep_confidence_other st st' l (hpost l hl) hs) st2 st3 h3]
    have e1 : st1.2.confidence = .finite 0.75 :=
      foldlM_preserves vcraStep (fun st => st.2.confidence) pre
        (fun st l hl st' hs => vcraStep_confidence_other st st' l (hpre l hl) hs) _ st1 h1
    rcases vcraStep_confidence_cases st1 st2 _ h2 with h | h
    · exact h.trans e1
    · rw [h, confidenceFromHeader_line, hs]
      exact e1

theorem vcra_confidence_line (text : GoString) (pre post : List GoString) (s : GoString)
    (hsplit : stringsSplit text '\n' = pre ++ ("CONFIDENCE: ".data ++ s) :: post)
    (hpre : ∀ l ∈ pre, hasHeader vcraHeaders l = false)
    (hpost : ∀ l ∈ post, hasHeader vcraHeaders l = false)
    (hs : ':' ∉ s) :
    ParseVCRAResponse text = some { vcraDefault with
      confidence :=
        match strconvParseFloat (stringsTrim (stringsTrimSpace s) '%') with
        | some val => if val.gtOne then val.divHundred else val
        | none => .finite 0.75 } := by
  have h1 := foldlM_fixed vcraStep ("", vcraDefault) pre
    (fun l hl => vcraStep_noHeader _ l (hpre l hl))
  have h2 := vcraStep_confidence_header ("", vcraDefault) ("CONFIDENCE: ".data ++ s)
    (containsPhrase_append_no_colon "CONFIDENCE: ".data s "ROOT CAUSE".data hs (by decide))
    (containsPhrase_append_no_colon "CONFIDENCE: ".data s "RISK LEVEL".data hs (by decide))
    (containsPhrase_append_left _ _ _ (by decide))
  have h3 := foldlM_fixed vcraStep _ post
    (fun l hl => vcraStep_noHeader { vcraDefault with
      confidence := confidenceFromHeader (stringsTrimSpace ("CONFIDENCE: ".data ++ s))
        vcraDefault.confidence } l (hpost l hl))
  have h4 := foldlM_split vcraStep pre post _ _ _ _ _ h1 h2 h3
  unfold ParseVCRAResponse
  rw [hsplit]
  refine (congrArg (Option.map Prod.snd) h4).trans ?_
  rw [confidenceFromHeader_line]
  rfl

/-- Stripping a plain decimal numeral, optionally followed by one "%", of
white space and percent signs gives the numeral back. -/
theorem strip_numeral (s d : GoString) (hne : d ≠ [])
    (hd : ∀ c ∈ d, isDigit c = true ∨ c = '.') (hs : s = d ∨ s = d ++ "%".data) :
    stringsTrim (stringsTrimSpace s) '%' = d ∧ ':' ∉ s := by
  have hhead := numeralChar_facts (hd _ (List.head_mem hne))
  have hlast := numeralChar_facts (hd _ (List.getLast_mem hne))
  have hcolon : ':' ∉ d := fun h => (numeralChar_facts (hd _ h)).2.2 rfl
  have hpd : (d.dropWhile (· == '%')).rdropWhile (· == '%') = d :=
    trim_eq_self _ d hne (by simpa using hhead.2.1) (by simpa using hlast.2.1)
  rcases hs with hs | hs
  · subst hs
    have h1 : stringsTrimSpace s = s := trim_eq_self _ s hne hhead.1 hlast.1
    rw [h1]
    exact ⟨hpd, hcolon⟩
  · subst hs
    have hne2 : d ++ "%".data ≠ [] := by simp
    have h1 : stringsTrimSpace (d ++ "%".data) = d ++ "%".data :=
      trim_eq_self _ _ hne2 (by rw [List.head_append_of_ne_nil hne]; exact hhead.1)
        (by simp; decide)
    rw [h1]
    refine ⟨trim_append_singleton _ d '%' hne (by simpa using hhead.2.1)
      (by simpa using hlast.2.1) (by decide), ?_⟩
    intro h
    rcases List.mem_append.mp h with h | h
    · exact hcolon h
    · exact absurd h (by decide)

/-- C5 (amended): on a text whose only header line is "CONFIDENCE: s", where
s is a plain decimal numeral d that `strconv.ParseFloat` reads as the
`float64` v, optionally followed by one "%", `ParseVCRAResponse` returns
confidence v/100 (the `float64` quotient) when v > 1 and v otherwise, without
clamping; when s, stripped of white space and percent signs, is not accepted
by `strconv.ParseFloat`, the confidence stays at 0.75.  In particular "85%"
gives 0.85, "0.9" gives 0.9, "abc" gives 0.75 and "110" gives 1.10, each
decimal standing for the `float64` nearest to it.  The words "nan", "inf" and
"infinity" are accepted by `strconv.ParseFloat`: they give NaN and the
infinities. -/
theorem confidence_of_only_header :
    (∀ (text : GoString) (pre post : List GoString) (s d : GoString) (v : ℚ),
        stringsSplit text '\n' = pre ++ ("CONFIDENCE: ".data ++ s) :: post →
        (∀ l ∈ pre, hasHeader vcraHeaders l = false) →
        (∀ l ∈ post, hasHeader vcraHeaders l = false) →
        (s = d ∨ s = d ++ "%".data) →
        (∀ c ∈ d, isDigit c = true ∨ c = '.') →
        strconvParseFloat d = some (.finite v) →
        ∃ r, ParseVCRAResponse text = some r ∧
          r.confidence = if 1 < v then Float64.round false (v / 100) else .finite v) ∧
    (∀ (text : GoString) (pre post : List GoString) (s : GoString),
        stringsSplit text '\n' = pre ++ ("CONFIDENCE: ".data ++ s) :: post →
        (∀ l ∈ pre, hasHeader vcraHeaders l = false) →
        (∀ l ∈ post, hasHeader vcraHeaders l = false) →
        strconvParseFloat (stringsTrim (stringsTrimSpace s) '%') = none →
        ∃ r, ParseVCRAResponse text = some r ∧ r.confidence = .finite 0.75) ∧
    (ParseVCRAResponse "CONFIDENCE: 85%".data).map VCRAResult.confidence =
      some (Float64.round false 0.85) ∧
    (ParseVCRAResponse "CONFIDENCE: 0.9".data).map VCRAResult.confidence =
      some (Float64.round false 0.9) ∧
    (ParseVCRAResponse "CONFIDENCE: abc".data).map VCRAResult.confidence =
      some (.finite 0.75) ∧
    (ParseVCRAResponse "CONFIDENCE: 110".data).map VCRAResult.confidence =
      some (Float64.round false 1.10) ∧
    (ParseVCRAResponse "CONFIDENCE: NaN".data).map VCRAResult.confidence = some .nan ∧
    (ParseVCRAResponse "CONFIDENCE: inf".data).map VCRAResult.confidence =
      some (.inf false) ∧
    (ParseVCRAResponse "CONFIDENCE: -Infinity".data).map VCRAResult.confidence =
      some (.inf true) := by
  refine ⟨?_, ?_, by decide!, by decide!, by decide!, by decide!, by decide!, by decide!,
    by decide!⟩
  · intro text pre post s d v hsplit hpre hpost hs hd hv
    have hne : d ≠ [] := by
      rintro rfl
      rw [show strconvParseFloat [] = none from by decide] at hv
      cases hv
    obtain ⟨hstrip, hcolon⟩ := strip_numeral s d hne hd hs
    refine ⟨_, vcra_confidence_line text pre post s hsplit hpre hpost hcolon, ?_⟩
    simp only [hstrip, hv]
    exact confidence_of_value v
  · intro text pre post s hsplit hpre hpost hs
    exact vcra_confidence_unparsed text pre post s hsplit hpre hpost hs

/-- Witness for C5 (amended): "CONFIDENCE: 85%" between two lines of prose
gives the `float64` quotient of 85 by 100 (85 > 1 is divided by 100), and
"CONFIDENCE: about right" leaves 0.75. -/
theorem confidence_of_only_header_witness :
    (∃ r, ParseVCRAResponse "Incident summary\nCONFIDENCE: 85%\nend of report".data = some r ∧
      r.confidence = if (1 : ℚ) < 85 then Float64.round false (85 / 100) else .finite 85) ∧
    (∃ r, ParseVCRAResponse "Incident summary\nCONFIDENCE: about right\nend".data = some r ∧
      r.confidence = .finite 0.75) :=
  ⟨confidence_of_only_header.1 _ ["Incident summary".data] ["end of report".data]
      "85%".data "85".data 85 (by decide) (by decide) (by decide) (Or.inr (by decide))
      (by decide) (by decide!),
   confidence_of_only_header.2.1 _ ["Incident summary".data] ["end".data]
      "about right".data (by decide) (by decide) (by decide) (by decide)⟩

/-- C5 as stated fails: "nan" and "inf" are not numeric, so by the claim the
confidence would stay 0.75, but `strconv.ParseFloat` accepts both words
without error and `ParseVCRAResponse` returns NaN and the positive infinity
as the confidence. -/
theorem confidence_not_numeric_counterexample :
    (ParseVCRAResponse "CONFIDENCE: nan".data).map VCRAResult.confidence = some .nan ∧
    (ParseVCRAResponse "CONFIDENCE: nan".data).map VCRAResult.confidence ≠
      some (.finite 0.75) ∧
    (ParseVCRAResponse "CONFIDENCE: inf".data).map VCRAResult.confidence =
      some (.inf false) ∧
    (ParseVCRAResponse "CONFIDENCE: inf".data).map VCRAResult.confidence ≠
      some (.finite 0.75) := by
  decide!

/-! ### C6 -/

theorem rateFromHeader_eq {line : GoString} (h : ':' ∈ line) (old : Float64) :
    rateFromHeader line old =
      if findNumericRun (stringsTrimSpace (afterFirstColon line)) = [] then old
      else (strconvParseFloat
        (findNumericRun (stringsTrimSpace (afterFirstColon line)))).getD old := by
  rw [rateFromHeader, stringsSplitN2_eq h]
  simp only [ne_eq, ite_not]
  split_ifs with h1
  · rfl
  · cases strconvParseFloat (findNumericRun (stringsTrimSpace (afterFirstColon line))) <;> rfl

theorem rateFromHeader_line (s : GoString) (old : Float64) :
    rateFromHeader (stringsTrimSpace ("CORROSION RATE: ".data ++ s)) old =
      if findNumericRun s = [] then old
      else (strconvParseFloat (findNumericRun s)).getD old := by
  have e : "CORROSION RATE: ".data ++ s = ('C' :: "ORROSION RATE".data) ++ ':' :: ' ' :: s := rfl
  have hmem : ':' ∈ stringsTrimSpace ("CORROSION RATE: ".data ++ s) := by
    rw [e, stringsTrimSpace_header _ _ _ (by decide)]
    simp
  rw [rateFromHeader_eq hmem, e, remainder_of_header _ _ _ (by decide) (by decide),
    stringsTrimSpace_cons_space, findNumericRun_trim]

theorem corrosionStep_rate_header (st : String × CorrosionResult) (l : GoString)
    (h1 : hasHeader corrosionLevelHeaders l = false)
    (h3 : containsPhrase l "CORROSION RATE:".data = true) :
    corrosionStep st l = ("", { st.2 with
      corrosionRate := rateFromHeader (stringsTrimSpace l) st.2.corrosionRate }) := by
  have ha := not_contains_of_hasHeader (p := "RISK LEVEL:".data) h1 (by decide)
  have hb := not_contains_of_hasHeader (p := "CORROSION RISK:".data) h1 (by decide)
  rw [← containsPhrase_trim l _ (by decide) (by decide) (by decide), containsPhrase] at h3
  have hne : stringsTrimSpace l ≠ [] :=
    List.ne_nil_of_mem (colon_mem_of_contains (by decide) h3)
  simp only [corrosionStep, ha, hb, h3, if_true, Bool.or_false, Bool.false_eq_true, if_false]
  rw [if_neg hne]

theorem corrosion_rate_line (text : GoString) (pre post : List GoString) (s : GoString)
    (hsplit : stringsSplit text '\n' = pre ++ ("CORROSION RATE: ".data ++ s) :: post)
    (hpre : ∀ l ∈ pre, hasHeader corrosionHeaders l = false)
    (hpost : ∀ l ∈ post, hasHeader corrosionHeaders l = false)
    (hs : hasHeader corrosionLevelHeaders ("CORROSION RATE: ".data ++ s) = false) :
    ParseCorrosionResponse text = { corrosionDefault with corrosionRate := rateOfRemainder s } := by
  have h1 := foldl_fixed corrosionStep ("", corrosionDefault) pre
    (fun l hl => corrosionStep_noHeader _ l (hpre l hl))
  have h2 := corrosionStep_rate_header ("", corrosionDefault) ("CORROSION RATE: ".data ++ s) hs
    (containsPhrase_append_left _ _ _ (by decide))
  have h3 := foldl_fixed corrosionStep _ post
    (fun l hl => corrosionStep_noHeader { corrosionDefault with
      corrosionRate := rateFromHeader (stringsTrimSpace ("CORROSION RATE: ".data ++ s))
        corrosionDefault.corrosionRate } l (hpost l hl))
  unfold ParseCorrosionResponse
  rw [hsplit, List.foldl_append, List.foldl_cons]
  have h1' : List.foldl corrosionStep ("", corrosionDefault) pre = ("", corrosionDefault) := h1
  unfold corrosionDefault at h1'
  rw [h1']
  unfold corrosionDefault at h2 h3
  rw [h2, h3, rateFromHeader_line]
  rfl

/-- C6 (amended): on a text whose only header line is "CORROSION RATE: s",
`ParseCorrosionResponse` returns every other field at its default and, as the
rate, the value of the first maximal run of digits and periods of s (any
number of periods), or the default 0.5 when s has no digit or period or when
`strconv.ParseFloat` does not accept that run.  In particular "0.25 mm/year"
gives 0.25 and "mm/year" gives 0.5. -/
theorem corrosion_rate_of_only_header :
    (∀ (text : GoString) (pre post : List GoString) (s : GoString),
        stringsSplit text '\n' = pre ++ ("CORROSION RATE: ".data ++ s) :: post →
        (∀ l ∈ pre, hasHeader corrosionHeaders l = false) →
        (∀ l ∈ post, hasHeader corrosionHeaders l = false) →
        hasHeader corrosionLevelHeaders ("CORROSION RATE: ".data ++ s) = false →
        (ParseCorrosionResponse text).corrosionRate =
          (if findNumericRun s = [] then .finite 0.5
           else (strconvParseFloat (findNumericRun s)).getD (.finite 0.5))) ∧
    (ParseCorrosionResponse "CORROSION RATE: 0.25 mm/year".data).corrosionRate = .finite 0.25 ∧
    (ParseCorrosionResponse "CORROSION RATE: mm/year".data).corrosionRate = .finite 0.5 := by
  refine ⟨?_, by decide!, by decide!⟩
  intro text pre post s hsplit hpre hpost hs
  rw [corrosion_rate_line text pre post s hsplit hpre hpost hs]
  rfl

/-- Witness for C6 (amended): "CORROSION RATE: 0.1-0.5 mm/year" between two
lines of prose; the first run of digits and periods is "0.1". -/
theorem corrosion_rate_of_only_header_witness :
    (ParseCorrosionResponse
        "Assessment\nCORROSION RATE: 0.1-0.5 mm/year\nend".data).corrosionRate =
      (if findNumericRun "0.1-0.5 mm/year".data = [] then .finite 0.5
       else (strconvParseFloat (findNumericRun "0.1-0.5 mm/year".data)).getD (.finite 0.5)) ∧
    (if findNumericRun "0.1-0.5 mm/year".data = [] then Float64.finite 0.5
       else (strconvParseFloat (findNumericRun "0.1-0.5 mm/year".data)).getD (.finite 0.5)) =
      Float64.round false 0.1 :=
  ⟨corrosion_rate_of_only_header.1 _ ["Assessment".data] ["end".data] "0.1-0.5 mm/year".data
      (by decide) (by decide) (by decide) (by decide),
   by decide!⟩

/-- C6 as stated fails.  In "1.2.3 mm/yr" the first run of digits with at
most one decimal point is "1.2", of value 1.2, and in "approx. 0.3 mm/year"
it is "0.3"; `ParseCorrosionResponse` takes the runs "1.2.3" and ".", which
`strconv.ParseFloat` rejects, and keeps the default 0.5 in both cases. -/
theorem corrosion_rate_first_run_counterexample :
    (ParseCorrosionResponse "CORROSION RATE: 1.2.3 mm/yr".data).corrosionRate = .finite 0.5 ∧
    firstDecimalRun "1.2.3 mm/yr".data = "1.2".data ∧
    ratePerWording "1.2.3 mm/yr".data = Float64.round false 1.2 ∧
    (ParseCorrosionResponse "CORROSION RATE: approx. 0.3 mm/year".data).corrosionRate =
      .finite 0.5 ∧
    firstDecimalRun "approx. 0.3 mm/year".data = "0.3".data ∧
    ratePerWording "approx. 0.3 mm/year".data = Float64.round false 0.3 := by
  decide!

/-! ### C7 -/
theorem startsWithNumeral_eq (line : GoString) :
    startsWithNumeral line = beginsWithNumeral line := by
  match line with
  | [] => rfl
  | [d] =>
    simp [startsWithNumeral, stringsStartsWith, beginsWithNumeral, List.isPrefixOf]
  | d :: p :: rest =>
    simp only [startsWithNumeral, stringsStartsWith, beginsWithNumeral, List.isPrefixOf,
      Bool.and_true]
    by_cases hp : p = '.'
    · subst hp
      simp only [beq_self_eq_true, Bool.and_true]
      by_cases hd : 0x31 ≤ d.toNat ∧ d.toNat ≤ 0x39
      · obtain ⟨n, hn⟩ : ∃ n, d.toNat = n := ⟨_, rfl⟩
        have hd' : d = Char.ofNat n := by rw [← hn, Char.ofNat_toNat]
        rw [hn] at hd
        obtain ⟨h1, h2⟩ := hd
        subst hd'
        interval_cases n <;> decide
      · have hne : ∀ c : Char, (0x31 ≤ c.toNat ∧ c.toNat ≤ 0x39) → (c == d) = false := by
          intro c hc
          cases hcd : (c == d) with
          | false => rfl
          | true =>
            have : c = d := by simpa using hcd
            subst this
            exact absurd hc hd
        rw [hne '1' (by decide), hne '2' (by decide), hne '3' (by decide), hne '4' (by decide),
          hne '5' (by decide), hne '6' (by decide), hne '7' (by decide), hne '8' (by decide),
          hne '9' (by decide)]
        simp only [Bool.or_self]
        cases h1 : decide (0x31 ≤ d.toNat) <;> cases h2 : decide (d.toNat ≤ 0x39) <;>
          first
            | rfl
            | exact absurd ⟨of_decide_eq_true h1, of_decide_eq_true h2⟩ hd
    · have : (('.' : Char) == p) = false := by
        cases h : (('.' : Char) == p) with
        | false => rfl
        | true => exact absurd (by simpa using h : '.' = p).symm hp
      have h2 : (p == '.') = false := by
        cases h : (p == '.') with
        | false => rfl
        | true => exact absurd (by simpa using h) hp
      simp [this, h2]

theorem parseTroubleshooting_eq (text : GoString) :
    ParseTroubleshootingResponse text =
      ((stringsSplit text '\n').foldl troubleshootingStep ("", troubleshootingDefault)).2 := rfl

theorem result_causes_append_nil (r : TroubleshootingResult) :
    { r with causes := r.causes ++ [] } = r := by
  cases r
  simp

theorem result_steps_append_nil (r : TroubleshootingResult) :
    { r with steps := r.steps ++ [] } = r := by
  cases r
  simp

theorem troubleshootingStep_causes (r : TroubleshootingResult) (l : GoString)
    (h : hasHeader troubleshootingHeaders l = false) :
    troubleshootingStep ("causes", r) l =
      ("causes", { r with
        causes := r.causes ++ [stringsTrimSpace l].filter beginsWithNumeral }) := by
  have c1 := containsPhrase_of_hasHeader_false h (p := "ANALYSIS:".data) (by decide)
  have c2 := containsPhrase_of_hasHeader_false h (p := "POSSIBLE CAUSES:".data) (by decide)
  have c3 := containsPhrase_of_hasHeader_false h (p := "TROUBLESHOOTING STEPS:".data) (by decide)
  have c4 := containsPhrase_of_hasHeader_false h (p := "SAFETY WARNINGS:".data) (by decide)
  have c5 := containsPhrase_of_hasHeader_false h (p := "EQUIPMENT NOTES:".data) (by decide)
  rcases troubleshootingStep_cases ("causes", r) l with
    ⟨h0, e⟩ | ⟨hc, _⟩ | ⟨hc, _⟩ | ⟨hc, _⟩ | ⟨hc, _⟩ | ⟨hc, _⟩ | ⟨_, e⟩
  · rw [e, h0]
    exact congrArg (Prod.mk "causes") (result_causes_append_nil r).symm
  · rw [c1] at hc; cases hc
  · rw [c2] at hc; cases hc.2
  · rw [c3] at hc; cases hc.2.2
  · rw [c4] at hc; cases hc.2.2.2
  · rw [c5] at hc; cases hc.2.2.2.2
  · rw [e, startsWithNumeral_eq]
    by_cases hn : beginsWithNumeral (stringsTrimSpace l) = true
    · simp [hn]
    · rw [Bool.not_eq_true] at hn
      simp [hn, result_causes_append_nil]

theorem troubleshootingStep_steps (r : TroubleshootingResult) (l : GoString)
    (h : hasHeader troubleshootingHeaders l = false) :
    troubleshootingStep ("steps", r) l =
      ("steps", { r with
        steps := r.steps ++ [stringsTrimSpace l].filter beginsWithNumeral }) := by
  have c1 := containsPhrase_of_hasHeader_false h (p := "ANALYSIS:".data) (by decide)
  have c2 := containsPhrase_of_hasHeader_false h (p := "POSSIBLE CAUSES:".data) (by decide)
  have c3 := containsPhrase_of_hasHeader_false h (p := "TROUBLESHOOTING STEPS:".data) (by decide)
  have c4 := containsPhrase_of_hasHeader_false h (p := "SAFETY WARNINGS:".data) (by decide)
  have c5 := containsPhrase_of_hasHeader_false h (p := "EQUIPMENT NOTES:".data) (by decide)
  rcases troubleshootingStep_cases ("steps", r) l with
    ⟨h0, e⟩ | ⟨hc, _⟩ | ⟨hc, _⟩ | ⟨hc, _⟩ | ⟨hc, _⟩ | ⟨hc, _⟩ | ⟨_, e⟩
  · rw [e, h0]
    exact congrArg (Prod.mk "steps") (result_steps_append_nil r).symm
  · rw [c1] at hc; cases hc
  · rw [c2] at hc; cases hc.2
  · rw [c3] at hc; cases hc.2.2
  · rw [c4] at hc; cases hc.2.2.2
  · rw [c5] at hc; cases hc.2.2.2.2
  · rw [e, startsWithNumeral_eq]
    by_cases hn : beginsWithNumeral (stringsTrimSpace l) = true
    · simp [hn]
    · rw [Bool.not_eq_true] at hn
      simp [hn, result_steps_append_nil]

theorem foldl_causes (body : List GoString)
    (h : ∀ l ∈ body, hasHeader troubleshootingHeaders l = false) (r : TroubleshootingResult) :
    body.foldl troubleshootingStep ("causes", r) =
      ("causes", { r with
        causes := r.causes ++ (body.map stringsTrimSpace).filter beginsWithNumeral }) := by
  induction body generalizing r with
  | nil => exact congrArg (Prod.mk "causes") (result_causes_append_nil r).symm
  | cons a as ih =>
    rw [List.foldl_cons, troubleshootingStep_causes r a (h a (List.mem_cons_self a as)),
      ih (fun l hl => h l (List.mem_cons_of_mem a hl))]
    simp only [List.map_cons, List.append_assoc]
    rw [← List.filter_append]
    rfl

theorem foldl_steps (body : List GoString)
    (h : ∀ l ∈ body, hasHeader troubleshootingHeaders l = false) (r : TroubleshootingResult) :
    body.foldl troubleshootingStep ("steps", r) =
      ("steps", { r with
        steps := r.steps ++ (body.map stringsTrimSpace).filter beginsWithNumeral }) := by
  induction body generalizing r with
  | nil => exact congrArg (Prod.mk "steps") (result_steps_append_nil r).symm
  | cons a as ih =>
    rw [List.foldl_cons, troubleshootingStep_steps r a (h a (List.mem_cons_self a as)),
      ih (fun l hl => h l (List.mem_cons_of_mem a hl))]
    simp only [List.map_cons, List.append_assoc]
    rw [← List.filter_append]
    rfl

/-- C7: on a text made of a "POSSIBLE CAUSES:" (respectively
"TROUBLESHOOTING STEPS:") header line followed by lines without a header
phrase, `ParseTroubleshootingResponse` returns as causes (respectively steps)
exactly the following lines, whitespace-trimmed and in source order, that
begin with a digit 1-9 immediately followed by a period; the lines "1. Alpha",
"2. Beta", "3. Gamma" give exactly those three entries. -/
theorem numbered_items_of_section :
    (∀ (text : GoString) (body : List GoString),
        stringsSplit text '\n' = "POSSIBLE CAUSES:".data :: body →
        (∀ l ∈ body, hasHeader troubleshootingHeaders l = false) →
        (ParseTroubleshootingResponse text).causes =
          (body.map stringsTrimSpace).filter beginsWithNumeral) ∧
    (∀ (text : GoString) (body : List GoString),
        stringsSplit text '\n' = "TROUBLESHOOTING STEPS:".data :: body →
        (∀ l ∈ body, hasHeader troubleshootingHeaders l = false) →
        (ParseTroubleshootingResponse text).steps =
          (body.map stringsTrimSpace).filter beginsWithNumeral) ∧
    (ParseTroubleshootingResponse "POSSIBLE CAUSES:\n1. Alpha\n2. Beta\n3. Gamma".data).causes =
      ["1. Alpha".data, "2. Beta".data, "3. Gamma".data] ∧
    (ParseTroubleshootingResponse
        "TROUBLESHOOTING STEPS:\n1. Alpha\n2. Beta\n3. Gamma".data).steps =
      ["1. Alpha".data, "2. Beta".data, "3. Gamma".data] := by
  refine ⟨?_, ?_, by decide, by decide⟩
  · intro text body hsplit hbody
    rw [parseTroubleshooting_eq, hsplit, List.foldl_cons,
      show troubleshootingStep ("", troubleshootingDefault) "POSSIBLE CAUSES:".data =
        ("causes", troubleshootingDefault) from by decide,
      foldl_causes body hbody]
    rfl
  · intro text body hsplit hbody
    rw [parseTroubleshooting_eq, hsplit, List.foldl_cons,
      show troubleshootingStep ("", troubleshootingDefault) "TROUBLESHOOTING STEPS:".data =
        ("steps", troubleshootingDefault) from by decide,
      foldl_steps body hbody]
    rfl

/-- Witness for C7: under "POSSIBLE CAUSES:" the lines "10. ten", "note" and
the blank line are dropped and the two numbered lines are kept in order. -/
theorem numbered_items_of_section_witness :
    (ParseTroubleshootingResponse
        "POSSIBLE CAUSES:\n  2. Worn seal \n10. ten\nnote\n\n1. Air leak".data).causes =
      (["  2. Worn seal ".data, "10. ten".data, "note".data, "".data, "1. Air leak".data].map
        stringsTrimSpace).filter beginsWithNumeral ∧
    (["  2. Worn seal ".data, "10. ten".data, "note".data, "".data, "1. Air leak".data].map
        stringsTrimSpace).filter beginsWithNumeral = ["2. Worn seal".data, "1. Air leak".data] ∧
    (ParseTroubleshootingResponse "TROUBLESHOOTING STEPS:\n1. Stop pump\n- check".data).steps =
      (["1. Stop pump".data, "- check".data].map stringsTrimSpace).filter beginsWithNumeral :=
  ⟨numbered_items_of_section.1 _ _ (by decide) (by decide), by decide,
   numbered_items_of_section.2.1 _ _ (by decide) (by decide)⟩

/-! ### C8 -/
theorem joinWithSpace_cons (x : GoString) (xs : List GoString) :
    joinWithSpace (x :: xs) = x ++ (xs.map (fun l => ' ' :: l)).flatten := by
  induction xs generalizing x with
  | nil => simp [joinWithSpace]
  | cons y ys ih => simp [joinWithSpace, ih]

theorem troubleshootingStep_notes (r : TroubleshootingResult) (l : GoString)
    (h : hasHeader troubleshootingHeaders l = false) (hl : stringsTrimSpace l ≠ []) :
    troubleshootingStep ("equipment_notes", r) l =
      ("equipment_notes",
        if beginsWithNumeral (stringsTrimSpace l) then r
        else { r with
          equipmentNotes :=
            (if r.equipmentNotes ≠ [] then r.equipmentNotes ++ " ".data
             else r.equipmentNotes) ++ stringsTrimSpace l }) := by
  have c1 := containsPhrase_of_hasHeader_false h (p := "ANALYSIS:".data) (by decide)
  have c2 := containsPhrase_of_hasHeader_false h (p := "POSSIBLE CAUSES:".data) (by decide)
  have c3 := containsPhrase_of_hasHeader_false h (p := "TROUBLESHOOTING STEPS:".data) (by decide)
  have c4 := containsPhrase_of_hasHeader_false h (p := "SAFETY WARNINGS:".data) (by decide)
  have c5 := containsPhrase_of_hasHeader_false h (p := "EQUIPMENT NOTES:".data) (by decide)
  rcases troubleshootingStep_cases ("equipment_notes", r) l with
    ⟨h0, _⟩ | ⟨hc, _⟩ | ⟨hc, _⟩ | ⟨hc, _⟩ | ⟨hc, _⟩ | ⟨hc, _⟩ | ⟨_, e⟩
  · exact absurd h0 hl
  · rw [c1] at hc; cases hc
  · rw [c2] at hc; cases hc.2
  · rw [c3] at hc; cases hc.2.2
  · rw [c4] at hc; cases hc.2.2.2
  · rw [c5] at hc; cases hc.2.2.2.2
  · rw [e, startsWithNumeral_eq]
    by_cases hn : beginsWithNumeral (stringsTrimSpace l) = true
    · simp [hn]
    · rw [Bool.not_eq_true] at hn
      simp [hn, hl]

theorem foldl_notes_nonempty (body : List GoString)
    (h : ∀ l ∈ body, hasHeader troubleshootingHeaders l = false)
    (hb : ∀ l ∈ body, stringsTrimSpace l ≠ []) (r : TroubleshootingResult)
    (hr : r.equipmentNotes ≠ []) :
    body.foldl troubleshootingStep ("equipment_notes", r) =
      ("equipment_notes", { r with
        equipmentNotes := r.equipmentNotes ++
          ((((body.map stringsTrimSpace).filter (fun l => !beginsWithNumeral l)).map
            (fun l => ' ' :: l)).flatten) }) := by
  induction body generalizing r with
  | nil =>
    cases r
    simp
  | cons a as ih =>
    rw [List.foldl_cons, troubleshootingStep_notes r a (h a (List.mem_cons_self a as))
      (hb a (List.mem_cons_self a as))]
    by_cases hn : beginsWithNumeral (stringsTrimSpace a) = true
    · rw [if_pos hn, ih (fun l hl => h l (List.mem_cons_of_mem a hl))
        (fun l hl => hb l (List.mem_cons_of_mem a hl)) r hr]
      simp [hn]
    · rw [if_neg hn, ih (fun l hl => h l (List.mem_cons_of_mem a hl))
        (fun l hl => hb l (List.mem_cons_of_mem a hl)) _ (by simp [hr])]
      rw [Bool.not_eq_true] at hn
      simp [hn, hr]

theorem foldl_notes_empty (body : List GoString)
    (h : ∀ l ∈ body, hasHeader troubleshootingHeaders l = false)
    (hb : ∀ l ∈ body, stringsTrimSpace l ≠ []) (r : TroubleshootingResult)
    (hr : r.equipmentNotes = []) :
    body.foldl troubleshootingStep ("equipment_notes", r) =
      ("equipment_notes", { r with
        equipmentNotes :=
          joinWithSpace ((body.map stringsTrimSpace).filter (fun l => !beginsWithNumeral l)) }) := by
  induction body generalizing r with
  | nil =>
    cases r
    simp only [] at hr
    simp [joinWithSpace, hr]
  | cons a as ih =>
    rw [List.foldl_cons, troubleshootingStep_notes r a (h a (List.mem_cons_self a as))
      (hb a (List.mem_cons_self a as))]
    by_cases hn : beginsWithNumeral (stringsTrimSpace a) = true
    · rw [if_pos hn, ih (fun l hl => h l (List.mem_cons_of_mem a hl))
        (fun l hl => hb l (List.mem_cons_of_mem a hl)) r hr]
      simp [hn]
    · have hne : stringsTrimSpace a ≠ [] := hb a (List.mem_cons_self a as)
      rw [if_neg hn, foldl_notes_nonempty as (fun l hl => h l (List.mem_cons_of_mem a hl))
        (fun l hl => hb l (List.mem_cons_of_mem a hl)) _ (by simp [hr, hne])]
      rw [Bool.not_eq_true] at hn
      simp [hn, hr, joinWithSpace_cons]

/-- C8 (amended): on a text made of an "EQUIPMENT NOTES:" header line followed
by non-blank lines without a header phrase, `ParseTroubleshootingResponse`
returns as equipment notes those of the lines that do not begin with a digit
1-9 followed by a period, whitespace-trimmed and joined in source order with
exactly one space; the lines "A.", "B.", "C." give "A. B. C.". -/
theorem equipment_notes_of_section :
    (∀ (text : GoString) (body : List GoString),
        stringsSplit text '\n' = "EQUIPMENT NOTES:".data :: body →
        (∀ l ∈ body, hasHeader troubleshootingHeaders l = false) →
        (∀ l ∈ body, stringsTrimSpace l ≠ []) →
        (ParseTroubleshootingResponse text).equipmentNotes =
          joinWithSpace
            ((body.map stringsTrimSpace).filter (fun l => !beginsWithNumeral l))) ∧
    (ParseTroubleshootingResponse "EQUIPMENT NOTES:\nA.\nB.\nC.".data).equipmentNotes =
      "A. B. C.".data := by
  refine ⟨?_, by decide⟩
  intro text body hsplit hbody hblank
  rw [parseTroubleshooting_eq, hsplit, List.foldl_cons,
    show troubleshootingStep ("", troubleshootingDefault) "EQUIPMENT NOTES:".data =
      ("equipment_notes", troubleshootingDefault) from by decide,
    foldl_notes_empty body hbody hblank troubleshootingDefault rfl]

/-- Witness for C8 (amended): of the three lines under "EQUIPMENT NOTES:",
the numbered one is left out and the other two are joined with one space. -/
theorem equipment_notes_of_section_witness :
    (ParseTroubleshootingResponse
        "EQUIPMENT NOTES:\n Keep dry \n2. Check seals\n- Use PPE".data).equipmentNotes =
      joinWithSpace
        (([" Keep dry ".data, "2. Check seals".data, "- Use PPE".data].map
          stringsTrimSpace).filter (fun l => !beginsWithNumeral l)) ∧
    joinWithSpace
        (([" Keep dry ".data, "2. Check seals".data, "- Use PPE".data].map
          stringsTrimSpace).filter (fun l => !beginsWithNumeral l)) = "Keep dry - Use PPE".data :=
  ⟨equipment_notes_of_section.1 _ _ (by decide) (by decide) (by decide), by decide⟩

/-- C8 as stated fails: under "EQUIPMENT NOTES:" the non-blank, header-free
lines "A.", "2. Check seals", "C." joined with single spaces read
"A. 2. Check seals C.", but the numbered line is taken by the numbered-item
rule, which drops it outside the causes and steps sections, and the notes
returned are "A. C.". -/
theorem equipment_notes_counterexample :
    (ParseTroubleshootingResponse
        "EQUIPMENT NOTES:\nA.\n2. Check seals\nC.".data).equipmentNotes = "A. C.".data ∧
    joinWithSpace (["A.".data, "2. Check seals".data, "C.".data].map stringsTrimSpace) =
      "A. 2. Check seals C.".data ∧
    ["A.".data, "2. Check seals".data, "C.".data].all
      (fun l => !hasHeader troubleshootingHeaders l && stringsTrimSpace l != []) = true := by
  decide

/-! ### C9 -/
/-- C9 (amended): for each of the four parsers and every header phrase H of
the parser other than "ESTIMATED LIFE:" and "EQUIPMENT LIFE:", the one-line
text H parses to the all-default result, which is also the result for the
empty text; for these two phrases `ParseCorrosionResponse` returns the default
result with the estimated life replaced by the empty string. -/
theorem header_alone_result :
    (∀ H ∈ troubleshootingHeaders, ParseTroubleshootingResponse H = troubleshootingDefault) ∧
    (∀ H ∈ vcraHeaders, ParseVCRAResponse H = some vcraDefault) ∧
    (∀ H ∈ safetyHeaders, ParseSafetyResponse H = safetyDefault) ∧
    (∀ H ∈ corrosionHeaders,
      ParseCorrosionResponse H =
        if H = "ESTIMATED LIFE:".data ∨ H = "EQUIPMENT LIFE:".data then
          { corrosionDefault with estimatedLife := [] }
        else corrosionDefault) ∧
    ParseTroubleshootingResponse [] = troubleshootingDefault ∧
    ParseVCRAResponse [] = some vcraDefault ∧
    ParseSafetyResponse [] = safetyDefault ∧
    ParseCorrosionResponse [] = corrosionDefault := by
  decide!

/-- Witness for C9 (amended): one header phrase of each parser, and one of
the two estimated-life phrases. -/
theorem header_alone_result_witness :
    ParseTroubleshootingResponse "EQUIPMENT NOTES:".data = troubleshootingDefault ∧
    ParseVCRAResponse "CONFIDENCE:".data = some vcraDefault ∧
    ParseSafetyResponse "HAZARD LEVEL:".data = safetyDefault ∧
    ParseCorrosionResponse "CORROSION RATE:".data = corrosionDefault ∧
    ParseCorrosionResponse "ESTIMATED LIFE:".data =
      { corrosionDefault with estimatedLife := [] } :=
  ⟨header_alone_result.1 _ (by decide), header_alone_result.2.1 _ (by decide),
   header_alone_result.2.2.1 _ (by decide),
   (header_alone_result.2.2.2.1 "CORROSION RATE:".data (by decide)).trans (by decide!),
   (header_alone_result.2.2.2.1 "ESTIMATED LIFE:".data (by decide)).trans (by decide!)⟩

/-- C9 as stated fails: the one-line texts "ESTIMATED LIFE:" and
"EQUIPMENT LIFE:" do not parse to the result of the empty text; the estimated
life is the empty remainder of the header line, not the default
"10-15 years". -/
theorem header_alone_life_counterexample :
    (ParseCorrosionResponse "ESTIMATED LIFE:".data).estimatedLife = [] ∧
    (ParseCorrosionResponse "EQUIPMENT LIFE:".data).estimatedLife = [] ∧
    (ParseCorrosionResponse []).estimatedLife = "10-15 years".data ∧
    ParseCorrosionResponse "ESTIMATED LIFE:".data ≠ ParseCorrosionResponse [] := by
  decide!

/-! ### C10 -/
theorem linesUnder_cons (sectionOf : GoString → Option String) (sec cur : String)
    (l : GoString) (ls : List GoString) :
    linesUnder sectionOf sec cur (l :: ls) =
      if stringsTrimSpace l = [] then linesUnder sectionOf sec cur ls
      else
        match sectionOf l with
        | some s => linesUnder sectionOf sec s ls
        | none =>
          if cur = sec then stringsTrimSpace l :: linesUnder sectionOf sec cur ls
          else linesUnder sectionOf sec cur ls := by
  rw [linesUnder]

theorem linesUnder_subset (sectionOf : GoString → Option String) (sec cur : String)
    (ls : List GoString) :
    ∀ x ∈ linesUnder sectionOf sec cur ls, x ∈ ls.map stringsTrimSpace := by
  induction ls generalizing cur with
  | nil => intro x hx; simp [linesUnder] at hx
  | cons l ls ih =>
    intro x hx
    rw [List.map_cons]
    rw [linesUnder_cons] at hx
    by_cases h0 : stringsTrimSpace l = []
    · rw [if_pos h0] at hx
      exact List.mem_cons_of_mem _ (ih cur x hx)
    · rw [if_neg h0] at hx
      cases hs : sectionOf l with
      | some s =>
        simp only [hs] at hx
        exact List.mem_cons_of_mem _ (ih s x hx)
      | none =>
        simp only [hs] at hx
        by_cases h1 : cur = sec
        · rw [if_pos h1] at hx
          rcases List.mem_cons.mp hx with h | h
          · rw [h]; exact List.mem_cons_self _ _
          · exact List.mem_cons_of_mem _ (ih cur x h)
        · rw [if_neg h1] at hx
          exact List.mem_cons_of_mem _ (ih cur x hx)

theorem parseSafety_eq (text : GoString) :
    ParseSafetyResponse text =
      ((stringsSplit text '\n').foldl safetyStep ("", safetyDefault)).2 := rfl

theorem safetySectionOfHeader_none {l : GoString} (h : hasHeader safetyHeaders l = false) :
    safetySectionOfHeader l = none := by
  have c1 := containsPhrase_of_hasHeader_false h (p := "HAZARD LEVEL:".data) (by decide)
  have c2 := containsPhrase_of_hasHeader_false h (p := "OVERALL RISK:".data) (by decide)
  have c3 := containsPhrase_of_hasHeader_false h (p := "IDENTIFIED HAZARDS:".data) (by decide)
  have c4 := containsPhrase_of_hasHeader_false h (p := "HAZARDS:".data) (by decide)
  have c5 := containsPhrase_of_hasHeader_false h (p := "MITIGATIONS:".data) (by decide)
  have c6 := containsPhrase_of_hasHeader_false h (p := "RECOMMENDED MITIGATIONS:".data)
    (by decide)
  have c7 := containsPhrase_of_hasHeader_false h (p := "STANDARDS:".data) (by decide)
  have c8 := containsPhrase_of_hasHeader_false h (p := "RELEVANT STANDARDS:".data) (by decide)
  simp [safetySectionOfHeader, c1, c2, c3, c4, c5, c6, c7, c8]

theorem trim_ne_nil_of_containsPhrase (l p : GoString) (hne : p ≠ [])
    (hh : unicodeIsSpace (p.head hne) = false) (hl : unicodeIsSpace (p.getLast hne) = false)
    (h : containsPhrase l p = true) : stringsTrimSpace l ≠ [] := by
  intro h0
  rw [← containsPhrase_trim l p hne hh hl, h0] at h
  rw [containsPhrase, stringsContains_iff] at h
  exact hne (List.infix_nil.mp h)

theorem trim_ne_nil_of_or (l p q : GoString) (hp : p ≠ []) (hq : q ≠ [])
    (hph : unicodeIsSpace (p.head hp) = false) (hpl : unicodeIsSpace (p.getLast hp) = false)
    (hqh : unicodeIsSpace (q.head hq) = false) (hql : unicodeIsSpace (q.getLast hq) = false)
    (h : (containsPhrase l p || containsPhrase l q) = true) : stringsTrimSpace l ≠ [] := by
  rcases Bool.or_eq_true_iff.mp h with h | h
  · exact trim_ne_nil_of_containsPhrase l p hp hph hpl h
  · exact trim_ne_nil_of_containsPhrase l q hq hqh hql h

/-- One iteration of the loop of `ParseSafetyResponse`, seen from the hazards
list: the hazards of the lines under the hazards section are appended, and
the section changes as `linesUnder` tracks it. -/
theorem safetyStep_hazards (cur : String) (r : SafetyResult) (l : GoString)
    (ls : List GoString) :
    ∃ cur' r', safetyStep (cur, r) l = (cur', r') ∧
      r.hazards ++ ((linesUnder safetySectionOfHeader "hazards" cur (l :: ls)).filter
          isListItem).map hazardOfLine =
        r'.hazards ++ ((linesUnder safetySectionOfHeader "hazards" cur' ls).filter
          isListItem).map hazardOfLine := by
  rcases safetyStep_cases (cur, r) l with
    ⟨h0, e⟩ | ⟨hc, e⟩ | ⟨hc, e⟩ | ⟨hc, e⟩ | ⟨hc, e⟩ | ⟨⟨h0, hh⟩, e⟩
  · exact ⟨cur, r, e, by simp [linesUnder, h0]⟩
  · have hne := trim_ne_nil_of_or l _ _ (by decide) (by decide) (by decide) (by decide)
      (by decide) (by decide) hc
    exact ⟨_, _, e, by simp [linesUnder, hne, safetySectionOfHeader, hc]⟩
  · have hne := trim_ne_nil_of_or l _ _ (by decide) (by decide) (by decide) (by decide)
      (by decide) (by decide) hc.2
    exact ⟨_, _, e, by simp [linesUnder, hne, safetySectionOfHeader, hc.1, hc.2]⟩
  · have hne := trim_ne_nil_of_or l _ _ (by decide) (by decide) (by decide) (by decide)
      (by decide) (by decide) hc.2.2
    exact ⟨_, _, e, by simp [linesUnder, hne, safetySectionOfHeader, hc.1, hc.2.1, hc.2.2]⟩
  · have hne := trim_ne_nil_of_or l _ _ (by decide) (by decide) (by decide) (by decide)
      (by decide) (by decide) hc.2.2.2
    exact ⟨_, _, e, by
      simp [linesUnder, hne, safetySectionOfHeader, hc.1, hc.2.1, hc.2.2.1, hc.2.2.2]⟩
  · have hs := safetySectionOfHeader_none hh
    have hl : linesUnder safetySectionOfHeader "hazards" cur (l :: ls) =
        if cur = "hazards" then
          stringsTrimSpace l :: linesUnder safetySectionOfHeader "hazards" cur ls
        else linesUnder safetySectionOfHeader "hazards" cur ls := by
      rw [linesUnder_cons, if_neg h0, hs]
    by_cases h1 : cur = "hazards"
    · by_cases h2 : isListItem (stringsTrimSpace l) = true
      · refine ⟨_, _, e.trans (if_pos ⟨h1, h2⟩), ?_⟩
        rw [hl, if_pos h1, List.filter_cons_of_pos h2, List.map_cons]
        simp
      · have n1 : ¬(cur = "hazards" ∧ isListItem (stringsTrimSpace l) = true) := fun h => h2 h.2
        have n2 : ¬(cur = "mitigations" ∧ isListItem (stringsTrimSpace l) = true) :=
          fun h => h2 h.2
        have n3 : ¬(cur = "standards" ∧ isListItem (stringsTrimSpace l) = true) :=
          fun h => h2 h.2
        refine ⟨_, _, e.trans ((if_neg n1).trans ((if_neg n2).trans (if_neg n3))), ?_⟩
        rw [hl, if_pos h1, List.filter_cons_of_neg h2]
    · have n1 : ¬(cur = "hazards" ∧ isListItem (stringsTrimSpace l) = true) := fun h => h1 h.1
      rw [hl, if_neg h1]
      rw [if_neg n1] at e
      by_cases h3 : cur = "mitigations" ∧ isListItem (stringsTrimSpace l) = true
      · exact ⟨_, _, e.trans (if_pos h3), rfl⟩
      · rw [if_neg h3] at e
        by_cases h4 : cur = "standards" ∧ isListItem (stringsTrimSpace l) = true
        · exact ⟨_, _, e.trans (if_pos h4), rfl⟩
        · exact ⟨_, _, e.trans (if_neg h4), rfl⟩

theorem foldl_safetyStep_hazards (ls : List GoString) (cur : String) (r : SafetyResult) :
    (ls.foldl safetyStep (cur, r)).2.hazards =
      r.hazards ++ ((linesUnder safetySectionOfHeader "hazards" cur ls).filter
        isListItem).map hazardOfLine := by
  induction ls generalizing cur r with
  | nil => simp [linesUnder]
  | cons l ls ih =>
    obtain ⟨cur', r', e, h⟩ := safetyStep_hazards cur r l ls
    rw [List.foldl_cons, e, ih, h]

/-- C10: `ParseSafetyResponse` returns as hazards exactly one record for each
line under the hazards section that begins with "-", "•" or digits followed
by a period and is not a header line, in source order; the record of a line
has the whitespace-trimmed line as name, probability "Medium", and severity
"High" if the lower-cased line contains "high" or "critical", otherwise "Low"
if it contains "low" or "minor", otherwise "Medium". -/
theorem hazards_of_text (text : GoString) :
    (ParseSafetyResponse text).hazards =
      ((linesUnder safetySectionOfHeader "hazards" "" (stringsSplit text '\n')).filter
        isListItem).map hazardOfLine ∧
    (∀ h ∈ (ParseSafetyResponse text).hazards,
      h.name ∈ (stringsSplit text '\n').map stringsTrimSpace ∧
      h.probability = "Medium".data ∧
      h.severity =
        if stringsContains (stringsToLower h.name) "high".data ||
            stringsContains (stringsToLower h.name) "critical".data then "High".data
        else if stringsContains (stringsToLower h.name) "low".data ||
            stringsContains (stringsToLower h.name) "minor".data then "Low".data
        else "Medium".data) := by
  have h1 : (ParseSafetyResponse text).hazards =
      ((linesUnder safetySectionOfHeader "hazards" "" (stringsSplit text '\n')).filter
        isListItem).map hazardOfLine := by
    rw [parseSafety_eq, foldl_safetyStep_hazards]
    rfl
  refine ⟨h1, ?_⟩
  intro h hh
  rw [h1] at hh
  obtain ⟨line, hline, rfl⟩ := List.mem_map.mp hh
  refine ⟨?_, rfl, rfl⟩
  exact linesUnder_subset _ _ _ _ _ (List.mem_of_mem_filter hline)

/-- Witness for C10: a bullet that is itself a header line opens a section
and gives no hazard; the three list items under the hazards section give one
hazard each, in order; the line without a bullet and the bullet under the
mitigations section give none. -/
theorem hazards_of_text_witness :
    (ParseSafetyResponse
        ("HAZARDS:\n- High pressure line\nplain remark\n• minor cut risk\n" ++
         "12. hot surface\nMITIGATIONS:\n- high visibility vest").data).hazards =
      [{ name := "- High pressure line".data, severity := "High".data,
         probability := "Medium".data },
       { name := "• minor cut risk".data, severity := "Low".data,
         probability := "Medium".data },
       { name := "12. hot surface".data, severity := "Medium".data,
         probability := "Medium".data }] :=
  (hazards_of_text _).1.trans (by decide)

/-! ### C11 -/

/-- C11 (defect of the code): on the reply laid out as the prompt of
`HandleCorrosion` requests, with each header alone on its line and the value
on the next line, `ParseCorrosionResponse` does not read the values: it
returns level MEDIUM, rate 0.5 and the empty estimated life, where the claim
has HIGH, 0.25 and "5 years".  Likewise `ParseVCRAResponse` on
"RISK LEVEL:", "HIGH", "CONFIDENCE:", "85%" returns the defaults MEDIUM and
0.75.  The root-cause and analysis fields do read the next line. -/
theorem value_on_next_line_not_read :
    ParseCorrosionResponse
        "CORROSION RISK:\nHIGH\nCORROSION RATE:\n0.25 mm/year\nESTIMATED LIFE:\n5 years".data =
      { riskLevel := "MEDIUM".data, corrosionRate := .finite 0.5, mechanisms := [],
        recommendations := [], estimatedLife := [] } ∧
    ParseVCRAResponse "RISK LEVEL:\nHIGH\nCONFIDENCE:\n85%".data =
      some { rootCause := [], riskLevel := "MEDIUM".data, confidence := .finite 0.75,
             actions := [], timeline := [] } ∧
    (ParseVCRAResponse "ROOT CAUSE:\nValve stuck open".data).map VCRAResult.rootCause =
      some "Valve stuck open".data ∧
    (ParseTroubleshootingResponse "ANALYSIS:\nPump cavitation".data).analysis =
      "Pump cavitation".data ∧
    (ParseCorrosionResponse
        "CORROSION RISK: HIGH\nCORROSION RATE: 0.25 mm/year\nESTIMATED LIFE: 5 years".data) =
      { riskLevel := "HIGH".data, corrosionRate := .finite 0.25, mechanisms := [],
        recommendations := [], estimatedLife := "5 years".data } := by
  decide!

/-! ### C15 -/

/-- C15 (defect of the code): the "ANALYSIS:" header is matched in any letter
case, but the phrase is removed from the line by a case-sensitive
`strings.Replace`, so "Analysis: Pump cavitation" and
"analysis: Pump cavitation" return the whole line, header included, as the
analysis, where the claim has "Pump cavitation"; only the upper-case
"ANALYSIS: Pump cavitation" returns "Pump cavitation". -/
theorem analysis_header_kept_in_other_case :
    (ParseTroubleshootingResponse "Analysis: Pump cavitation".data).analysis =
      "Analysis: Pump cavitation".data ∧
    (ParseTroubleshootingResponse "analysis: Pump cavitation".data).analysis =
      "analysis: Pump cavitation".data ∧
    (ParseTroubleshootingResponse "ANALYSIS: Pump cavitation".data).analysis =
      "Pump cavitation".data ∧
    (ParseVCRAResponse "Root cause: Pump cavitation".data).map VCRAResult.rootCause =
      some "Pump cavitation".data := by
  decide!

/-! ### C13 -/

theorem foldl_invariant {σ α : Type} (f : σ → α → σ) (P : σ → Prop)
    (h : ∀ st l, P st → P (f st l)) (ls : List α) (st : σ) (h0 : P st) :
    P (ls.foldl f st) := by
  induction ls generalizing st with
  | nil => exact h0
  | cons a as ih => exact ih (f st a) (h st a h0)

theorem foldlM_invariant {σ α : Type} (f : σ → α → Option σ) (P : σ → Prop)
    (h : ∀ st l st', f st l = some st' → P st → P st') (ls : List α) (st st' : σ)
    (hf : ls.foldlM f st = some st') (h0 : P st) : P st' := by
  induction ls generalizing st with
  | nil =>
    simp only [List.foldlM_nil] at hf
    cases hf
    exact h0
  | cons a as ih =>
    rw [List.foldlM_cons] at hf
    cases h1 : f st a with
    | none => rw [h1] at hf; cases hf
    | some st1 =>
      rw [h1] at hf
      exact ih st1 hf (h st a st1 h1 h0)

theorem levelFromHeader_mem (line old : GoString) (h : old ∈ levelNames) :
    levelFromHeader line old ∈ levelNames := by
  unfold levelFromHeader
  split
  · simp only []
    split_ifs <;> decide
  · exact h

theorem corrosionStep_level_mem (st : String × CorrosionResult) (l : GoString)
    (h : st.2.riskLevel ∈ levelNames) : (corrosionStep st l).2.riskLevel ∈ levelNames := by
  rcases corrosionStep_cases st l with
    ⟨_, e⟩ | ⟨_, e⟩ | ⟨_, e⟩ | ⟨_, e⟩ | ⟨_, e⟩ | ⟨_, e⟩ | ⟨_, e⟩
  · rw [e]; exact h
  · rw [e]; exact levelFromHeader_mem _ _ h
  · rw [e]; exact h
  · rw [e]; exact h
  · rw [e]; exact h
  · rw [e]; exact h
  · rw [e]
    split_ifs <;> exact h

theorem safetyStep_level_mem (st : String × SafetyResult) (l : GoString)
    (h : st.2.hazardLevel ∈ levelNames) : (safetyStep st l).2.hazardLevel ∈ levelNames := by
  rcases safetyStep_cases st l with ⟨_, e⟩ | ⟨_, e⟩ | ⟨_, e⟩ | ⟨_, e⟩ | ⟨_, e⟩ | ⟨_, e⟩
  · rw [e]; exact h
  · rw [e]; exact levelFromHeader_mem _ _ h
  · rw [e]; exact h
  · rw [e]; exact h
  · rw [e]; exact h
  · rw [e]
    split_ifs <;> exact h

theorem vcraStep_level_mem (st st' : String × VCRAResult) (l : GoString)
    (hs : vcraStep st l = some st') (h : st.2.riskLevel ∈ levelNames) :
    st'.2.riskLevel ∈ levelNames := by
  rcases vcraStep_cases st l with
    ⟨_, e⟩ | ⟨_, e⟩ | ⟨_, e⟩ | ⟨_, e⟩ | ⟨_, e⟩ | ⟨_, e⟩ | ⟨_, e⟩
  · rw [e] at hs; cases hs; exact h
  · rw [e] at hs; cases hs; exact h
  · rw [e] at hs; cases hs; exact levelFromHeader_mem _ _ h
  · rw [e] at hs; cases hs; exact h
  · rw [e] at hs; cases hs; exact h
  · rw [e] at hs; cases hs; exact h
  · rw [e] at hs; cases hs
    split_ifs <;> exact h

theorem parseCorrosion_eq (text : GoString) :
    ParseCorrosionResponse text =
      ((stringsSplit text '\n').foldl corrosionStep ("", corrosionDefault)).2 := rfl

theorem parseVCRA_eq (text : GoString) :
    ParseVCRAResponse text =
      ((stringsSplit text '\n').foldlM vcraStep ("", vcraDefault)).map Prod.snd := rfl

theorem corrosion_level_mem (text : GoString) :
    (ParseCorrosionResponse text).riskLevel ∈ levelNames := by
  rw [parseCorrosion_eq]
  exact foldl_invariant corrosionStep (fun st => st.2.riskLevel ∈ levelNames)
    corrosionStep_level_mem _ _ (by decide)

theorem safety_level_mem (text : GoString) :
    (ParseSafetyResponse text).hazardLevel ∈ levelNames := by
  rw [parseSafety_eq]
  exact foldl_invariant safetyStep (fun st => st.2.hazardLevel ∈ levelNames)
    safetyStep_level_mem _ _ (by decide)

theorem vcra_level_mem (text : GoString) (r : VCRAResult)
    (h : ParseVCRAResponse text = some r) : r.riskLevel ∈ levelNames := by
  rw [parseVCRA_eq] at h
  cases hf : (stringsSplit text '\n').foldlM vcraStep ("", vcraDefault) with
  | none => rw [hf] at h; cases h
  | some st =>
    rw [hf] at h
    cases h
    exact foldlM_invariant vcraStep (fun st => st.2.riskLevel ∈ levelNames)
      (fun st l st' hs h0 => vcraStep_level_mem st st' l hs h0) _ _ st hf (by decide)

/-- C13: level normalization is idempotent.  The level a parser returns for
any text is one of HIGH, MEDIUM and LOW, and parsing the one-line text
"RISK LEVEL: " (for `ParseSafetyResponse`, "HAZARD LEVEL: ") followed by
that level returns the same level. -/
theorem level_idempotent :
    (∀ t : GoString,
      (ParseCorrosionResponse ("RISK LEVEL: ".data ++ (ParseCorrosionResponse t).riskLevel)).riskLevel
        = (ParseCorrosionResponse t).riskLevel) ∧
    (∀ (t : GoString) (r : VCRAResult), ParseVCRAResponse t = some r →
      (ParseVCRAResponse ("RISK LEVEL: ".data ++ r.riskLevel)).map VCRAResult.riskLevel =
        some r.riskLevel) ∧
    (∀ t : GoString,
      (ParseSafetyResponse ("HAZARD LEVEL: ".data ++ (ParseSafetyResponse t).hazardLevel)).hazardLevel
        = (ParseSafetyResponse t).hazardLevel) := by
  refine ⟨?_, ?_, ?_⟩
  · intro t
    have h := corrosion_level_mem t
    simp only [levelNames, List.mem_cons, List.mem_singleton, List.not_mem_nil, or_false] at h
    rcases h with h | h | h <;> rw [h] <;> decide
  · intro t r hr
    have h := vcra_level_mem t r hr
    simp only [levelNames, List.mem_cons, List.mem_singleton, List.not_mem_nil, or_false] at h
    rcases h with h | h | h <;> rw [h] <;> decide
  · intro t
    have h := safety_level_mem t
    simp only [levelNames, List.mem_cons, List.mem_singleton, List.not_mem_nil, or_false] at h
    rcases h with h | h | h <;> rw [h] <;> decide

/-- Witness for C13: the level returned for a two-line reply is LOW, and
"RISK LEVEL: LOW" parses to LOW again. -/
theorem level_idempotent_witness :
    (ParseVCRAResponse ("RISK LEVEL: ".data ++ "LOW".data)).map VCRAResult.riskLevel =
      some "LOW".data :=
  level_idempotent.2.1 "Summary\nRisk level: very low".data
    { rootCause := [], riskLevel := "LOW".data, confidence := .finite 0.75, actions := [],
      timeline := [] } (by decide!)

/-! ### C17 -/

theorem stringsSplit_ne_nil (s : GoString) (sep : Char) : stringsSplit s sep ≠ [] := by
  cases s with
  | nil => simp [stringsSplit]
  | cons c cs =>
    unfold stringsSplit
    split_ifs
    · simp
    · split <;> simp

theorem stringsSplit_append (p t : GoString) (sep : Char) :
    stringsSplit (p ++ sep :: t) sep = stringsSplit p sep ++ stringsSplit t sep := by
  induction p with
  | nil => simp [stringsSplit]
  | cons c cs ih =>
    rw [List.cons_append]
    by_cases hc : c = sep
    · simp only [stringsSplit, hc, if_true, ih, List.cons_append]
    · simp only [stringsSplit, hc, if_false, ih]
      cases hs : stringsSplit cs sep with
      | nil => exact absurd hs (stringsSplit_ne_nil cs sep)
      | cons l ls => simp

/-- C17: lines before the first header are ignored.  For each of the four
parsers, every text t and every block p of lines none of which contains
(case-insensitively) a header phrase of the parser, the text p, newline, t
parses to the same result as t. -/
theorem leading_lines_ignored :
    (∀ p t : GoString, (∀ l ∈ stringsSplit p '\n', hasHeader troubleshootingHeaders l = false) →
      ParseTroubleshootingResponse (p ++ '\n' :: t) = ParseTroubleshootingResponse t) ∧
    (∀ p t : GoString, (∀ l ∈ stringsSplit p '\n', hasHeader vcraHeaders l = false) →
      ParseVCRAResponse (p ++ '\n' :: t) = ParseVCRAResponse t) ∧
    (∀ p t : GoString, (∀ l ∈ stringsSplit p '\n', hasHeader safetyHeaders l = false) →
      ParseSafetyResponse (p ++ '\n' :: t) = ParseSafetyResponse t) ∧
    (∀ p t : GoString, (∀ l ∈ stringsSplit p '\n', hasHeader corrosionHeaders l = false) →
      ParseCorrosionResponse (p ++ '\n' :: t) = ParseCorrosionResponse t) := by
  refine ⟨?_, ?_, ?_, ?_⟩
  · intro p t h
    rw [parseTroubleshooting_eq, parseTroubleshooting_eq, stringsSplit_append, List.foldl_append,
      foldl_fixed _ _ _ (fun l hl => troubleshootingStep_noHeader _ l (h l hl))]
  · intro p t h
    rw [parseVCRA_eq, parseVCRA_eq, stringsSplit_append, List.foldlM_append,
      foldlM_fixed _ _ _ (fun l hl => vcraStep_noHeader _ l (h l hl))]
    rfl
  · intro p t h
    rw [parseSafety_eq, parseSafety_eq, stringsSplit_append, List.foldl_append,
      foldl_fixed _ _ _ (fun l hl => safetyStep_noHeader _ l (h l hl))]
  · intro p t h
    rw [parseCorrosion_eq, parseCorrosion_eq, stringsSplit_append, List.foldl_append,
      foldl_fixed _ _ _ (fun l hl => corrosionStep_noHeader _ l (h l hl))]

/-- Witness for C17: two lines of prose (one of them a bullet) in front of a
reply do not change the result of any of the four parsers. -/
theorem leading_lines_ignored_witness :
    ParseTroubleshootingResponse
        ("Here is my answer\n- first\n".data ++ "POSSIBLE CAUSES:\n1. Air leak".data) =
      ParseTroubleshootingResponse "POSSIBLE CAUSES:\n1. Air leak".data ∧
    ParseVCRAResponse ("Here is my answer\n- first\n".data ++ "ROOT CAUSE: leak".data) =
      ParseVCRAResponse "ROOT CAUSE: leak".data ∧
    ParseSafetyResponse ("Here is my answer\n- first\n".data ++ "HAZARDS:\n- Fire".data) =
      ParseSafetyResponse "HAZARDS:\n- Fire".data ∧
    ParseCorrosionResponse ("Here is my answer\n- first\n".data ++ "RISK LEVEL: LOW".data) =
      ParseCorrosionResponse "RISK LEVEL: LOW".data :=
  ⟨leading_lines_ignored.1 "Here is my answer\n- first".data _ (by decide),
   leading_lines_ignored.2.1 "Here is my answer\n- first".data _ (by decide),
   leading_lines_ignored.2.2.1 "Here is my answer\n- first".data _ (by decide),
   leading_lines_ignored.2.2.2 "Here is my answer\n- first".data _ (by decide)⟩

/-! ### C14 -/

theorem vcraStep_root_header (st : String × VCRAResult) (l : GoString)
    (h : containsPhrase l "ROOT CAUSE:".data = true) :
    vcraStep st l = some ("root", { st.2 with
      rootCause := stringsTrimSpace (afterFirstColon (stringsTrimSpace l)) }) := by
  rcases vcraStep_cases st l with
    ⟨h0, _⟩ | ⟨_, e⟩ | ⟨hc, _⟩ | ⟨hc, _⟩ | ⟨hc, _⟩ | ⟨hc, _⟩ | ⟨hc, _⟩
  · exact absurd h0 (trim_ne_nil_of_containsPhrase l _ (by decide) (by decide) (by decide) h)
  · exact e
  · rw [h] at hc; cases hc.1
  · rw [h] at hc; cases hc.1
  · rw [h] at hc; cases hc.1
  · rw [h] at hc; cases hc.1
  · exact absurd (containsPhrase_of_hasHeader_false hc.2 (p := "ROOT CAUSE:".data) (by decide))
      (by rw [h]; decide)

theorem vcraStep_root_body (r : VCRAResult) (l : GoString)
    (h : hasHeader vcraHeaders l = false) :
    vcraStep ("root", r) l =
      some ("root",
        if r.rootCause = [] ∧ stringsTrimSpace l ≠ [] then
          { r with rootCause := stringsTrimSpace l }
        else r) := by
  have c1 := containsPhrase_of_hasHeader_false h (p := "ROOT CAUSE:".data) (by decide)
  have c2 := containsPhrase_of_hasHeader_false h (p := "RISK LEVEL:".data) (by decide)
  have c3 := containsPhrase_of_hasHeader_false h (p := "CONFIDENCE:".data) (by decide)
  have c4 := containsPhrase_of_hasHeader_false h (p := "IMMEDIATE ACTIONS:".data) (by decide)
  have c5 := containsPhrase_of_hasHeader_false h (p := "RECOMMENDED ACTIONS:".data) (by decide)
  have c6 := containsPhrase_of_hasHeader_false h (p := "TIMELINE:".data) (by decide)
  have c7 := containsPhrase_of_hasHeader_false h (p := "RECOVERY TIMELINE:".data) (by decide)
  rcases vcraStep_cases ("root", r) l with
    ⟨h0, e⟩ | ⟨hc, _⟩ | ⟨hc, _⟩ | ⟨hc, _⟩ | ⟨hc, _⟩ | ⟨hc, _⟩ | ⟨⟨h0, _⟩, e⟩
  · rw [e, if_neg (fun hh => hh.2 h0)]
  · rw [c1] at hc; cases hc
  · rw [c2] at hc; cases hc.2
  · rw [c3] at hc; cases hc.2.2
  · rw [c4, c5] at hc; cases hc.2.2.2
  · rw [c6, c7] at hc; cases hc.2.2.2.2
  · rw [e]
    by_cases hr : r.rootCause = []
    · have p1 : ("root", r).1 = "root" ∧ ("root", r).2.rootCause = [] := ⟨rfl, hr⟩
      have p2 : r.rootCause = [] ∧ stringsTrimSpace l ≠ [] := ⟨hr, h0⟩
      rw [if_pos p1, if_pos p2]
    · have n1 : ¬(("root", r).1 = "root" ∧ ("root", r).2.rootCause = []) := fun hh => hr hh.2
      have n2 : ¬(("root", r).1 = "actions" ∧ isListItem (stringsTrimSpace l) = true) :=
        fun hh => absurd (show "root" = "actions" from hh.1) (by decide)
      have n3 : ¬(("root", r).1 = "timeline" ∧ isListItem (stringsTrimSpace l) = true) :=
        fun hh => absurd (show "root" = "timeline" from hh.1) (by decide)
      have n4 : ¬(r.rootCause = [] ∧ stringsTrimSpace l ≠ []) := fun hh => hr hh.1
      rw [if_neg n1, if_neg n2, if_neg n3, if_neg n4]

theorem foldlM_root (post : List GoString)
    (h : ∀ l ∈ post, hasHeader vcraHeaders l = false) (r : VCRAResult) :
    ∃ r', post.foldlM vcraStep ("root", r) = some ("root", r') ∧
      r'.rootCause = if r.rootCause ≠ [] then r.rootCause else firstNonBlank post := by
  induction post generalizing r with
  | nil =>
    refine ⟨r, rfl, ?_⟩
    by_cases hr : r.rootCause = []
    · simp [hr, firstNonBlank]
    · simp [hr]
  | cons a as ih =>
    rw [List.foldlM_cons, vcraStep_root_body r a (h a (List.mem_cons_self a as))]
    obtain ⟨r', e, hr'⟩ := ih (fun l hl => h l (List.mem_cons_of_mem a hl))
      (if r.rootCause = [] ∧ stringsTrimSpace a ≠ [] then
          { r with rootCause := stringsTrimSpace a }
        else r)
    refine ⟨r', e, ?_⟩
    rw [hr']
    by_cases hr : r.rootCause = []
    · by_cases ha : stringsTrimSpace a = []
      · simp [hr, ha, firstNonBlank]
      · simp [hr, ha, firstNonBlank]
    · simp [hr]

/-- C14: on a text whose only header line is a line L containing
"ROOT CAUSE:", `ParseVCRAResponse` returns as root cause the
whitespace-trimmed text after the first colon of L when that is non-empty,
and otherwise the first following non-blank line, trimmed; no further line
changes it. -/
theorem root_cause_of_only_header (text : GoString) (pre post : List GoString) (L : GoString)
    (hsplit : stringsSplit text '\n' = pre ++ L :: post)
    (hpre : ∀ l ∈ pre, hasHeader vcraHeaders l = false)
    (hpost : ∀ l ∈ post, hasHeader vcraHeaders l = false)
    (hL : containsPhrase L "ROOT CAUSE:".data = true) :
    ∃ r, ParseVCRAResponse text = some r ∧
      r.rootCause =
        if stringsTrimSpace (afterFirstColon (stringsTrimSpace L)) ≠ [] then
          stringsTrimSpace (afterFirstColon (stringsTrimSpace L))
        else firstNonBlank post := by
  have h1 := foldlM_fixed vcraStep ("", vcraDefault) pre
    (fun l hl => vcraStep_noHeader _ l (hpre l hl))
  have h2 := vcraStep_root_header ("", vcraDefault) L hL
  obtain ⟨r', h3, hr'⟩ := foldlM_root post hpost
    { vcraDefault with rootCause := stringsTrimSpace (afterFirstColon (stringsTrimSpace L)) }
  have h4 := foldlM_split vcraStep pre post L _ _ _ _ h1 h2 h3
  refine ⟨r', ?_, hr'⟩
  rw [parseVCRA_eq, hsplit]
  exact congrArg (Option.map Prod.snd) h4

/-- Witness for C14: with a remainder on the header line the root cause is
that remainder and the later lines are ignored. -/
theorem root_cause_of_only_header_witness :
    ∃ r, ParseVCRAResponse "Report\nRoot Cause:  valve stuck \n- first\nsecond".data = some r ∧
      r.rootCause =
        if stringsTrimSpace (afterFirstColon (stringsTrimSpace "Root Cause:  valve stuck ".data))
            ≠ [] then
          stringsTrimSpace (afterFirstColon (stringsTrimSpace "Root Cause:  valve stuck ".data))
        else firstNonBlank ["- first".data, "second".data] :=
  root_cause_of_only_header _ ["Report".data] ["- first".data, "second".data]
    "Root Cause:  valve stuck ".data (by decide) (by decide) (by decide) (by decide)

/-! ### C16 -/

theorem troubleshootingStep_analysis_first (r : TroubleshootingResult) (l : GoString)
    (h : hasHeader troubleshootingHeaders l = false) (hr : r.analysis = [])
    (hl : stringsTrimSpace l ≠ []) (hn : beginsWithNumeral (stringsTrimSpace l) = false) :
    troubleshootingStep ("analysis", r) l =
      ("analysis", { r with analysis := stringsTrimSpace l }) := by
  have c1 := containsPhrase_of_hasHeader_false h (p := "ANALYSIS:".data) (by decide)
  have c2 := containsPhrase_of_hasHeader_false h (p := "POSSIBLE CAUSES:".data) (by decide)
  have c3 := containsPhrase_of_hasHeader_false h (p := "TROUBLESHOOTING STEPS:".data) (by decide)
  have c4 := containsPhrase_of_hasHeader_false h (p := "SAFETY WARNINGS:".data) (by decide)
  have c5 := containsPhrase_of_hasHeader_false h (p := "EQUIPMENT NOTES:".data) (by decide)
  rcases troubleshootingStep_cases ("analysis", r) l with
    ⟨h0, _⟩ | ⟨hc, _⟩ | ⟨hc, _⟩ | ⟨hc, _⟩ | ⟨hc, _⟩ | ⟨hc, _⟩ | ⟨_, e⟩
  · exact absurd h0 hl
  · rw [c1] at hc; cases hc
  · rw [c2] at hc; cases hc.2
  · rw [c3] at hc; cases hc.2.2
  · rw [c4] at hc; cases hc.2.2.2
  · rw [c5] at hc; cases hc.2.2.2.2
  · rw [e, startsWithNumeral_eq]
    simp [hn, hr]

theorem troubleshootingStep_analysis_set (r : TroubleshootingResult) (l : GoString)
    (h : hasHeader troubleshootingHeaders l = false) (hr : r.analysis ≠ []) :
    troubleshootingStep ("analysis", r) l = ("analysis", r) := by
  have c1 := containsPhrase_of_hasHeader_false h (p := "ANALYSIS:".data) (by decide)
  have c2 := containsPhrase_of_hasHeader_false h (p := "POSSIBLE CAUSES:".data) (by decide)
  have c3 := containsPhrase_of_hasHeader_false h (p := "TROUBLESHOOTING STEPS:".data) (by decide)
  have c4 := containsPhrase_of_hasHeader_false h (p := "SAFETY WARNINGS:".data) (by decide)
  have c5 := containsPhrase_of_hasHeader_false h (p := "EQUIPMENT NOTES:".data) (by decide)
  rcases troubleshootingStep_cases ("analysis", r) l with
    ⟨_, e⟩ | ⟨hc, _⟩ | ⟨hc, _⟩ | ⟨hc, _⟩ | ⟨hc, _⟩ | ⟨hc, _⟩ | ⟨_, e⟩
  · exact e
  · rw [c1] at hc; cases hc
  · rw [c2] at hc; cases hc.2
  · rw [c3] at hc; cases hc.2.2
  · rw [c4] at hc; cases hc.2.2.2
  · rw [c5] at hc; cases hc.2.2.2.2
  · rw [e]
    simp [hr]

/-- C16 (amended): for every non-blank line b without a header phrase that
does not begin with a digit 1-9 followed by a period, the text "ANALYSIS:", b,
followed by any further lines without a header phrase, parses to the analysis
b with surrounding white space trimmed: the next body line is taken and the
further lines do not change it. -/
theorem analysis_from_next_line (text b : GoString) (rest : List GoString)
    (hsplit : stringsSplit text '\n' = "ANALYSIS:".data :: b :: rest)
    (hb : hasHeader troubleshootingHeaders b = false)
    (hblank : stringsTrimSpace b ≠ [])
    (hnum : beginsWithNumeral (stringsTrimSpace b) = false)
    (hrest : ∀ l ∈ rest, hasHeader troubleshootingHeaders l = false) :
    (ParseTroubleshootingResponse text).analysis = stringsTrimSpace b := by
  rw [parseTroubleshooting_eq, hsplit, List.foldl_cons, List.foldl_cons,
    show troubleshootingStep ("", troubleshootingDefault) "ANALYSIS:".data =
      ("analysis", troubleshootingDefault) from by decide,
    troubleshootingStep_analysis_first troubleshootingDefault b hb rfl hblank hnum,
    foldl_fixed troubleshootingStep _ rest
      (fun l hl => troubleshootingStep_analysis_set _ l (hrest l hl) hblank)]

/-- Witness for C16 (amended): the bullet line after "ANALYSIS:" is taken as
the analysis and the two later lines leave it unchanged. -/
theorem analysis_from_next_line_witness :
    (ParseTroubleshootingResponse
        "ANALYSIS:\n  - Pump cavitation \nsecond line\n1. third".data).analysis =
      stringsTrimSpace "  - Pump cavitation ".data ∧
    stringsTrimSpace "  - Pump cavitation ".data = "- Pump cavitation".data :=
  ⟨analysis_from_next_line _ "  - Pump cavitation ".data ["second line".data, "1. third".data]
      (by decide) (by decide) (by decide) (by decide) (by decide),
   by decide⟩

/-- C16 as stated fails: the non-blank, header-free line "1. Pump cavitation"
after "ANALYSIS:" is taken by the numbered-item rule and dropped, so the
analysis stays empty; and a further header-free line after it then becomes
the analysis. -/
theorem analysis_numbered_line_counterexample :
    (ParseTroubleshootingResponse "ANALYSIS:\n1. Pump cavitation".data).analysis = [] ∧
    stringsTrimSpace "1. Pump cavitation".data = "1. Pump cavitation".data ∧
    hasHeader troubleshootingHeaders "1. Pump cavitation".data = false ∧
    (ParseTroubleshootingResponse
        "ANALYSIS:\n1. Pump cavitation\nSeal is worn".data).analysis = "Seal is worn".data := by
  decide

/-! ### C19 -/

theorem trim_of_pad {α : Type} (p : α → Bool) (A B d : List α)
    (hA : ∀ a ∈ A, p a = true) (hB : ∀ a ∈ B, p a = true) (hne : d ≠ [])
    (hh : p (d.head hne) = false) (hl : p (d.getLast hne) = false) :
    ((A ++ d ++ B).dropWhile p).rdropWhile p = d := by
  have h1 : (A ++ d ++ B).dropWhile p = d ++ B := by
    rw [List.append_assoc, List.dropWhile_append_of_pos hA]
    cases d with
    | nil => exact absurd rfl hne
    | cons a d => exact List.dropWhile_cons_of_neg (by simpa using hh)
  have h2 : (d.reverse).dropWhile p = d.reverse := by
    have hne2 : d.reverse ≠ [] := by simpa using hne
    cases hd : d.reverse with
    | nil => exact absurd hd hne2
    | cons a t =>
      have : a = d.getLast hne := by
        have := List.head_reverse hne2
        simp only [hd, List.head_cons] at this
        exact this
      exact List.dropWhile_cons_of_neg (by rw [this]; simp [hl])
  rw [h1, List.rdropWhile, List.reverse_append,
    List.dropWhile_append_of_pos (fun a ha => hB a (List.mem_reverse.mp ha)), h2,
    List.reverse_reverse]

/-- Stripping a plain decimal numeral preceded and followed by any number of
percent signs gives the numeral back. -/
theorem strip_percent_signs (k m : Nat) (d : GoString) (hne : d ≠ [])
    (hd : ∀ c ∈ d, isDigit c = true ∨ c = '.') :
    stringsTrim (stringsTrimSpace (List.replicate k '%' ++ d ++ List.replicate m '%')) '%' = d ∧
      ':' ∉ List.replicate k '%' ++ d ++ List.replicate m '%' := by
  have hhead := numeralChar_facts (hd _ (List.head_mem hne))
  have hlast := numeralChar_facts (hd _ (List.getLast_mem hne))
  have hall : ∀ c ∈ List.replicate k '%' ++ d ++ List.replicate m '%',
      unicodeIsSpace c = false ∧ c ≠ ':' := by
    intro c hc
    rcases List.mem_append.mp hc with hc | hc
    · rcases List.mem_append.mp hc with hc | hc
      · rw [List.eq_of_mem_replicate hc]; decide
      · exact ⟨(numeralChar_facts (hd c hc)).1, (numeralChar_facts (hd c hc)).2.2⟩
    · rw [List.eq_of_mem_replicate hc]; decide
  have hsne : List.replicate k '%' ++ d ++ List.replicate m '%' ≠ [] := by simp [hne]
  have h1 : stringsTrimSpace (List.replicate k '%' ++ d ++ List.replicate m '%') =
      List.replicate k '%' ++ d ++ List.replicate m '%' :=
    trim_eq_self _ _ hsne (hall _ (List.head_mem hsne)).1 (hall _ (List.getLast_mem hsne)).1
  refine ⟨?_, fun h => (hall _ h).2 rfl⟩
  rw [h1]
  exact trim_of_pad (· == '%') _ _ d
    (fun a ha => by rw [List.eq_of_mem_replicate ha]; rfl)
    (fun a ha => by rw [List.eq_of_mem_replicate ha]; rfl) hne
    (by simpa using hhead.2.1) (by simpa using hlast.2.1)

/-- C19 (amended): on a text whose only header line is "CONFIDENCE: s",
`ParseVCRAResponse` strips every leading and every trailing "%" of s before
parsing.  A plain decimal numeral that `strconv.ParseFloat` reads as the
`float64` v, preceded and followed by any number of "%", gives confidence
v/100 (the `float64` quotient) if v > 1 and v otherwise; in particular "%85"
and "85%%" give 0.85 (the `float64` nearest to it).  The confidence stays at
0.75 whenever s, stripped of surrounding white space and of all leading and
trailing "%", is not accepted by `strconv.ParseFloat`, as for "8%5"; "%nan%"
is accepted and gives NaN. -/
theorem confidence_percent_stripping :
    (∀ (text : GoString) (pre post : List GoString) (k m : Nat) (d : GoString) (v : ℚ),
        stringsSplit text '\n' =
          pre ++ ("CONFIDENCE: ".data ++
            (List.replicate k '%' ++ d ++ List.replicate m '%')) :: post →
        (∀ l ∈ pre, hasHeader vcraHeaders l = false) →
        (∀ l ∈ post, hasHeader vcraHeaders l = false) →
        (∀ c ∈ d, isDigit c = true ∨ c = '.') →
        strconvParseFloat d = some (.finite v) →
        ∃ r, ParseVCRAResponse text = some r ∧
          r.confidence = if 1 < v then Float64.round false (v / 100) else .finite v) ∧
    (∀ (text : GoString) (pre post : List GoString) (s : GoString),
        stringsSplit text '\n' = pre ++ ("CONFIDENCE: ".data ++ s) :: post →
        (∀ l ∈ pre, hasHeader vcraHeaders l = false) →
        (∀ l ∈ post, hasHeader vcraHeaders l = false) →
        strconvParseFloat (stringsTrim (stringsTrimSpace s) '%') = none →
        ∃ r, ParseVCRAResponse text = some r ∧ r.confidence = .finite 0.75) ∧
    (ParseVCRAResponse "CONFIDENCE: %85".data).map VCRAResult.confidence =
      some (Float64.round false 0.85) ∧
    (ParseVCRAResponse "CONFIDENCE: 85%%".data).map VCRAResult.confidence =
      some (Float64.round false 0.85) ∧
    (ParseVCRAResponse "CONFIDENCE: 8%5".data).map VCRAResult.confidence =
      some (.finite 0.75) ∧
    (ParseVCRAResponse "CONFIDENCE: %nan%".data).map VCRAResult.confidence = some .nan := by
  refine ⟨?_, ?_, by decide!, by decide!, by decide!, by decide!⟩
  · intro text pre post k m d v hsplit hpre hpost hd hv
    have hne : d ≠ [] := by
      rintro rfl
      rw [show strconvParseFloat [] = none from by decide] at hv
      cases hv
    obtain ⟨hstrip, hcolon⟩ := strip_percent_signs k m d hne hd
    refine ⟨_, vcra_confidence_line text pre post _ hsplit hpre hpost hcolon, ?_⟩
    simp only [hstrip, hv]
    exact confidence_of_value v
  · intro text pre post s hsplit hpre hpost hs
    exact vcra_confidence_unparsed text pre post s hsplit hpre hpost hs

/-- Witness for C19 (amended): "%%90%" between two lines of prose gives the
`float64` quotient of 90 by 100, and "n/a %" leaves 0.75. -/
theorem confidence_percent_stripping_witness :
    (∃ r, ParseVCRAResponse "Summary\nCONFIDENCE: %%90%\nend".data = some r ∧
      r.confidence = if (1 : ℚ) < 90 then Float64.round false (90 / 100) else .finite 90) ∧
    (∃ r, ParseVCRAResponse "Summary\nCONFIDENCE: n/a %\nend".data = some r ∧
      r.confidence = .finite 0.75) :=
  ⟨confidence_percent_stripping.1 _ ["Summary".data] ["end".data] 2 1 "90".data 90
      (by decide) (by decide) (by decide) (by decide) (by decide!),
   confidence_percent_stripping.2.1 _ ["Summary".data] ["end".data] "n/a %".data
      (by decide) (by decide) (by decide) (by decide)⟩

/-- C19 as stated fails: "%85", "85%%" and "85%" are not decimal numbers for
`strconv.ParseFloat`, so by the claim the confidence would stay 0.75 for
s = "%85" and s = "85%%", but `strings.Trim` removes every leading and
trailing "%" and the confidence returned is 0.85 (the `float64` nearest to
it), not 0.75. -/
theorem confidence_percent_counterexample :
    (ParseVCRAResponse "CONFIDENCE: %85".data).map VCRAResult.confidence =
      some (Float64.round false 0.85) ∧
    (ParseVCRAResponse "CONFIDENCE: 85%%".data).map VCRAResult.confidence =
      some (Float64.round false 0.85) ∧
    Float64.round false 0.85 ≠ .finite 0.75 ∧
    strconvParseFloat "%85".data = none ∧
    strconvParseFloat "85%%".data = none ∧
    strconvParseFloat "85%".data = none := by
  decide!

/-! ### The lists as the list items under their sections -/

theorem linesUnder_single (sectionOf : GoString → Option String) (sec cur : String)
    (l : GoString) :
    linesUnder sectionOf sec cur [l] =
      if stringsTrimSpace l = [] then []
      else
        match sectionOf l with
        | some _ => []
        | none => if cur = sec then [stringsTrimSpace l] else [] := by
  rw [linesUnder_cons]
  by_cases h0 : stringsTrimSpace l = []
  · rw [if_pos h0, if_pos h0]
    rfl
  · rw [if_neg h0, if_neg h0]
    cases sectionOf l with
    | some s => rfl
    | none =>
      simp only []
      by_cases hc : cur = sec
      · rw [if_pos hc, if_pos hc]; rfl
      · rw [if_neg hc, if_neg hc]; rfl

theorem linesUnder_cons_append (sectionOf : GoString → Option String) (sec cur : String)
    (l : GoString) (ls : List GoString) :
    linesUnder sectionOf sec cur (l :: ls) =
      linesUnder sectionOf sec cur [l] ++
        linesUnder sectionOf sec (sectionAfter sectionOf cur l) ls := by
  rw [linesUnder_cons, linesUnder_single, sectionAfter]
  by_cases h0 : stringsTrimSpace l = []
  · rw [if_pos h0, if_pos h0, if_pos h0]
    rfl
  · rw [if_neg h0, if_neg h0, if_neg h0]
    cases hs : sectionOf l with
    | some s => rfl
    | none =>
      simp only [Option.getD_none]
      by_cases hc : cur = sec
      · rw [if_pos hc, if_pos hc]; rfl
      · rw [if_neg hc, if_neg hc]; rfl

theorem linesUnder_sublist (sectionOf : GoString → Option String) (sec cur : String)
    (ls : List GoString) :
    (linesUnder sectionOf sec cur ls).Sublist
      ((ls.map stringsTrimSpace).filter (fun l => l != [])) := by
  induction ls generalizing cur with
  | nil => simp [linesUnder]
  | cons l ls ih =>
    rw [linesUnder_cons, List.map_cons]
    by_cases h0 : stringsTrimSpace l = []
    · rw [if_pos h0, List.filter_cons_of_neg (by simp [h0])]
      exact ih cur
    · rw [if_neg h0, List.filter_cons_of_pos (by simp [h0])]
      cases hs : sectionOf l with
      | some s => exact (ih s).cons _
      | none =>
        simp only []
        by_cases hc : cur = sec
        · rw [if_pos hc]; exact (ih cur).cons₂ _
        · rw [if_neg hc]; exact (ih cur).cons _

theorem linesUnder_forall (sectionOf : GoString → Option String) (sec cur : String)
    (ls : List GoString) :
    ∀ x ∈ linesUnder sectionOf sec cur ls,
      ∃ l ∈ ls, x = stringsTrimSpace l ∧ sectionOf l = none := by
  induction ls generalizing cur with
  | nil => intro x hx; simp [linesUnder] at hx
  | cons l ls ih =>
    intro x hx
    rw [linesUnder_cons] at hx
    by_cases h0 : stringsTrimSpace l = []
    · rw [if_pos h0] at hx
      obtain ⟨l', hl', h⟩ := ih cur x hx
      exact ⟨l', List.mem_cons_of_mem _ hl', h⟩
    · rw [if_neg h0] at hx
      cases hs : sectionOf l with
      | some s =>
        simp only [hs] at hx
        obtain ⟨l', hl', h⟩ := ih s x hx
        exact ⟨l', List.mem_cons_of_mem _ hl', h⟩
      | none =>
        simp only [hs] at hx
        by_cases hc : cur = sec
        · rw [if_pos hc] at hx
          rcases List.mem_cons.mp hx with h | h
          · exact ⟨l, List.mem_cons_self _ _, h, hs⟩
          · obtain ⟨l', hl', h⟩ := ih cur x h
            exact ⟨l', List.mem_cons_of_mem _ hl', h⟩
        · rw [if_neg hc] at hx
          obtain ⟨l', hl', h⟩ := ih cur x hx
          exact ⟨l', List.mem_cons_of_mem _ hl', h⟩

theorem linesUnder_body (sectionOf : GoString → Option String) (sec : String)
    (body : List GoString) (h : ∀ l ∈ body, sectionOf l = none) :
    linesUnder sectionOf sec sec body =
      (body.map stringsTrimSpace).filter (fun l => l != []) := by
  induction body with
  | nil => simp [linesUnder]
  | cons l ls ih =>
    rw [linesUnder_cons, List.map_cons, h l (List.mem_cons_self _ _)]
    by_cases h0 : stringsTrimSpace l = []
    · rw [if_pos h0, List.filter_cons_of_neg (by simp [h0])]
      exact ih (fun x hx => h x (List.mem_cons_of_mem _ hx))
    · rw [if_neg h0, List.filter_cons_of_pos (by simp [h0])]
      simp only [if_true]
      rw [ih (fun x hx => h x (List.mem_cons_of_mem _ hx))]

/-- A loop body that moves the section as `next` says and appends `sel` of
the line to a list appends, over all lines, `sel` of the lines. -/
theorem foldl_sel {R β : Type} (f : String × R → GoString → String × R) (g : R → List β)
    (next : String → GoString → String) (sel : String → List GoString → List β)
    (hnil : ∀ cur, sel cur [] = [])
    (hcons : ∀ cur l ls, sel cur (l :: ls) = sel cur [l] ++ sel (next cur l) ls)
    (H : ∀ cur r l, (f (cur, r) l).1 = next cur l ∧ g (f (cur, r) l).2 = g r ++ sel cur [l])
    (ls : List GoString) (cur : String) (r : R) :
    g (ls.foldl f (cur, r)).2 = g r ++ sel cur ls := by
  induction ls generalizing cur r with
  | nil => simp [hnil]
  | cons l ls ih =>
    rw [List.foldl_cons, hcons]
    have e : f (cur, r) l = ((f (cur, r) l).1, (f (cur, r) l).2) := rfl
    rw [e, ih, (H cur r l).2, (H cur r l).1, List.append_assoc]

theorem foldlM_sel {R β : Type} (f : String × R → GoString → Option (String × R))
    (g : R → List β) (next : String → GoString → String)
    (sel : String → List GoString → List β) (hnil : ∀ cur, sel cur [] = [])
    (hcons : ∀ cur l ls, sel cur (l :: ls) = sel cur [l] ++ sel (next cur l) ls)
    (H : ∀ cur r l, ∃ r', f (cur, r) l = some (next cur l, r') ∧ g r' = g r ++ sel cur [l])
    (ls : List GoString) (cur : String) (r : R) :
    ∃ st', ls.foldlM f (cur, r) = some st' ∧ g st'.2 = g r ++ sel cur ls := by
  induction ls generalizing cur r with
  | nil => exact ⟨(cur, r), rfl, by simp [hnil]⟩
  | cons l ls ih =>
    obtain ⟨r', e, hg⟩ := H cur r l
    obtain ⟨st', e', hg'⟩ := ih (next cur l) r'
    refine ⟨st', ?_, ?_⟩
    · rw [List.foldlM_cons, e]
      exact e'
    · rw [hg', hg, hcons cur l ls, List.append_assoc]

theorem linesUnder_single_blank (sectionOf : GoString → Option String) (sec cur : String)
    {l : GoString} (h : stringsTrimSpace l = []) : linesUnder sectionOf sec cur [l] = [] := by
  rw [linesUnder_single, if_pos h]

theorem linesUnder_single_header (sectionOf : GoString → Option String) (sec cur : String)
    {l : GoString} {s : String} (h : sectionOf l = some s) :
    linesUnder sectionOf sec cur [l] = [] := by
  rw [linesUnder_single, h]
  simp

theorem linesUnder_single_body (sectionOf : GoString → Option String) (sec cur : String)
    {l : GoString} (h0 : stringsTrimSpace l ≠ []) (h : sectionOf l = none) :
    linesUnder sectionOf sec cur [l] = if cur = sec then [stringsTrimSpace l] else [] := by
  rw [linesUnder_single, if_neg h0, h]

theorem sectionAfter_blank (sectionOf : GoString → Option String) (cur : String)
    {l : GoString} (h : stringsTrimSpace l = []) : sectionAfter sectionOf cur l = cur := by
  rw [sectionAfter, if_pos h]

theorem sectionAfter_header (sectionOf : GoString → Option String) (cur : String)
    {l : GoString} {s : String} (h0 : stringsTrimSpace l ≠ []) (h : sectionOf l = some s) :
    sectionAfter sectionOf cur l = s := by
  rw [sectionAfter, if_neg h0, h]
  rfl

theorem sectionAfter_body (sectionOf : GoString → Option String) (cur : String)
    {l : GoString} (h : sectionOf l = none) : sectionAfter sectionOf cur l = cur := by
  rw [sectionAfter, h]
  simp

/-- One iteration of the loop of `ParseSafetyResponse`: the section moves as
`sectionAfter` says, and each list grows by the list item, if any, that the
line contributes under the list's section. -/
theorem safetyStep_lists (cur : String) (r : SafetyResult) (l : GoString) :
    (safetyStep (cur, r) l).1 = sectionAfter safetySectionOfHeader cur l ∧
    (safetyStep (cur, r) l).2.hazards =
      r.hazards ++ ((linesUnder safetySectionOfHeader "hazards" cur [l]).filter
        isListItem).map hazardOfLine ∧
    (safetyStep (cur, r) l).2.mitigations =
      r.mitigations ++ (linesUnder safetySectionOfHeader "mitigations" cur [l]).filter
        isListItem ∧
    (safetyStep (cur, r) l).2.standards =
      r.standards ++ (linesUnder safetySectionOfHeader "standards" cur [l]).filter
        isListItem := by
  rcases safetyStep_cases (cur, r) l with
    ⟨h0, e⟩ | ⟨hc, e⟩ | ⟨hc, e⟩ | ⟨hc, e⟩ | ⟨hc, e⟩ | ⟨⟨h0, hh⟩, e⟩
  · rw [e, sectionAfter_blank _ _ h0, linesUnder_single_blank _ _ _ h0,
      linesUnder_single_blank _ _ _ h0, linesUnder_single_blank _ _ _ h0]
    simp
  · have hne := trim_ne_nil_of_or l _ _ (by decide) (by decide) (by decide) (by decide)
      (by decide) (by decide) hc
    have hs : safetySectionOfHeader l = some "" := by
      simp [safetySectionOfHeader, hc]
    rw [e, sectionAfter_header _ _ hne hs, linesUnder_single_header _ _ _ hs,
      linesUnder_single_header _ _ _ hs, linesUnder_single_header _ _ _ hs]
    simp
  · have hne := trim_ne_nil_of_or l _ _ (by decide) (by decide) (by decide) (by decide)
      (by decide) (by decide) hc.2
    have hs : safetySectionOfHeader l = some "hazards" := by
      simp [safetySectionOfHeader, hc.1, hc.2]
    rw [e, sectionAfter_header _ _ hne hs, linesUnder_single_header _ _ _ hs,
      linesUnder_single_header _ _ _ hs, linesUnder_single_header _ _ _ hs]
    simp
  · have hne := trim_ne_nil_of_or l _ _ (by decide) (by decide) (by decide) (by decide)
      (by decide) (by decide) hc.2.2
    have hs : safetySectionOfHeader l = some "mitigations" := by
      simp [safetySectionOfHeader, hc.1, hc.2.1, hc.2.2]
    rw [e, sectionAfter_header _ _ hne hs, linesUnder_single_header _ _ _ hs,
      linesUnder_single_header _ _ _ hs, linesUnder_single_header _ _ _ hs]
    simp
  · have hne := trim_ne_nil_of_or l _ _ (by decide) (by decide) (by decide) (by decide)
      (by decide) (by decide) hc.2.2.2
    have hs : safetySectionOfHeader l = some "standards" := by
      simp [safetySectionOfHeader, hc.1, hc.2.1, hc.2.2.1, hc.2.2.2]
    rw [e, sectionAfter_header _ _ hne hs, linesUnder_single_header _ _ _ hs,
      linesUnder_single_header _ _ _ hs, linesUnder_single_header _ _ _ hs]
    simp
  · have hs := safetySectionOfHeader_none hh
    rw [e, sectionAfter_body _ _ hs, linesUnder_single_body _ _ _ h0 hs,
      linesUnder_single_body _ _ _ h0 hs, linesUnder_single_body _ _ _ h0 hs]
    by_cases hi : isListItem (stringsTrimSpace l) = true
    · by_cases h1 : cur = "hazards"
      · subst h1
        simp [hi]
      · by_cases h2 : cur = "mitigations"
        · subst h2
          simp [hi]
        · by_cases h3 : cur = "standards"
          · subst h3
            simp [hi]
          · simp [h1, h2, h3]
    · simp [hi]


theorem corrosionSectionOfHeader_none {l : GoString}
    (h : hasHeader corrosionHeaders l = false) : corrosionSectionOfHeader l = none := by
  have c1 := containsPhrase_of_hasHeader_false h (p := "RISK LEVEL:".data) (by decide)
  have c2 := containsPhrase_of_hasHeader_false h (p := "CORROSION RISK:".data) (by decide)
  have c3 := containsPhrase_of_hasHeader_false h (p := "CORROSION RATE:".data) (by decide)
  have c4 := containsPhrase_of_hasHeader_false h (p := "ESTIMATED LIFE:".data) (by decide)
  have c5 := containsPhrase_of_hasHeader_false h (p := "EQUIPMENT LIFE:".data) (by decide)
  have c6 := containsPhrase_of_hasHeader_false h (p := "MECHANISMS:".data) (by decide)
  have c7 := containsPhrase_of_hasHeader_false h (p := "CORROSION MECHANISMS:".data)
    (by decide)
  have c8 := containsPhrase_of_hasHeader_false h (p := "RECOMMENDATIONS:".data) (by decide)
  simp [corrosionSectionOfHeader, c1, c2, c3, c4, c5, c6, c7, c8]

theorem vcraSectionOfHeader_none {l : GoString}
    (h : hasHeader vcraHeaders l = false) : vcraSectionOfHeader l = none := by
  have c1 := containsPhrase_of_hasHeader_false h (p := "ROOT CAUSE:".data) (by decide)
  have c2 := containsPhrase_of_hasHeader_false h (p := "RISK LEVEL:".data) (by decide)
  have c3 := containsPhrase_of_hasHeader_false h (p := "CONFIDENCE:".data) (by decide)
  have c4 := containsPhrase_of_hasHeader_false h (p := "IMMEDIATE ACTIONS:".data) (by decide)
  have c5 := containsPhrase_of_hasHeader_false h (p := "RECOMMENDED ACTIONS:".data) (by decide)
  have c6 := containsPhrase_of_hasHeader_false h (p := "TIMELINE:".data) (by decide)
  have c7 := containsPhrase_of_hasHeader_false h (p := "RECOVERY TIMELINE:".data) (by decide)
  simp [vcraSectionOfHeader, c1, c2, c3, c4, c5, c6, c7]

theorem troubleshootingSectionOfHeader_none {l : GoString}
    (h : hasHeader troubleshootingHeaders l = false) :
    troubleshootingSectionOfHeader l = none := by
  have c1 := containsPhrase_of_hasHeader_false h (p := "ANALYSIS:".data) (by decide)
  have c2 := containsPhrase_of_hasHeader_false h (p := "POSSIBLE CAUSES:".data) (by decide)
  have c3 := containsPhrase_of_hasHeader_false h (p := "TROUBLESHOOTING STEPS:".data)
    (by decide)
  have c4 := containsPhrase_of_hasHeader_false h (p := "SAFETY WARNINGS:".data) (by decide)
  have c5 := containsPhrase_of_hasHeader_false h (p := "EQUIPMENT NOTES:".data) (by decide)
  simp [troubleshootingSectionOfHeader, c1, c2, c3, c4, c5]

/-- One iteration of the loop of `ParseCorrosionResponse`, seen from the two
lists. -/
theorem corrosionStep_lists (cur : String) (r : CorrosionResult) (l : GoString) :
    (corrosionStep (cur, r) l).1 = sectionAfter corrosionSectionOfHeader cur l ∧
    (corrosionStep (cur, r) l).2.mechanisms =
      r.mechanisms ++ (linesUnder corrosionSectionOfHeader "mechanisms" cur [l]).filter
        isListItem ∧
    (corrosionStep (cur, r) l).2.recommendations =
      r.recommendations ++
        (linesUnder corrosionSectionOfHeader "recommendations" cur [l]).filter isListItem := by
  rcases corrosionStep_cases (cur, r) l with
    ⟨h0, e⟩ | ⟨hc, e⟩ | ⟨hc, e⟩ | ⟨hc, e⟩ | ⟨hc, e⟩ | ⟨hc, e⟩ | ⟨⟨h0, hh⟩, e⟩
  · rw [e, sectionAfter_blank _ _ h0, linesUnder_single_blank _ _ _ h0,
      linesUnder_single_blank _ _ _ h0]
    simp
  · have hne := trim_ne_nil_of_or l _ _ (by decide) (by decide) (by decide) (by decide)
      (by decide) (by decide) hc
    have hs : corrosionSectionOfHeader l = some "" := by
      simp [corrosionSectionOfHeader, hc]
    rw [e, sectionAfter_header _ _ hne hs, linesUnder_single_header _ _ _ hs,
      linesUnder_single_header _ _ _ hs]
    simp
  · have hne := trim_ne_nil_of_containsPhrase l _ (by decide) (by decide) (by decide) hc.2
    have hs : corrosionSectionOfHeader l = some "" := by
      simp [corrosionSectionOfHeader, hc.1, hc.2]
    rw [e, sectionAfter_header _ _ hne hs, linesUnder_single_header _ _ _ hs,
      linesUnder_single_header _ _ _ hs]
    simp
  · have hne := trim_ne_nil_of_or l _ _ (by decide) (by decide) (by decide) (by decide)
      (by decide) (by decide) hc.2.2
    have hs : corrosionSectionOfHeader l = some "" := by
      simp [corrosionSectionOfHeader, hc.1, hc.2.1, hc.2.2]
    rw [e, sectionAfter_header _ _ hne hs, linesUnder_single_header _ _ _ hs,
      linesUnder_single_header _ _ _ hs]
    simp
  · have hne := trim_ne_nil_of_or l _ _ (by decide) (by decide) (by decide) (by decide)
      (by decide) (by decide) hc.2.2.2
    have hs : corrosionSectionOfHeader l = some "mechanisms" := by
      simp [corrosionSectionOfHeader, hc.1, hc.2.1, hc.2.2.1, hc.2.2.2]
    rw [e, sectionAfter_header _ _ hne hs, linesUnder_single_header _ _ _ hs,
      linesUnder_single_header _ _ _ hs]
    simp
  · have hne := trim_ne_nil_of_containsPhrase l _ (by decide) (by decide) (by decide)
      hc.2.2.2.2
    have hs : corrosionSectionOfHeader l = some "recommendations" := by
      simp [corrosionSectionOfHeader, hc.1, hc.2.1, hc.2.2.1, hc.2.2.2.1, hc.2.2.2.2]
    rw [e, sectionAfter_header _ _ hne hs, linesUnder_single_header _ _ _ hs,
      linesUnder_single_header _ _ _ hs]
    simp
  · have hs := corrosionSectionOfHeader_none hh
    rw [e, sectionAfter_body _ _ hs, linesUnder_single_body _ _ _ h0 hs,
      linesUnder_single_body _ _ _ h0 hs]
    by_cases hi : isListItem (stringsTrimSpace l) = true
    · by_cases h1 : cur = "mechanisms"
      · subst h1
        simp [hi]
      · by_cases h2 : cur = "recommendations"
        · subst h2
          simp [hi]
        · simp [h1, h2]
    · simp [hi]

/-- One iteration of the loop of `ParseVCRAResponse`, seen from the two
lists: the iteration returns, the section moves as `sectionAfter` says, and
each list grows by the list item the line contributes under its section. -/
theorem vcraStep_lists (cur : String) (r : VCRAResult) (l : GoString) :
    ∃ r', vcraStep (cur, r) l = some (sectionAfter vcraSectionOfHeader cur l, r') ∧
      r'.actions =
        r.actions ++ (linesUnder vcraSectionOfHeader "actions" cur [l]).filter isListItem ∧
      r'.timeline =
        r.timeline ++ (linesUnder vcraSectionOfHeader "timeline" cur [l]).filter isListItem := by
  rcases vcraStep_cases (cur, r) l with
    ⟨h0, e⟩ | ⟨hc, e⟩ | ⟨hc, e⟩ | ⟨hc, e⟩ | ⟨hc, e⟩ | ⟨hc, e⟩ | ⟨⟨h0, hh⟩, e⟩
  · rw [e, sectionAfter_blank _ _ h0, linesUnder_single_blank _ _ _ h0,
      linesUnder_single_blank _ _ _ h0]
    exact ⟨r, rfl, by simp, by simp⟩
  · have hne := trim_ne_nil_of_containsPhrase l _ (by decide) (by decide) (by decide) hc
    have hs : vcraSectionOfHeader l = some "root" := by
      simp [vcraSectionOfHeader, hc]
    rw [e, sectionAfter_header _ _ hne hs, linesUnder_single_header _ _ _ hs,
      linesUnder_single_header _ _ _ hs]
    exact ⟨_, rfl, by simp, by simp⟩
  · have hne := trim_ne_nil_of_containsPhrase l _ (by decide) (by decide) (by decide) hc.2
    have hs : vcraSectionOfHeader l = some "" := by
      simp [vcraSectionOfHeader, hc.1, hc.2]
    rw [e, sectionAfter_header _ _ hne hs, linesUnder_single_header _ _ _ hs,
      linesUnder_single_header _ _ _ hs]
    exact ⟨_, rfl, by simp, by simp⟩
  · have hne := trim_ne_nil_of_containsPhrase l _ (by decide) (by decide) (by decide) hc.2.2
    have hs : vcraSectionOfHeader l = some "" := by
      simp [vcraSectionOfHeader, hc.1, hc.2.1, hc.2.2]
    rw [e, sectionAfter_header _ _ hne hs, linesUnder_single_header _ _ _ hs,
      linesUnder_single_header _ _ _ hs]
    exact ⟨_, rfl, by simp, by simp⟩
  · have hne := trim_ne_nil_of_or l _ _ (by decide) (by decide) (by decide) (by decide)
      (by decide) (by decide) hc.2.2.2
    have hs : vcraSectionOfHeader l = some "actions" := by
      simp [vcraSectionOfHeader, hc.1, hc.2.1, hc.2.2.1, hc.2.2.2]
    rw [e, sectionAfter_header _ _ hne hs, linesUnder_single_header _ _ _ hs,
      linesUnder_single_header _ _ _ hs]
    exact ⟨_, rfl, by simp, by simp⟩
  · have hne := trim_ne_nil_of_or l _ _ (by decide) (by decide) (by decide) (by decide)
      (by decide) (by decide) hc.2.2.2.2
    have hs : vcraSectionOfHeader l = some "timeline" := by
      simp [vcraSectionOfHeader, hc.1, hc.2.1, hc.2.2.1, hc.2.2.2.1, hc.2.2.2.2]
    rw [e, sectionAfter_header _ _ hne hs, linesUnder_single_header _ _ _ hs,
      linesUnder_single_header _ _ _ hs]
    exact ⟨_, rfl, by simp, by simp⟩
  · have hs := vcraSectionOfHeader_none hh
    rw [e, sectionAfter_body _ _ hs, linesUnder_single_body _ _ _ h0 hs,
      linesUnder_single_body _ _ _ h0 hs]
    by_cases h1 : cur = "root"
    · subst h1
      by_cases h2 : r.rootCause = []
      · exact ⟨_, congrArg some (if_pos ⟨rfl, h2⟩), by simp, by simp⟩
      · refine ⟨r, ?_, by simp, by simp⟩
        simp [h2]
    · by_cases hi : isListItem (stringsTrimSpace l) = true
      · by_cases h3 : cur = "actions"
        · subst h3
          exact ⟨_, by simp [hi]; rfl, by simp [hi], by simp [hi]⟩
        · by_cases h4 : cur = "timeline"
          · subst h4
            exact ⟨_, by simp [hi]; rfl, by simp [hi], by simp [hi]⟩
          · exact ⟨r, by simp [h1, h3, h4], by simp [h3], by simp [h4]⟩
      · exact ⟨r, by simp [h1, hi], by simp [hi], by simp [hi]⟩

theorem dash_of_numeral_false {x : GoString} (h : startsWithNumeral x = true) :
    stringsStartsWith x "-".data = false := by
  match x with
  | [] => rfl
  | c :: rest =>
    by_cases hc : c = '-'
    · subst hc
      revert h
      simp [startsWithNumeral, stringsStartsWith, List.isPrefixOf]
    · simp [stringsStartsWith, List.isPrefixOf, Ne.symm hc]

/-- One iteration of the loop of `ParseTroubleshootingResponse`, seen from
the three lists. -/
theorem troubleshootingStep_lists (cur : String) (r : TroubleshootingResult)
    (l : GoString) :
    (troubleshootingStep (cur, r) l).1 = sectionAfter troubleshootingSectionOfHeader cur l ∧
    (troubleshootingStep (cur, r) l).2.causes =
      r.causes ++ (linesUnder troubleshootingSectionOfHeader "causes" cur [l]).filter
        startsWithNumeral ∧
    (troubleshootingStep (cur, r) l).2.steps =
      r.steps ++ (linesUnder troubleshootingSectionOfHeader "steps" cur [l]).filter
        startsWithNumeral ∧
    (troubleshootingStep (cur, r) l).2.safetyWarnings =
      r.safetyWarnings ++
        (linesUnder troubleshootingSectionOfHeader "safety_warnings" cur [l]).filter
          (fun x => stringsStartsWith x "-".data) := by
  rcases troubleshootingStep_cases (cur, r) l with
    ⟨h0, e⟩ | ⟨hc, e⟩ | ⟨hc, e⟩ | ⟨hc, e⟩ | ⟨hc, e⟩ | ⟨hc, e⟩ | ⟨⟨h0, hh⟩, e⟩
  · rw [e, sectionAfter_blank _ _ h0, linesUnder_single_blank _ _ _ h0,
      linesUnder_single_blank _ _ _ h0, linesUnder_single_blank _ _ _ h0]
    simp
  · have hne := trim_ne_nil_of_containsPhrase l _ (by decide) (by decide) (by decide) hc
    have hs : troubleshootingSectionOfHeader l = some "analysis" := by
      simp [troubleshootingSectionOfHeader, hc]
    rw [e, sectionAfter_header _ _ hne hs, linesUnder_single_header _ _ _ hs,
      linesUnder_single_header _ _ _ hs, linesUnder_single_header _ _ _ hs]
    simp
  · have hne := trim_ne_nil_of_containsPhrase l _ (by decide) (by decide) (by decide) hc.2
    have hs : troubleshootingSectionOfHeader l = some "causes" := by
      simp [troubleshootingSectionOfHeader, hc.1, hc.2]
    rw [e, sectionAfter_header _ _ hne hs, linesUnder_single_header _ _ _ hs,
      linesUnder_single_header _ _ _ hs, linesUnder_single_header _ _ _ hs]
    simp
  · have hne := trim_ne_nil_of_containsPhrase l _ (by decide) (by decide) (by decide) hc.2.2
    have hs : troubleshootingSectionOfHeader l = some "steps" := by
      simp [troubleshootingSectionOfHeader, hc.1, hc.2.1, hc.2.2]
    rw [e, sectionAfter_header _ _ hne hs, linesUnder_single_header _ _ _ hs,
      linesUnder_single_header _ _ _ hs, linesUnder_single_header _ _ _ hs]
    simp
  · have hne := trim_ne_nil_of_containsPhrase l _ (by decide) (by decide) (by decide)
      hc.2.2.2
    have hs : troubleshootingSectionOfHeader l = some "safety_warnings" := by
      simp [troubleshootingSectionOfHeader, hc.1, hc.2.1, hc.2.2.1, hc.2.2.2]
    rw [e, sectionAfter_header _ _ hne hs, linesUnder_single_header _ _ _ hs,
      linesUnder_single_header _ _ _ hs, linesUnder_single_header _ _ _ hs]
    simp
  · have hne := trim_ne_nil_of_containsPhrase l _ (by decide) (by decide) (by decide)
      hc.2.2.2.2
    have hs : troubleshootingSectionOfHeader l = some "equipment_notes" := by
      simp [troubleshootingSectionOfHeader, hc.1, hc.2.1, hc.2.2.1, hc.2.2.2.1, hc.2.2.2.2]
    rw [e, sectionAfter_header _ _ hne hs, linesUnder_single_header _ _ _ hs,
      linesUnder_single_header _ _ _ hs, linesUnder_single_header _ _ _ hs]
    simp
  · have hs := troubleshootingSectionOfHeader_none hh
    rw [e, sectionAfter_body _ _ hs, linesUnder_single_body _ _ _ h0 hs,
      linesUnder_single_body _ _ _ h0 hs, linesUnder_single_body _ _ _ h0 hs]
    by_cases hn : startsWithNumeral (stringsTrimSpace l) = true
    · have hd := dash_of_numeral_false hn
      rw [if_pos hn]
      by_cases h1 : cur = "causes"
      · subst h1
        simp [hn, hd]
      · by_cases h2 : cur = "steps"
        · subst h2
          simp [hn, hd]
        · simp [h1, h2, hd]
    · rw [if_neg hn]
      by_cases h3 : stringsStartsWith (stringsTrimSpace l) "-".data = true ∧
          cur = "safety_warnings"
      · obtain ⟨hd, h3⟩ := h3
        subst h3
        simp [hn, hd]
      · rw [if_neg h3]
        have hw : (if cur = "safety_warnings" then [stringsTrimSpace l] else []).filter
            (fun x => stringsStartsWith x "-".data) = [] := by
          by_cases h4 : cur = "safety_warnings"
          · have hd : ¬ stringsStartsWith (stringsTrimSpace l) "-".data = true :=
              fun hd => h3 ⟨hd, h4⟩
            simp [h4, hd]
          · simp [h4]
        rw [hw]
        by_cases h5 : cur = "equipment_notes" ∧ stringsTrimSpace l ≠ []
        · rw [if_pos h5]
          obtain ⟨h5, -⟩ := h5
          subst h5
          simp
        · rw [if_neg h5]
          by_cases h6 : cur = "analysis" ∧ r.analysis = []
          · rw [if_pos h6]
            obtain ⟨h6, -⟩ := h6
            subst h6
            simp
          · rw [if_neg h6]
            simp [hn]

theorem troubleshooting_lists (text : GoString) :
    (ParseTroubleshootingResponse text).causes =
      (linesUnder troubleshootingSectionOfHeader "causes" "" (stringsSplit text '\n')).filter
        startsWithNumeral ∧
    (ParseTroubleshootingResponse text).steps =
      (linesUnder troubleshootingSectionOfHeader "steps" "" (stringsSplit text '\n')).filter
        startsWithNumeral ∧
    (ParseTroubleshootingResponse text).safetyWarnings =
      (linesUnder troubleshootingSectionOfHeader "safety_warnings" ""
        (stringsSplit text '\n')).filter (fun x => stringsStartsWith x "-".data) := by
  rw [parseTroubleshooting_eq]
  refine ⟨?_, ?_, ?_⟩
  · exact foldl_sel troubleshootingStep (fun r => r.causes)
      (sectionAfter troubleshootingSectionOfHeader)
      (fun cur ls => (linesUnder troubleshootingSectionOfHeader "causes" cur ls).filter
        startsWithNumeral)
      (fun _ => rfl)
      (fun cur l ls => by
        show List.filter _ _ = _
        rw [linesUnder_cons_append, List.filter_append])
      (fun cur r l =>
        ⟨(troubleshootingStep_lists cur r l).1, (troubleshootingStep_lists cur r l).2.1⟩) _ _ _
  · exact foldl_sel troubleshootingStep (fun r => r.steps)
      (sectionAfter troubleshootingSectionOfHeader)
      (fun cur ls => (linesUnder troubleshootingSectionOfHeader "steps" cur ls).filter
        startsWithNumeral)
      (fun _ => rfl)
      (fun cur l ls => by
        show List.filter _ _ = _
        rw [linesUnder_cons_append, List.filter_append])
      (fun cur r l =>
        ⟨(troubleshootingStep_lists cur r l).1, (troubleshootingStep_lists cur r l).2.2.1⟩) _ _ _
  · exact foldl_sel troubleshootingStep (fun r => r.safetyWarnings)
      (sectionAfter troubleshootingSectionOfHeader)
      (fun cur ls => (linesUnder troubleshootingSectionOfHeader "safety_warnings" cur
        ls).filter (fun x => stringsStartsWith x "-".data))
      (fun _ => rfl)
      (fun cur l ls => by
        show List.filter _ _ = _
        rw [linesUnder_cons_append, List.filter_append])
      (fun cur r l =>
        ⟨(troubleshootingStep_lists cur r l).1, (troubleshootingStep_lists cur r l).2.2.2⟩) _ _ _

theorem safety_lists (text : GoString) :
    (ParseSafetyResponse text).hazards =
      ((linesUnder safetySectionOfHeader "hazards" "" (stringsSplit text '\n')).filter
        isListItem).map hazardOfLine ∧
    (ParseSafetyResponse text).mitigations =
      (linesUnder safetySectionOfHeader "mitigations" "" (stringsSplit text '\n')).filter
        isListItem ∧
    (ParseSafetyResponse text).standards =
      (linesUnder safetySectionOfHeader "standards" "" (stringsSplit text '\n')).filter
        isListItem := by
  rw [parseSafety_eq]
  refine ⟨?_, ?_, ?_⟩
  · rw [foldl_safetyStep_hazards]
    rfl
  · exact foldl_sel safetyStep (fun r => r.mitigations)
      (sectionAfter safetySectionOfHeader)
      (fun cur ls => (linesUnder safetySectionOfHeader "mitigations" cur ls).filter isListItem)
      (fun _ => rfl)
      (fun cur l ls => by
        show List.filter _ _ = _
        rw [linesUnder_cons_append, List.filter_append])
      (fun cur r l => ⟨(safetyStep_lists cur r l).1, (safetyStep_lists cur r l).2.2.1⟩) _ _ _
  · exact foldl_sel safetyStep (fun r => r.standards)
      (sectionAfter safetySectionOfHeader)
      (fun cur ls => (linesUnder safetySectionOfHeader "standards" cur ls).filter isListItem)
      (fun _ => rfl)
      (fun cur l ls => by
        show List.filter _ _ = _
        rw [linesUnder_cons_append, List.filter_append])
      (fun cur r l => ⟨(safetyStep_lists cur r l).1, (safetyStep_lists cur r l).2.2.2⟩) _ _ _

theorem corrosion_lists (text : GoString) :
    (ParseCorrosionResponse text).mechanisms =
      (linesUnder corrosionSectionOfHeader "mechanisms" "" (stringsSplit text '\n')).filter
        isListItem ∧
    (ParseCorrosionResponse text).recommendations =
      (linesUnder corrosionSectionOfHeader "recommendations" ""
        (stringsSplit text '\n')).filter isListItem := by
  rw [parseCorrosion_eq]
  refine ⟨?_, ?_⟩
  · exact foldl_sel corrosionStep (fun r => r.mechanisms)
      (sectionAfter corrosionSectionOfHeader)
      (fun cur ls => (linesUnder corrosionSectionOfHeader "mechanisms" cur ls).filter
        isListItem)
      (fun _ => rfl)
      (fun cur l ls => by
        show List.filter _ _ = _
        rw [linesUnder_cons_append, List.filter_append])
      (fun cur r l => ⟨(corrosionStep_lists cur r l).1, (corrosionStep_lists cur r l).2.1⟩)
      _ _ _
  · exact foldl_sel corrosionStep (fun r => r.recommendations)
      (sectionAfter corrosionSectionOfHeader)
      (fun cur ls => (linesUnder corrosionSectionOfHeader "recommendations" cur ls).filter
        isListItem)
      (fun _ => rfl)
      (fun cur l ls => by
        show List.filter _ _ = _
        rw [linesUnder_cons_append, List.filter_append])
      (fun cur r l => ⟨(corrosionStep_lists cur r l).1, (corrosionStep_lists cur r l).2.2⟩)
      _ _ _

theorem vcra_lists (text : GoString) :
    ∃ r, ParseVCRAResponse text = some r ∧
      r.actions =
        (linesUnder vcraSectionOfHeader "actions" "" (stringsSplit text '\n')).filter
          isListItem ∧
      r.timeline =
        (linesUnder vcraSectionOfHeader "timeline" "" (stringsSplit text '\n')).filter
          isListItem := by
  obtain ⟨st1, e1, h1⟩ := foldlM_sel vcraStep (fun r => r.actions)
      (sectionAfter vcraSectionOfHeader)
      (fun cur ls => (linesUnder vcraSectionOfHeader "actions" cur ls).filter isListItem)
      (fun _ => rfl)
      (fun cur l ls => by
        show List.filter _ _ = _
        rw [linesUnder_cons_append, List.filter_append])
      (fun cur r l => by
        obtain ⟨r', e, ha, _⟩ := vcraStep_lists cur r l
        exact ⟨r', e, ha⟩) (stringsSplit text '\n') "" vcraDefault
  obtain ⟨st2, e2, h2⟩ := foldlM_sel vcraStep (fun r => r.timeline)
      (sectionAfter vcraSectionOfHeader)
      (fun cur ls => (linesUnder vcraSectionOfHeader "timeline" cur ls).filter isListItem)
      (fun _ => rfl)
      (fun cur l ls => by
        show List.filter _ _ = _
        rw [linesUnder_cons_append, List.filter_append])
      (fun cur r l => by
        obtain ⟨r', e, _, ht⟩ := vcraStep_lists cur r l
        exact ⟨r', e, ht⟩) (stringsSplit text '\n') "" vcraDefault
  have e12 : st1 = st2 := Option.some.inj (e1.symm.trans e2)
  subst e12
  refine ⟨st1.2, ?_, h1, h2⟩
  rw [parseVCRA_eq, e1]
  rfl

theorem hazardOfLine_names (ls : List GoString) :
    (ls.map hazardOfLine).map (fun h => h.name) = ls := by
  induction ls with
  | nil => rfl
  | cons l ls ih => rw [List.map_cons, List.map_cons, ih]; rfl

theorem filter_linesUnder_sublist (sectionOf : GoString → Option String) (sec : String)
    (pred : GoString → Bool) (text : GoString) :
    ((linesUnder sectionOf sec "" (stringsSplit text '\n')).filter pred).Sublist
      (nonBlankLines text) :=
  (List.filter_sublist _).trans (linesUnder_sublist _ _ _ _)

/-! ### C12 -/

/-- C12: for every text, each list returned by the four parsers (causes,
steps, safety warnings; actions, timeline; hazard names, mitigations,
standards; mechanisms, recommendations) is a sublist, in source order, of the
whitespace-trimmed non-blank lines of the text; `ParseVCRAResponse` returns a
result on every text. -/
theorem lists_are_subsequences (text : GoString) :
    ((ParseTroubleshootingResponse text).causes.Sublist (nonBlankLines text) ∧
      (ParseTroubleshootingResponse text).steps.Sublist (nonBlankLines text) ∧
      (ParseTroubleshootingResponse text).safetyWarnings.Sublist (nonBlankLines text)) ∧
    (∃ r, ParseVCRAResponse text = some r ∧
      r.actions.Sublist (nonBlankLines text) ∧ r.timeline.Sublist (nonBlankLines text)) ∧
    (((ParseSafetyResponse text).hazards.map (fun h => h.name)).Sublist (nonBlankLines text) ∧
      (ParseSafetyResponse text).mitigations.Sublist (nonBlankLines text) ∧
      (ParseSafetyResponse text).standards.Sublist (nonBlankLines text)) ∧
    ((ParseCorrosionResponse text).mechanisms.Sublist (nonBlankLines text) ∧
      (ParseCorrosionResponse text).recommendations.Sublist (nonBlankLines text)) := by
  obtain ⟨t1, t2, t3⟩ := troubleshooting_lists text
  obtain ⟨r, er, v1, v2⟩ := vcra_lists text
  obtain ⟨s1, s2, s3⟩ := safety_lists text
  obtain ⟨c1, c2⟩ := corrosion_lists text
  refine ⟨⟨?_, ?_, ?_⟩, ⟨r, er, ?_, ?_⟩, ⟨?_, ?_, ?_⟩, ?_, ?_⟩
  · rw [t1]; exact filter_linesUnder_sublist _ _ _ _
  · rw [t2]; exact filter_linesUnder_sublist _ _ _ _
  · rw [t3]; exact filter_linesUnder_sublist _ _ _ _
  · rw [v1]; exact filter_linesUnder_sublist _ _ _ _
  · rw [v2]; exact filter_linesUnder_sublist _ _ _ _
  · rw [s1, hazardOfLine_names]; exact filter_linesUnder_sublist _ _ _ _
  · rw [s2]; exact filter_linesUnder_sublist _ _ _ _
  · rw [s3]; exact filter_linesUnder_sublist _ _ _ _
  · rw [c1]; exact filter_linesUnder_sublist _ _ _ _
  · rw [c2]; exact filter_linesUnder_sublist _ _ _ _

/-! ### Header lines and the returned lists -/

theorem troubleshootingSectionOfHeader_isSome {l : GoString}
    (h : hasHeader troubleshootingHeaders l = true) :
    ∃ s, troubleshootingSectionOfHeader l = some s := by
  cases hs : troubleshootingSectionOfHeader l with
  | some s => exact ⟨s, rfl⟩
  | none =>
    exfalso
    unfold troubleshootingSectionOfHeader at hs
    split_ifs at hs with h1 h2 h3 h4 h5
    simp [hasHeader, troubleshootingHeaders, h1, h2, h3, h4, h5] at h

theorem vcraSectionOfHeader_isSome {l : GoString} (h : hasHeader vcraHeaders l = true) :
    ∃ s, vcraSectionOfHeader l = some s := by
  cases hs : vcraSectionOfHeader l with
  | some s => exact ⟨s, rfl⟩
  | none =>
    exfalso
    unfold vcraSectionOfHeader at hs
    split_ifs at hs with h1 h2 h3 h4 h5
    rw [Bool.or_eq_true, not_or] at h4 h5
    simp [hasHeader, vcraHeaders, h1, h2, h3, h4.1, h4.2, h5.1, h5.2] at h

theorem safetySectionOfHeader_isSome {l : GoString} (h : hasHeader safetyHeaders l = true) :
    ∃ s, safetySectionOfHeader l = some s := by
  cases hs : safetySectionOfHeader l with
  | some s => exact ⟨s, rfl⟩
  | none =>
    exfalso
    unfold safetySectionOfHeader at hs
    split_ifs at hs with h1 h2 h3 h4
    rw [Bool.or_eq_true, not_or] at h1 h2 h3 h4
    simp [hasHeader, safetyHeaders, h1.1, h1.2, h2.1, h2.2, h3.1, h3.2, h4.1, h4.2] at h

theorem corrosionSectionOfHeader_isSome {l : GoString}
    (h : hasHeader corrosionHeaders l = true) : ∃ s, corrosionSectionOfHeader l = some s := by
  cases hs : corrosionSectionOfHeader l with
  | some s => exact ⟨s, rfl⟩
  | none =>
    exfalso
    unfold corrosionSectionOfHeader at hs
    split_ifs at hs with h1 h2 h3 h4 h5
    rw [Bool.or_eq_true, not_or] at h1 h3 h4
    simp [hasHeader, corrosionHeaders, h1.1, h1.2, h2, h3.1, h3.2, h4.1, h4.2, h5] at h

theorem hasHeader_false_of_none {sectionOf : GoString → Option String} {hs : List GoString}
    (hsome : ∀ l, hasHeader hs l = true → ∃ s, sectionOf l = some s) {l : GoString}
    (h : sectionOf l = none) : hasHeader hs l = false := by
  cases hh : hasHeader hs l with
  | false => rfl
  | true =>
    obtain ⟨s, e⟩ := hsome l hh
    rw [h] at e
    cases e

theorem hasHeader_trim (hs : List GoString) (h : phrasesTrimmed hs = true) (l : GoString) :
    hasHeader hs (stringsTrimSpace l) = hasHeader hs l := by
  unfold hasHeader
  induction hs with
  | nil => rfl
  | cons p ps ih =>
    simp only [phrasesTrimmed, List.all_cons, Bool.and_eq_true] at h
    rw [List.any_cons, List.any_cons, ih (by simpa [phrasesTrimmed] using h.2)]
    congr 1
    match p, h.1 with
    | c :: cs, hp =>
      have hne : (c :: cs) ≠ [] := List.cons_ne_nil _ _
      refine containsPhrase_trim l (c :: cs) hne ?_ ?_
      · simpa using hp.1
      · have := hp.2
        rw [List.getLast?_eq_getLast _ hne] at this
        simpa using this

theorem filter_linesUnder_noHeader {sectionOf : GoString → Option String}
    {hs : List GoString} (hsome : ∀ l, hasHeader hs l = true → ∃ s, sectionOf l = some s)
    (ht : phrasesTrimmed hs = true) (sec cur : String) (ls : List GoString)
    (pred : GoString → Bool) :
    ∀ x ∈ (linesUnder sectionOf sec cur ls).filter pred, hasHeader hs x = false := by
  intro x hx
  obtain ⟨l, -, rfl, hl⟩ := linesUnder_forall sectionOf sec cur ls x (List.mem_of_mem_filter hx)
  rw [hasHeader_trim hs ht]
  exact hasHeader_false_of_none hsome hl

theorem trim_ne_nil_of_hasHeader (hs : List GoString) (ht : phrasesTrimmed hs = true)
    (hnil : hasHeader hs [] = false) {l : GoString} (h : hasHeader hs l = true) :
    stringsTrimSpace l ≠ [] := by
  intro h0
  have e := hasHeader_trim hs ht l
  rw [h0, hnil, h] at e
  cases e

theorem linesUnder_header_body (sectionOf : GoString → Option String) (sec : String)
    (H : GoString) (body : List GoString) (hne : stringsTrimSpace H ≠ [])
    (hH : sectionOf H = some sec) (hb : ∀ l ∈ body, sectionOf l = none) :
    linesUnder sectionOf sec "" (H :: body) = trimmedNonBlank body := by
  rw [linesUnder_cons, if_neg hne, hH]
  exact linesUnder_body sectionOf sec body hb

/-! ### C20 -/

/-- C20: for every text, no element of a list returned by a parser (for the
hazards: no hazard name) contains, in any letter case, a header phrase of
that parser; `ParseVCRAResponse` returns a result on every text. For example
the bullet "- Chemical hazards: burns" contains the header phrase "HAZARDS:",
and under the hazards section it is not returned as a hazard, while the next
bullet is. -/
theorem header_lines_never_returned :
    (∀ text : GoString,
      ∀ x ∈ (ParseTroubleshootingResponse text).causes ++
          (ParseTroubleshootingResponse text).steps ++
          (ParseTroubleshootingResponse text).safetyWarnings,
        hasHeader troubleshootingHeaders x = false) ∧
    (∀ text : GoString, ∃ r, ParseVCRAResponse text = some r ∧
      ∀ x ∈ r.actions ++ r.timeline, hasHeader vcraHeaders x = false) ∧
    (∀ text : GoString,
      ∀ x ∈ (ParseSafetyResponse text).hazards.map (fun h => h.name) ++
          (ParseSafetyResponse text).mitigations ++ (ParseSafetyResponse text).standards,
        hasHeader safetyHeaders x = false) ∧
    (∀ text : GoString,
      ∀ x ∈ (ParseCorrosionResponse text).mechanisms ++
          (ParseCorrosionResponse text).recommendations,
        hasHeader corrosionHeaders x = false) ∧
    (containsPhrase "- Chemical hazards: burns".data "HAZARDS:".data = true ∧
      (ParseSafetyResponse "HAZARDS:\n- Chemical hazards: burns\n- Fire".data).hazards =
        [hazardOfLine "- Fire".data]) := by
  refine ⟨?_, ?_, ?_, ?_, by decide⟩
  · intro text x hx
    obtain ⟨t1, t2, t3⟩ := troubleshooting_lists text
    rw [t1, t2, t3] at hx
    rcases List.mem_append.mp hx with hx | hx
    · rcases List.mem_append.mp hx with hx | hx
      · exact filter_linesUnder_noHeader (fun _ => troubleshootingSectionOfHeader_isSome)
          (by decide) _ _ _ _ x hx
      · exact filter_linesUnder_noHeader (fun _ => troubleshootingSectionOfHeader_isSome)
          (by decide) _ _ _ _ x hx
    · exact filter_linesUnder_noHeader (fun _ => troubleshootingSectionOfHeader_isSome)
        (by decide) _ _ _ _ x hx
  · intro text
    obtain ⟨r, er, v1, v2⟩ := vcra_lists text
    refine ⟨r, er, ?_⟩
    intro x hx
    rw [v1, v2] at hx
    rcases List.mem_append.mp hx with hx | hx
    · exact filter_linesUnder_noHeader (fun _ => vcraSectionOfHeader_isSome)
        (by decide) _ _ _ _ x hx
    · exact filter_linesUnder_noHeader (fun _ => vcraSectionOfHeader_isSome)
        (by decide) _ _ _ _ x hx
  · intro text x hx
    obtain ⟨s1, s2, s3⟩ := safety_lists text
    rw [s1, s2, s3, hazardOfLine_names] at hx
    rcases List.mem_append.mp hx with hx | hx
    · rcases List.mem_append.mp hx with hx | hx
      · exact filter_linesUnder_noHeader (fun _ => safetySectionOfHeader_isSome)
          (by decide) _ _ _ _ x hx
      · exact filter_linesUnder_noHeader (fun _ => safetySectionOfHeader_isSome)
          (by decide) _ _ _ _ x hx
    · exact filter_linesUnder_noHeader (fun _ => safetySectionOfHeader_isSome)
        (by decide) _ _ _ _ x hx
  · intro text x hx
    obtain ⟨c1, c2⟩ := corrosion_lists text
    rw [c1, c2] at hx
    rcases List.mem_append.mp hx with hx | hx
    · exact filter_linesUnder_noHeader (fun _ => corrosionSectionOfHeader_isSome)
        (by decide) _ _ _ _ x hx
    · exact filter_linesUnder_noHeader (fun _ => corrosionSectionOfHeader_isSome)
        (by decide) _ _ _ _ x hx

/-! ### C18 -/

/-- C18: on a text made of one header line `H` followed by lines `body` none
of which contains a header phrase of the parser, when `H` opens the section
of a list (it contains a header phrase of the list and none of the phrases
tested before it), that list is exactly the non-blank trimmed lines of `body`
that begin with "-", with "•", or with digits followed by a period, in source
order: for the actions and the timeline of `ParseVCRAResponse` (which returns
a result), the mitigations and standards of `ParseSafetyResponse`, and the
mechanisms and recommendations of `ParseCorrosionResponse`. The safety
warnings of `ParseTroubleshootingResponse` are exactly the non-blank trimmed
lines of `body` that begin with "-". -/
theorem list_under_header :
    (∀ (text H : GoString) (body : List GoString), stringsSplit text '\n' = H :: body →
      (∀ l ∈ body, hasHeader vcraHeaders l = false) →
      ∃ r, ParseVCRAResponse text = some r ∧
        (vcraSectionOfHeader H = some "actions" →
          r.actions = (trimmedNonBlank body).filter isListItem) ∧
        (vcraSectionOfHeader H = some "timeline" →
          r.timeline = (trimmedNonBlank body).filter isListItem)) ∧
    (∀ (text H : GoString) (body : List GoString), stringsSplit text '\n' = H :: body →
      (∀ l ∈ body, hasHeader safetyHeaders l = false) →
      (safetySectionOfHeader H = some "mitigations" →
        (ParseSafetyResponse text).mitigations = (trimmedNonBlank body).filter isListItem) ∧
      (safetySectionOfHeader H = some "standards" →
        (ParseSafetyResponse text).standards = (trimmedNonBlank body).filter isListItem)) ∧
    (∀ (text H : GoString) (body : List GoString), stringsSplit text '\n' = H :: body →
      (∀ l ∈ body, hasHeader corrosionHeaders l = false) →
      (corrosionSectionOfHeader H = some "mechanisms" →
        (ParseCorrosionResponse text).mechanisms =
          (trimmedNonBlank body).filter isListItem) ∧
      (corrosionSectionOfHeader H = some "recommendations" →
        (ParseCorrosionResponse text).recommendations =
          (trimmedNonBlank body).filter isListItem)) ∧
    (∀ (text H : GoString) (body : List GoString), stringsSplit text '\n' = H :: body →
      (∀ l ∈ body, hasHeader troubleshootingHeaders l = false) →
      troubleshootingSectionOfHeader H = some "safety_warnings" →
      (ParseTroubleshootingResponse text).safetyWarnings =
        (trimmedNonBlank body).filter (fun x => stringsStartsWith x "-".data)) := by
  refine ⟨?_, ?_, ?_, ?_⟩
  · intro text H body hsplit hb
    obtain ⟨r, er, v1, v2⟩ := vcra_lists text
    rw [hsplit] at v1 v2
    have hbody : ∀ l ∈ body, vcraSectionOfHeader l = none :=
      fun l hl => vcraSectionOfHeader_none (hb l hl)
    have hne : ∀ s, vcraSectionOfHeader H = some s → stringsTrimSpace H ≠ [] := by
      intro s hs
      refine trim_ne_nil_of_hasHeader vcraHeaders (by decide) (by decide) ?_
      cases hh : hasHeader vcraHeaders H with
      | true => rfl
      | false => rw [vcraSectionOfHeader_none hh] at hs; cases hs
    refine ⟨r, er, fun hH => ?_, fun hH => ?_⟩
    · rw [v1, linesUnder_header_body _ _ _ _ (hne _ hH) hH hbody]
    · rw [v2, linesUnder_header_body _ _ _ _ (hne _ hH) hH hbody]
  · intro text H body hsplit hb
    obtain ⟨-, s2, s3⟩ := safety_lists text
    rw [hsplit] at s2 s3
    have hbody : ∀ l ∈ body, safetySectionOfHeader l = none :=
      fun l hl => safetySectionOfHeader_none (hb l hl)
    have hne : ∀ s, safetySectionOfHeader H = some s → stringsTrimSpace H ≠ [] := by
      intro s hs
      refine trim_ne_nil_of_hasHeader safetyHeaders (by decide) (by decide) ?_
      cases hh : hasHeader safetyHeaders H with
      | true => rfl
      | false => rw [safetySectionOfHeader_none hh] at hs; cases hs
    refine ⟨fun hH => ?_, fun hH => ?_⟩
    · rw [s2, linesUnder_header_body _ _ _ _ (hne _ hH) hH hbody]
    · rw [s3, linesUnder_header_body _ _ _ _ (hne _ hH) hH hbody]
  · intro text H body hsplit hb
    obtain ⟨c1, c2⟩ := corrosion_lists text
    rw [hsplit] at c1 c2
    have hbody : ∀ l ∈ body, corrosionSectionOfHeader l = none :=
      fun l hl => corrosionSectionOfHeader_none (hb l hl)
    have hne : ∀ s, corrosionSectionOfHeader H = some s → stringsTrimSpace H ≠ [] := by
      intro s hs
      refine trim_ne_nil_of_hasHeader corrosionHeaders (by decide) (by decide) ?_
      cases hh : hasHeader corrosionHeaders H with
      | true => rfl
      | false => rw [corrosionSectionOfHeader_none hh] at hs; cases hs
    refine ⟨fun hH => ?_, fun hH => ?_⟩
    · rw [c1, linesUnder_header_body _ _ _ _ (hne _ hH) hH hbody]
    · rw [c2, linesUnder_header_body _ _ _ _ (hne _ hH) hH hbody]
  · intro text H body hsplit hb hH
    obtain ⟨-, -, t3⟩ := troubleshooting_lists text
    rw [hsplit] at t3
    have hbody : ∀ l ∈ body, troubleshootingSectionOfHeader l = none :=
      fun l hl => troubleshootingSectionOfHeader_none (hb l hl)
    have hne : stringsTrimSpace H ≠ [] := by
      refine trim_ne_nil_of_hasHeader troubleshootingHeaders (by decide) (by decide) ?_
      cases hh : hasHeader troubleshootingHeaders H with
      | true => rfl
      | false => rw [troubleshootingSectionOfHeader_none hh] at hH; cases hH
    rw [t3, linesUnder_header_body _ _ _ _ hne hH hbody]

/-- Witness for C18: under each list header the bullets and numbered lines
are returned in order, the prose line and the blank line are dropped, and the
header line contributes nothing; under "SAFETY WARNINGS:" only the lines that
begin with "-" are returned. -/
theorem list_under_header_witness :
    (∃ r, ParseVCRAResponse
        "RECOMMENDED ACTIONS:\n- Isolate pump\nsome prose\n\n 12. Vent line\n• Tag out".data =
          some r ∧
      r.actions = ["- Isolate pump".data, "12. Vent line".data, "• Tag out".data]) ∧
    (ParseSafetyResponse
        "- RELEVANT STANDARDS:\n- OSHA 1910\nsome prose\n\n2. API 570".data).standards =
      ["- OSHA 1910".data, "2. API 570".data] ∧
    (ParseCorrosionResponse
        "CORROSION MECHANISMS:\n- Pitting\nsome prose\n\n3. Crevice".data).mechanisms =
      ["- Pitting".data, "3. Crevice".data] ∧
    (ParseTroubleshootingResponse
        "SAFETY WARNINGS:\n- Wear gloves\n• Keep clear\n1. Lock out\n -Vent first".data
      ).safetyWarnings = ["- Wear gloves".data, "-Vent first".data] :=
  ⟨(list_under_header.1 _ "RECOMMENDED ACTIONS:".data
      ["- Isolate pump".data, "some prose".data, [], " 12. Vent line".data, "• Tag out".data]
      (by decide) (by decide)).imp
      (fun _ h => ⟨h.1, (h.2.1 (by decide)).trans (by decide)⟩),
   ((list_under_header.2.1 _ "- RELEVANT STANDARDS:".data
      ["- OSHA 1910".data, "some prose".data, [], "2. API 570".data]
      (by decide) (by decide)).2 (by decide)).trans (by decide),
   ((list_under_header.2.2.1 _ "CORROSION MECHANISMS:".data
      ["- Pitting".data, "some prose".data, [], "3. Crevice".data]
      (by decide) (by decide)).1 (by decide)).trans (by decide),
   (list_under_header.2.2.2 _ "SAFETY WARNINGS:".data
      ["- Wear gloves".data, "• Keep clear".data, "1. Lock out".data, " -Vent first".data]
      (by decide) (by decide) (by decide)).trans (by decide)⟩

/-! ### C21 -/

end PcstAi
